import Mathlib

/-!
# FrFTL — Flash Resident Flash Translation Layer: formal model

A shallow embedding of `radio/src/thirdparty/frftl/frftl.cpp` (FrFTL, the NOR
flash translation layer).  Every definition follows the corresponding C
function line by line; machine integers are modelled as `Nat`/`Int` with
explicit `% 2^w` where overflow can matter, pointers to cache slots are
modelled as indices into the buffer list, and the four-callback flash HAL is
instantiated with the ideal NOR device:

* `flash_read` copies bytes and always succeeds,
* `flash_program` clears bits (bitwise AND of old and new contents),
* `flash_erase` sets the whole 4096-byte page to `0xFF`,
* `is_flash_erased` reports whether the page is all-ones.

Every HAL call is logged in a trace (`FlashOp`) so that ordering and
idempotency properties of `ftlSync` can be stated.  C code paths that
dereference a possibly-NULL buffer pointer without a check are modelled as an
`Option` failure (`none` = the C code would have dereferenced NULL).
-/

namespace FrFTL

/-- 4096-byte page contents, byte-indexed (only indices `< 4096` are used). -/
abbrev PageData := Nat → Nat

/-- The NOR device: physical page number → page contents. -/
abbrev Flash := Nat → PageData

/-- `PhysicalPageState` enum of frftl.cpp (2-bit per-page state). -/
inductive PhysicalPageState
  | unknown
  | used
  | eraseRequired
  | erased
deriving DecidableEq, Repr

/-- Numeric value of a `PhysicalPageState`, as laid out in the C enum. -/
def PhysicalPageState.toNat : PhysicalPageState → Nat
  | .unknown => 0
  | .used => 1
  | .eraseRequired => 2
  | .erased => 3

/-- Decode the 2-bit state value (the C code masks with `0x3`). -/
def PhysicalPageState.decode (v : Nat) : PhysicalPageState :=
  match v with
  | 0 => .unknown
  | 1 => .used
  | 2 => .eraseRequired
  | _ => .erased

/-- `ProgramMode` enum of frftl.cpp (pending program action of a buffer). -/
inductive ProgramMode
  | idle                  -- NONE in the C source
  | program               -- PROGRAM
  | eraseProgram          -- ERASE_PROGRAM
  | relocateEraseProgram  -- RELOCATE_ERASE_PROGRAM
deriving DecidableEq, Repr

/-- `PageInfo` record of frftl.cpp: packed 3 bytes on media
(`int16_t physicalPageNo; uint8_t sectStatus`). -/
structure PageInfo where
  physicalPageNo : Int
  sectStatus : Nat
deriving DecidableEq, Repr

/-- `PageBuffer` cache slot of frftl.cpp.  `page` is the 4096-byte content. -/
structure PageBuffer where
  logicalPageNo : Int   -- int16_t in the C source, −1 when the slot is empty
  physicalPageNo : Int  -- int16_t, −1 when empty
  lru : Nat             -- uint8_t rank entry (see findPhysicalPageInBuffer)
  lock : Bool
  pMode : ProgramMode
  page : PageData

instance : Inhabited PageBuffer :=
  ⟨{ logicalPageNo := -1, physicalPageNo := -1, lru := 0, lock := false,
     pMode := .idle, page := fun _ => 0xff }⟩

/-- Configuration fields of the `FrFTL` struct that are set once by `ftlInit`
and never written afterwards (`physicalPageCount`, `ttPageCount`,
`usableSectorCount`, `pageBufferSize`). -/
structure FTLCfg where
  physicalPageCount : Nat
  ttPageCount : Nat
  usableSectorCount : Nat
  pageBufferSize : Nat
deriving DecidableEq, Repr

/-- One HAL call, as logged in the trace.  A `program` event carries the
`logicalPageNo` of the buffer whose contents are being programmed (−2 for the
direct programs issued by `createFTL`, which do not go through a buffer). -/
inductive FlashOp
  | read : Nat → FlashOp
  | program : Nat → Int → FlashOp
  | erase : Nat → FlashOp
deriving DecidableEq, Repr

/-- Mutable state of the `FrFTL` struct (plus the flash device itself, since
the HAL callbacks close over it). -/
structure FTL where
  cfg : FTLCfg
  mttPhysicalPageNo : Nat
  writeFrontier : Nat
  physicalPageState : Nat → Nat   -- packed words of the 2-bit state map
  physicalPageStateResolved : Bool
  pageBuffer : List PageBuffer
  flash : Flash

/-- A trace of HAL calls. -/
abbrev Trace := List FlashOp

/-! ## Small integer helpers (C implicit conversions) -/

/-- Reinterpret a `uint16_t` value as `int16_t` (two's complement). -/
def i16ofU16 (v : Nat) : Int :=
  if v < 32768 then (v : Int) else (v : Int) - 65536

/-- Convert an `int16_t` value to `uint16_t` (two's complement). -/
def i16toU16 (p : Int) : Nat := (p % 65536).toNat

/-! ## Byte-level page access -/

/-- Write one byte of a page. -/
def writeByte (d : PageData) (i v : Nat) : PageData :=
  fun j => if j = i then v else d j

/-- Little-endian 16-bit read. -/
def readLE16 (d : PageData) (off : Nat) : Nat :=
  d off + 256 * d (off + 1)

/-- Little-endian 16-bit write. -/
def writeLE16 (d : PageData) (off v : Nat) : PageData :=
  writeByte (writeByte d off (v % 256)) (off + 1) (v / 256 % 256)

/-- Little-endian 32-bit read. -/
def readLE32 (d : PageData) (off : Nat) : Nat :=
  d off + 256 * d (off + 1) + 65536 * d (off + 2) + 16777216 * d (off + 3)

/-- Little-endian 32-bit write. -/
def writeLE32 (d : PageData) (off v : Nat) : PageData :=
  writeByte (writeByte (writeByte (writeByte d
    off (v % 256))
    (off + 1) (v / 256 % 256))
    (off + 2) (v / 65536 % 256))
    (off + 3) (v / 16777216 % 256)

/-- The all-`c` page (`memset`). -/
def constPage (c : Nat) : PageData := fun _ => c

/-- `memcpy` of one 512-byte sector into a page at sector slot `ps`. -/
def writeSectorBytes (d : PageData) (ps : Nat) (src : Nat → Nat) : PageData :=
  fun b => if ps * 512 ≤ b ∧ b < ps * 512 + 512 then src (b - ps * 512) else d b

/-- The 512-byte sector slice of a page (`memcpy` out). -/
def sectorSlice (d : PageData) (ps : Nat) : Nat → Nat :=
  fun b => d (ps * 512 + b)

/-- Read TT record `rec` of a page (packed 3-byte `PageInfo` at offset
`16 + 3*rec`, little-endian `int16_t` then `uint8_t`). -/
def readPageInfoBytes (d : PageData) (rec : Nat) : PageInfo :=
  { physicalPageNo := i16ofU16 (readLE16 d (16 + 3 * rec)),
    sectStatus := d (16 + 3 * rec + 2) }

/-- Write TT record `rec` of a page (`memcpy` of a packed `PageInfo`). -/
def writePageInfoBytes (d : PageData) (rec : Nat) (pi : PageInfo) : PageData :=
  let u := i16toU16 pi.physicalPageNo
  writeByte (writeLE16 d (16 + 3 * rec) u) (16 + 3 * rec + 2) pi.sectStatus

/-! ## CRC-16

Modelled from the spec: the repository's `crc16(CRC_1021, buf, len, 0xffff)`
(crc.cpp is not among the sources).  The spec fixes it as the CRC-16 with
polynomial 0x1021, initial value 0xFFFF, MSB first, over the first 14 header
bytes with the padding field forced to 0xFFFF. -/

/-- One bit round of the 0x1021 CRC. -/
def crc16Round (c : Nat) : Nat :=
  if c.testBit 15 then ((c <<< 1) ^^^ 0x1021) &&& 0xffff else (c <<< 1) &&& 0xffff

/-- Fold one byte into the CRC. -/
def crc16Byte (c b : Nat) : Nat :=
  (List.range 8).foldl (fun acc _ => crc16Round acc) ((c ^^^ (b <<< 8)) &&& 0xffff)

/-- CRC over a byte list, initial value 0xFFFF. -/
def crc16List (bs : List Nat) : Nat :=
  bs.foldl crc16Byte 0xffff

/-- `calcCRC` of frftl.cpp applied to a header stored at the start of `d`:
CRC over the 14 first bytes with bytes 12–13 (the padding) forced to 0xFF. -/
def calcCRCHeader (d : PageData) : Nat :=
  crc16List [d 0, d 1, d 2, d 3, d 4, d 5, d 6, d 7, d 8, d 9, d 10, d 11,
             0xff, 0xff]

/-! ## Constants -/

def SECTOR_SIZE : Nat := 512
def PAGE_SIZE : Nat := 4096
def SECTORS_PER_PAGE : Nat := 8
def TT_PAGE_MAGIC : Nat := 0xEF87364A
def TT_RECORDS_PER_PAGE : Nat := 1024
def BUFFER_SIZE_MULTIPLIER : Nat := 4
def RESERVED_PAGES_MULTIPLIER : Nat := 16

/-! ## Ideal flash HAL -/

/-- `is_flash_erased` helper: check that the `2^k` bytes starting at `lo` are
all `0xFF` (balanced recursion keeps kernel reduction depth logarithmic). -/
def erasedPow (d : PageData) (lo : Nat) : Nat → Bool
  | 0 => d lo == 0xff
  | k + 1 => erasedPow d lo k && erasedPow d (lo + 2 ^ k) k

/-- `is_flash_erased`: the page (4096 = 2^12 bytes) is all-ones. -/
def isFlashErasedPage (f : Flash) (p : Nat) : Bool :=
  erasedPow (f p) 0 12

/-- `flash_program`: NOR semantics, bits only go 1→0 (bitwise AND). -/
def flashProgramPage (f : Flash) (p : Nat) (d : PageData) : Flash :=
  fun q => if q = p then (fun b => f p b &&& d b) else f q

/-- `flash_erase`: page becomes all-ones. -/
def flashErasePage (f : Flash) (p : Nat) : Flash :=
  fun q => if q = p then constPage 0xff else f q

/-! ## Physical page state map (frftl.cpp lines 96–109) -/

def getPhysicalPageState (ftl : FTL) (p : Nat) : PhysicalPageState :=
  PhysicalPageState.decode ((ftl.physicalPageState (p / 16) >>> (p % 16 * 2)) &&& 3)

def setPhysicalPageState (ftl : FTL) (p : Nat) (s : PhysicalPageState) : FTL :=
  let idx := p / 16
  let mask := 3 <<< (p % 16 * 2)
  let w := ftl.physicalPageState idx
  let w := (w &&& (0xffffffff ^^^ mask)) ||| ((s.toNat &&& 3) <<< (p % 16 * 2))
  { ftl with physicalPageState := fun j => if j = idx then w else ftl.physicalPageState j }

/-! ## resolveUnknownState (lines 118–150)

The C loop walks up to `physicalPageCount` pages starting at the write
frontier and resolves at most `count` UNKNOWN pages; we recurse on the
remaining number of loop iterations. -/

def resolveGo (ftl : FTL) (idx count : Nat) : Nat → FTL × Bool
  | 0 => (ftl, false)   -- loop ran to completion without early end
  | fuel + 1 =>
    if getPhysicalPageState ftl idx = .unknown then
      if count - 1 = 0 then
        (setPhysicalPageState ftl idx
          (if isFlashErasedPage ftl.flash idx then .erased else .eraseRequired),
         true)   -- earlyEnd
      else
        resolveGo
          (setPhysicalPageState ftl idx
            (if isFlashErasedPage ftl.flash idx then .erased else .eraseRequired))
          (if idx + 1 ≥ ftl.cfg.physicalPageCount then 0 else idx + 1)
          (count - 1) fuel
    else
      resolveGo ftl (if idx + 1 ≥ ftl.cfg.physicalPageCount then 0 else idx + 1)
        count fuel

def resolveUnknownState (ftl : FTL) (count : Nat) : FTL :=
  if ftl.physicalPageStateResolved then ftl
  else if count = 0 then
    -- count is a uint16_t; count = 0 decrements to 0xFFFF on the first hit,
    -- behaving like a very large count.  No caller passes 0.
    ftl
  else
    let (ftl', earlyEnd) := resolveGo ftl ftl.writeFrontier count ftl.cfg.physicalPageCount
    if earlyEnd then ftl'
    else { ftl' with physicalPageStateResolved := true }

/-! ## Page buffer cache (lines 152–284) -/

/-- Fetch cache slot `i` (C pointer `pageBuffer + i`). -/
def bufGet (l : List PageBuffer) (i : Nat) : PageBuffer := l.getD i default

/-- The LRU promote loop shared by `findPhysicalPageInBuffer` and
`loadPhysicalPageInBuffer`: find the first position `j ≥ 1` whose `lru` field
equals the accessed slot index `b`, shift `lru[1..j] := lru[0..j-1]` and set
`lru[0] := b`.  Only the `lru` fields change. -/
def lruFindJ (l : List PageBuffer) (b : Nat) : Option Nat :=
  (List.range l.length).find? (fun j => decide (0 < j) && ((bufGet l j).lru == b))

def lruPromote (l : List PageBuffer) (b : Nat) : List PageBuffer :=
  match lruFindJ l b with
  | none => l
  | some j =>
    (List.range l.length).map fun i =>
      let s := bufGet l i
      if i = 0 then { s with lru := b }
      else if i ≤ j then { s with lru := (bufGet l (i - 1)).lru }
      else s

/-- `findPhysicalPageInBuffer` (lines 152–181): linear scan by physical page
number; on a hit promote the slot to most-recently-used.  Returns the slot
index (the C function returns the slot pointer). -/
def findPhysicalPageInBuffer (ftl : FTL) (physicalPageNo : Nat) :
    Option Nat × FTL :=
  match (List.range ftl.cfg.pageBufferSize).find?
      (fun i => (bufGet ftl.pageBuffer i).physicalPageNo == (physicalPageNo : Int)) with
  | none => (none, ftl)
  | some i => (some i, { ftl with pageBuffer := lruPromote ftl.pageBuffer i })

/-- The eviction scan of `loadPhysicalPageInBuffer`/`initPhysicalPageInBuffer`
(`for i = size-1 .. 0: idx := buf[i].lru; if ¬buf[idx].lock break`). Returns
the last examined `idx` (which may still be locked when all are locked). -/
def evictScan (l : List PageBuffer) : Nat → Nat
  | 0 => (bufGet l 0).lru
  | i + 1 =>
    let idx := (bufGet l (i + 1)).lru
    if (bufGet l idx).lock then evictScan l i else idx

/-- `loadPhysicalPageInBuffer` (lines 183–233).  `none` = the C function
returned NULL (all slots locked; the model HAL read never fails). -/
def loadPhysicalPageInBuffer (ftl : FTL) (logicalPageNo physicalPageNo : Nat) :
    Option Nat × FTL × Trace :=
  match findPhysicalPageInBuffer ftl physicalPageNo with
  | (some i, ftl') => (some i, ftl', [])
  | (none, _) =>
    let idx := evictScan ftl.pageBuffer (ftl.cfg.pageBufferSize - 1)
    if (bufGet ftl.pageBuffer idx).lock then (none, ftl, [])
    else
      let s := bufGet ftl.pageBuffer idx
      let s := { s with
        logicalPageNo := i16ofU16 logicalPageNo,
        physicalPageNo := (physicalPageNo : Int),
        lock := false,
        pMode := .idle,
        page := ftl.flash physicalPageNo }
      let bufs := lruPromote (ftl.pageBuffer.set idx s) idx
      (some idx, { ftl with pageBuffer := bufs }, [.read physicalPageNo])

/-- `initPhysicalPageInBuffer` (lines 235–266): like load but fills the page
with 0xFF instead of reading flash, locks the slot with ERASE_PROGRAM, and
does not touch the LRU order.  On a cache hit the slot is returned as-is. -/
def initPhysicalPageInBuffer (ftl : FTL) (logicalPageNo physicalPageNo : Nat) :
    Option Nat × FTL :=
  match findPhysicalPageInBuffer ftl physicalPageNo with
  | (some i, ftl') => (some i, ftl')
  | (none, _) =>
    let idx := evictScan ftl.pageBuffer (ftl.cfg.pageBufferSize - 1)
    if (bufGet ftl.pageBuffer idx).lock then (none, ftl)
    else
      let s := bufGet ftl.pageBuffer idx
      let s := { s with
        logicalPageNo := i16ofU16 logicalPageNo,
        physicalPageNo := (physicalPageNo : Int),
        lock := true,
        pMode := .eraseProgram,
        page := constPage 0xff }
      (some idx, { ftl with pageBuffer := ftl.pageBuffer.set idx s })

/-- `hasFreeBuffers` (lines 268–284): at least `bufferCount` unlocked slots. -/
def hasFreeBuffers (ftl : FTL) (bufferCount : Nat) : Bool :=
  bufferCount ≤ (ftl.pageBuffer.take ftl.cfg.pageBufferSize).countP
    (fun b => b.lock = false)

/-! ## Translation table access (lines 286–371) -/

/-- `readPhysicalSector` (lines 286–295). -/
def readPhysicalSector (ftl : FTL) (logicalPageNo physicalPageNo pageSectorNo : Nat) :
    Option (Nat → Nat) × FTL × Trace :=
  match loadPhysicalPageInBuffer ftl logicalPageNo physicalPageNo with
  | (some i, ftl', tr) =>
    (some (sectorSlice (bufGet ftl'.pageBuffer i).page pageSectorNo), ftl', tr)
  | (none, ftl', tr) => (none, ftl', tr)

/-- `readPhysicalPageInfo` (lines 297–308). -/
def readPhysicalPageInfo (ftl : FTL) (logicalPageNo physicalPageNo recordNo : Nat) :
    Option PageInfo × FTL × Trace :=
  match loadPhysicalPageInBuffer ftl logicalPageNo physicalPageNo with
  | (some i, ftl', tr) =>
    (some (readPageInfoBytes (bufGet ftl'.pageBuffer i).page recordNo), ftl', tr)
  | (none, ftl', tr) => (none, ftl', tr)

/-- `readPageInfo` (lines 310–330): one- or two-level lookup. -/
def readPageInfo (ftl : FTL) (logicalPageNo : Nat) :
    Option PageInfo × FTL × Trace :=
  if logicalPageNo < TT_RECORDS_PER_PAGE then
    readPhysicalPageInfo ftl 0 ftl.mttPhysicalPageNo logicalPageNo
  else
    let sttLogicalPageNo := logicalPageNo / TT_RECORDS_PER_PAGE
    match readPhysicalPageInfo ftl 0 ftl.mttPhysicalPageNo sttLogicalPageNo with
    | (none, ftl', tr) => (none, ftl', tr)
    | (some secondaryTTInfo, ftl', tr) =>
      match readPhysicalPageInfo ftl' sttLogicalPageNo
          (i16toU16 secondaryTTInfo.physicalPageNo)
          (logicalPageNo % TT_RECORDS_PER_PAGE) with
      | (r, ftl'', tr') => (r, ftl'', tr ++ tr')

/-- `updatePhysicalPageInfo` (lines 332–349): load the TT page, lock it,
promote NONE to PROGRAM, and memcpy the record in. -/
def updatePhysicalPageInfo (ftl : FTL) (pi : PageInfo)
    (logicalPageNo physicalPageNo recordNo : Nat) : Bool × FTL × Trace :=
  match loadPhysicalPageInBuffer ftl logicalPageNo physicalPageNo with
  | (none, ftl', tr) => (false, ftl', tr)
  | (some i, ftl', tr) =>
    let s := bufGet ftl'.pageBuffer i
    let s := { s with
      lock := true,
      pMode := if s.pMode = .idle then .program else s.pMode,
      page := writePageInfoBytes s.page recordNo pi }
    (true, { ftl' with pageBuffer := ftl'.pageBuffer.set i s }, tr)

/-- `updatePageInfo` (lines 351–371). -/
def updatePageInfo (ftl : FTL) (pi : PageInfo) (logicalPageNo : Nat) :
    Bool × FTL × Trace :=
  if logicalPageNo < TT_RECORDS_PER_PAGE then
    updatePhysicalPageInfo ftl pi 0 ftl.mttPhysicalPageNo logicalPageNo
  else
    let sttLogicalPageNo := logicalPageNo / TT_RECORDS_PER_PAGE
    match readPhysicalPageInfo ftl 0 ftl.mttPhysicalPageNo sttLogicalPageNo with
    | (none, ftl', tr) => (false, ftl', tr)
    | (some secondaryTTInfo, ftl', tr) =>
      match updatePhysicalPageInfo ftl' pi sttLogicalPageNo
          (i16toU16 secondaryTTInfo.physicalPageNo)
          (logicalPageNo % TT_RECORDS_PER_PAGE) with
      | (ok, ftl'', tr') => (ok, ftl'', tr ++ tr')

/-! ## Allocator (lines 373–398) -/

/-- The scan loop of `allocatePhysicalPage`.  The C loop gives up (returns −1)
after `physicalPageCount + 1` steps over USED pages; `fuel` counts the
remaining allowed steps. -/
def allocGo (ftl : FTL) : Nat → Option Nat × FTL
  | 0 => (none, ftl)
  | fuel + 1 =>
    if getPhysicalPageState ftl ftl.writeFrontier = .used then
      let wf := if ftl.writeFrontier + 1 ≥ ftl.cfg.physicalPageCount then 0
                else ftl.writeFrontier + 1
      allocGo { ftl with writeFrontier := wf } fuel
    else
      let p := ftl.writeFrontier
      let wf := if ftl.writeFrontier + 1 ≥ ftl.cfg.physicalPageCount then 0
                else ftl.writeFrontier + 1
      (some p, { ftl with writeFrontier := wf })

def allocatePhysicalPage (ftl : FTL) : Option Nat × FTL :=
  allocGo ftl (ftl.cfg.physicalPageCount + 1)

/-! ## programPageInBuffer (lines 400–475)

Note: in the RELOCATE_ERASE_PROGRAM case the C source checks
`getPhysicalPageState(ftl, buffer->physicalPageNo)` — i.e. the state of the
**old** physical page — to decide whether to erase, while `addr` points at the
**new** page.  The model reproduces this faithfully. -/

def programPageInBuffer (ftl : FTL) (i : Nat) : Bool × FTL × Trace :=
  let b := bufGet ftl.pageBuffer i
  match b.pMode with
  | .idle => (true, ftl, [])
  | .program =>
    let p := i16toU16 b.physicalPageNo
    let ftl := { ftl with flash := flashProgramPage ftl.flash p b.page }
    let ftl := setPhysicalPageState ftl p .used
    (true, ftl, [.program p b.logicalPageNo])
  | .eraseProgram =>
    let p := i16toU16 b.physicalPageNo
    let needErase := getPhysicalPageState ftl p ≠ .erased
    let ftl := if needErase then { ftl with flash := flashErasePage ftl.flash p } else ftl
    let tr : Trace := if needErase then [.erase p] else []
    let ftl := { ftl with flash := flashProgramPage ftl.flash p b.page }
    let ftl := setPhysicalPageState ftl p .used
    (true, ftl, tr ++ [.program p b.logicalPageNo])
  | .relocateEraseProgram =>
    match allocatePhysicalPage ftl with
    | (none, ftl') => (false, ftl', [])
    | (some newPhysicalPageNo, ftl') =>
      let b := bufGet ftl'.pageBuffer i
      let page :=
        if b.logicalPageNo < (ftl'.cfg.ttPageCount : Int) then
          let page :=
            if b.logicalPageNo = 0 then
              writePageInfoBytes b.page 0
                { physicalPageNo := (newPhysicalPageNo : Int),
                  sectStatus := (b.page (16 + 2)) }
            else b.page
          -- TT page: serial++ and CRC recomputation (calcCRC forces padding)
          let serial := (readLE32 page 8 + 1) % 4294967296
          let page := writeLE32 page 8 serial
          let page := writeByte (writeByte page 12 0xff) 13 0xff
          writeLE16 page 14 (calcCRCHeader page)
        else b.page
      let oldPhysical := i16toU16 b.physicalPageNo
      -- BUG preserved from the source: the erased check is on the OLD page
      let needErase := getPhysicalPageState ftl' oldPhysical ≠ .erased
      let ftl' := if needErase then
          { ftl' with flash := flashErasePage ftl'.flash newPhysicalPageNo } else ftl'
      let tr : Trace := if needErase then [.erase newPhysicalPageNo] else []
      let ftl' := { ftl' with flash := flashProgramPage ftl'.flash newPhysicalPageNo page }
      let ftl' := setPhysicalPageState ftl' oldPhysical .eraseRequired
      let b' := { b with physicalPageNo := (newPhysicalPageNo : Int), page := page }
      let ftl' := { ftl' with pageBuffer := ftl'.pageBuffer.set i b' }
      let ftl' := setPhysicalPageState ftl' newPhysicalPageNo .used
      let ftl' :=
        if b.logicalPageNo = 0 then
          { ftl' with mttPhysicalPageNo := newPhysicalPageNo }
        else ftl'
      (true, ftl', tr ++ [.program newPhysicalPageNo b.logicalPageNo])

/-! ## ftlSync (lines 477–555) -/

/-- The `memcpy` of the C page-info write in `programPageInBuffer`'s MTT case
is not separate in the source; the helper above embeds it.  Phase 1 body of
`ftlSync` (lines 484–510). -/
def sync1Body (ftl : FTL) (i : Nat) : Bool × FTL × Trace :=
  let b := bufGet ftl.pageBuffer i
  if b.lock ∧ b.logicalPageNo ≥ (ftl.cfg.ttPageCount : Int) then
    match programPageInBuffer ftl i with
    | (false, ftl', tr) => (false, ftl', tr)
    | (true, ftl', tr) =>
      let logical := (bufGet ftl'.pageBuffer i).logicalPageNo.toNat
      match readPageInfo ftl' logical with
      | (none, ftl'', tr') => (false, ftl'', tr ++ tr')
      | (some pageInfo, ftl'', tr') =>
        let pageInfo := { pageInfo with
          physicalPageNo := (bufGet ftl''.pageBuffer i).physicalPageNo }
        match updatePageInfo ftl'' pageInfo logical with
        | (false, ftl3, tr'') => (false, ftl3, tr ++ tr' ++ tr'')
        | (true, ftl3, tr'') =>
          let s := bufGet ftl3.pageBuffer i
          let s := { s with lock := false, pMode := .idle }
          (true, { ftl3 with pageBuffer := ftl3.pageBuffer.set i s }, tr ++ tr' ++ tr'')
  else (true, ftl, [])

def syncGo1 (ftl : FTL) : List Nat → Bool × FTL × Trace
  | [] => (true, ftl, [])
  | i :: rest =>
    match sync1Body ftl i with
    | (false, ftl', tr) => (false, ftl', tr)
    | (true, ftl', tr) =>
      match syncGo1 ftl' rest with
      | (ok, ftl'', tr') => (ok, ftl'', tr ++ tr')

/-- Phase 2 body of `ftlSync` (lines 519–539): program an STT buffer, then
write its new physical page number directly into the MTT buffer slot. -/
def sync2Body (ftl : FTL) (mttIdx i : Nat) : Bool × FTL × Trace :=
  let b := bufGet ftl.pageBuffer i
  if b.lock ∧ b.logicalPageNo > 0 ∧ b.logicalPageNo < (ftl.cfg.ttPageCount : Int) then
    match programPageInBuffer ftl i with
    | (false, ftl', tr) => (false, ftl', tr)
    | (true, ftl', tr) =>
      let m := bufGet ftl'.pageBuffer mttIdx
      let recNo := (bufGet ftl'.pageBuffer i).logicalPageNo.toNat
      let pi := readPageInfoBytes m.page recNo
      let pi := { pi with physicalPageNo := (bufGet ftl'.pageBuffer i).physicalPageNo }
      let m := { m with page := writePageInfoBytes m.page recNo pi }
      let ftl' := { ftl' with pageBuffer := ftl'.pageBuffer.set mttIdx m }
      let s := bufGet ftl'.pageBuffer i
      let s := { s with lock := false, pMode := .idle }
      (true, { ftl' with pageBuffer := ftl'.pageBuffer.set i s }, tr)
  else (true, ftl, [])

def syncGo2 (ftl : FTL) (mttIdx : Nat) : List Nat → Bool × FTL × Trace
  | [] => (true, ftl, [])
  | i :: rest =>
    match sync2Body ftl mttIdx i with
    | (false, ftl', tr) => (false, ftl', tr)
    | (true, ftl', tr) =>
      match syncGo2 ftl' mttIdx rest with
      | (ok, ftl'', tr') => (ok, ftl'', tr ++ tr')

/-- `ftlSync` (lines 477–555). -/
def ftlSync (ftl : FTL) : Bool × FTL × Trace :=
  match syncGo1 ftl (List.range ftl.cfg.pageBufferSize) with
  | (false, ftl1, tr1) => (false, ftl1, tr1)
  | (true, ftl1, tr1) =>
    match loadPhysicalPageInBuffer ftl1 0 ftl1.mttPhysicalPageNo with
    | (none, ftl2, tr2) => (false, ftl2, tr1 ++ tr2)
    | (some mttIdx, ftl2, tr2) =>
      match syncGo2 ftl2 mttIdx (List.range ftl2.cfg.pageBufferSize) with
      | (false, ftl3, tr3) => (false, ftl3, tr1 ++ tr2 ++ tr3)
      | (true, ftl3, tr3) =>
        let m := bufGet ftl3.pageBuffer mttIdx
        if m.lock then
          match programPageInBuffer ftl3 mttIdx with
          | (false, ftl4, tr4) => (false, ftl4, tr1 ++ tr2 ++ tr3 ++ tr4)
          | (true, ftl4, tr4) =>
            let s := bufGet ftl4.pageBuffer mttIdx
            let s := { s with lock := false, pMode := .idle }
            (true, { ftl4 with pageBuffer := ftl4.pageBuffer.set mttIdx s },
             tr1 ++ tr2 ++ tr3 ++ tr4)
        else (true, ftl3, tr1 ++ tr2 ++ tr3)

/-! ## ftlWriteSector (lines 557–668)

`none` models the C code dereferencing a NULL buffer pointer (lines 651–658
use the returned pointer without a check).  The two `readPageInfo` calls whose
result the C code ignores (line 582) would read an uninitialized stack
variable on failure; we take the erased-pattern record in that case (the
situation is unreachable when a free buffer exists, since the model HAL read
always succeeds). -/

def defaultPageInfo : PageInfo := { physicalPageNo := -1, sectStatus := 0xff }

/-- Tail of the overwrite branch (lines 654–659): when the owning TT page is a
secondary one, also load and lock the MTT buffer (the C code dereferences this
`loadPhysicalPageInBuffer` result without a NULL check; `none` models the
fault). -/
def writeOverwriteMtt (ftl : FTL) (ttPageNo : Nat) (tr : Trace) :
    Option (Bool × FTL × Trace) :=
  if ttPageNo > 0 then
    match loadPhysicalPageInBuffer ftl 0 ftl.mttPhysicalPageNo with
    | (none, _, _) => none   -- C dereferences the NULL pointer here
    | (some mIdx, ftl3, tr'') =>
      some (true,
        { ftl3 with pageBuffer := ftl3.pageBuffer.set mIdx ({ bufGet ftl3.pageBuffer mIdx with lock := true, pMode := .relocateEraseProgram }) },
        tr ++ tr'')
  else
    some (true, ftl, tr)

/-- Middle of the overwrite branch (lines 643–653): look up and lock the
buffer of the owning TT page (again dereferenced without a NULL check). -/
def writeOverwriteGo (ftl : FTL) (ttPageNo : Nat) : Option (Bool × FTL × Trace) :=
  match readPageInfo ftl ttPageNo with
  | (none, ftl', tr) => some (false, ftl', tr)
  | (some ttPageInfo, ftl', tr) =>
    match loadPhysicalPageInBuffer ftl' ttPageNo (i16toU16 ttPageInfo.physicalPageNo) with
    | (none, _, _) => none   -- C dereferences the NULL pointer here
    | (some ttIdx, ftl'', tr') =>
      writeOverwriteMtt
        { ftl'' with pageBuffer := ftl''.pageBuffer.set ttIdx ({ bufGet ftl''.pageBuffer ttIdx with lock := true, pMode := .relocateEraseProgram }) }
        ttPageNo (tr ++ tr')

/-- The overwrite branch of `ftlWriteSector` (lines 636–660): relocate-write
an already-written sector and lock the owning TT page (and the MTT when the
owning TT page is a secondary one). -/
def writeOverwriteStep (ftl : FTL) (dataIdx logicalPageNo pageSectorNo : Nat)
    (src : Nat → Nat) : Option (Bool × FTL × Trace) :=
  let s := bufGet ftl.pageBuffer dataIdx
  let s := { s with
    lock := true,
    pMode := .relocateEraseProgram,
    page := writeSectorBytes s.page pageSectorNo src }
  writeOverwriteGo { ftl with pageBuffer := ftl.pageBuffer.set dataIdx s }
    (logicalPageNo / TT_RECORDS_PER_PAGE)

/-- One iteration of the `ftlWriteSector` loop (lines 566–665). -/
def writeSectorStep (ftl : FTL) (sectorNo : Nat) (src : Nat → Nat) :
    Option (Bool × FTL × Trace) :=
  let step2 : FTL → Trace → Option (Bool × FTL × Trace) := fun ftl tr0 =>
    let logicalPageNo := sectorNo / SECTORS_PER_PAGE + ftl.cfg.ttPageCount
    let pageSectorNo := sectorNo % SECTORS_PER_PAGE
    match readPageInfo ftl logicalPageNo with
    | (r, ftl, tr1) =>
      let pageInfo := r.getD defaultPageInfo
      if pageInfo.physicalPageNo < 0 then
        match allocatePhysicalPage ftl with
        | (none, ftl') => some (false, ftl', tr0 ++ tr1)
        | (some newPhys, ftl') =>
          let pageInfo := { pageInfo with physicalPageNo := (newPhys : Int) }
          match initPhysicalPageInBuffer ftl' logicalPageNo newPhys with
          | (none, ftl'') => some (false, ftl'', tr0 ++ tr1)
          | (some dataIdx, ftl'') =>
            let pageInfo := { pageInfo with sectStatus := 0xff }
            match updatePageInfo ftl'' pageInfo logicalPageNo with
            | (false, ftl3, tr2) => some (false, ftl3, tr0 ++ tr1 ++ tr2)
            | (true, ftl3, tr2) =>
              -- sector never written (sectStatus = 0xff): append path
              let pageInfo := { pageInfo with
                sectStatus := pageInfo.sectStatus &&& (255 - (1 <<< pageSectorNo)) }
              match updatePageInfo ftl3 pageInfo logicalPageNo with
              | (false, ftl4, tr3) => some (false, ftl4, tr0 ++ tr1 ++ tr2 ++ tr3)
              | (true, ftl4, tr3) =>
                let s := bufGet ftl4.pageBuffer dataIdx
                let s := { s with
                  lock := true,
                  pMode := if s.pMode = .idle then .program else s.pMode,
                  page := writeSectorBytes s.page pageSectorNo src }
                some (true, { ftl4 with pageBuffer := ftl4.pageBuffer.set dataIdx s },
                      tr0 ++ tr1 ++ tr2 ++ tr3)
      else
        match loadPhysicalPageInBuffer ftl logicalPageNo (i16toU16 pageInfo.physicalPageNo) with
        | (none, ftl', tr2) => some (false, ftl', tr0 ++ tr1 ++ tr2)
        | (some dataIdx, ftl', tr2) =>
          if pageInfo.sectStatus &&& (1 <<< pageSectorNo) ≠ 0 then
            -- first write to this sector
            let pageInfo := { pageInfo with
              sectStatus := pageInfo.sectStatus &&& (255 - (1 <<< pageSectorNo)) }
            match updatePageInfo ftl' pageInfo logicalPageNo with
            | (false, ftl'', tr3) => some (false, ftl'', tr0 ++ tr1 ++ tr2 ++ tr3)
            | (true, ftl'', tr3) =>
              let s := bufGet ftl''.pageBuffer dataIdx
              let s := { s with
                lock := true,
                pMode := if s.pMode = .idle then .program else s.pMode,
                page := writeSectorBytes s.page pageSectorNo src }
              some (true, { ftl'' with pageBuffer := ftl''.pageBuffer.set dataIdx s },
                    tr0 ++ tr1 ++ tr2 ++ tr3)
          else
            match writeOverwriteStep ftl' dataIdx logicalPageNo pageSectorNo src with
            | none => none
            | some (ok, ftl'', tr3) => some (ok, ftl'', tr0 ++ tr1 ++ tr2 ++ tr3)
  if hasFreeBuffers ftl 3 then step2 ftl []
  else
    match ftlSync ftl with
    | (false, ftl', tr) => some (false, ftl', tr)
    | (true, ftl', tr) => step2 ftl' tr

/-- The while loop of `ftlWriteSector`.  `src j` is the 512-byte payload of
the `j`-th sector of the batch (the C `buf` advances by 512 per sector). -/
def writeGo (ftl : FTL) (sectorNo : Nat) (src : Nat → Nat → Nat) :
    Nat → Nat → Option (Bool × FTL × Trace)
  | _, 0 => some (true, ftl, [])
  | j, n + 1 =>
    match writeSectorStep ftl sectorNo (src j) with
    | none => none
    | some (false, ftl', tr) => some (false, ftl', tr)
    | some (true, ftl', tr) =>
      match writeGo ftl' (sectorNo + 1) src (j + 1) n with
      | none => none
      | some (ok, ftl'', tr') => some (ok, ftl'', tr ++ tr')

/-- `ftlWriteSector` (lines 557–668).  Note the state resolver runs *before*
the range check, and the range check uses uint32 wrap-around addition. -/
def ftlWriteSector (ftl : FTL) (startSectorNo noOfSectors : Nat)
    (src : Nat → Nat → Nat) : Option (Bool × FTL × Trace) :=
  if (startSectorNo + noOfSectors) % 4294967296 >
      (resolveUnknownState ftl ftl.cfg.ttPageCount).cfg.usableSectorCount then
    some (false, resolveUnknownState ftl ftl.cfg.ttPageCount, [])
  else
    writeGo (resolveUnknownState ftl ftl.cfg.ttPageCount) startSectorNo src 0
      noOfSectors

/-! ## ftlReadSector (lines 670–697) -/

def ftlReadSector (ftl : FTL) (sectorNo : Nat) :
    Option (Nat → Nat) × FTL × Trace :=
  if sectorNo ≥ ftl.cfg.usableSectorCount then (none, ftl, [])
  else
    let logicalPageNo := sectorNo / SECTORS_PER_PAGE + ftl.cfg.ttPageCount
    let pageSectorNo := sectorNo % SECTORS_PER_PAGE
    match readPageInfo ftl logicalPageNo with
    | (r, ftl', tr) =>
      let pageInfo := r.getD defaultPageInfo
      if pageInfo.sectStatus &&& (1 <<< pageSectorNo) ≠ 0 then
        (some (fun _ => 0xff), ftl', tr)
      else
        match readPhysicalSector ftl' logicalPageNo
            (i16toU16 pageInfo.physicalPageNo) pageSectorNo with
        | (r', ftl'', tr') => (r', ftl'', tr ++ tr')

/-! ## Mount and format (lines 699–864) -/

/-- `initTransTablePage` (lines 715–722). -/
def initTransTablePage (logicalPageNo : Nat) : PageData :=
  let d := constPage 0xff
  let d := writeLE32 d 0 TT_PAGE_MAGIC
  let d := writeLE32 d 4 logicalPageNo
  let d := writeLE32 d 8 1
  -- calcCRC forces the padding bytes to 0xFF (already 0xFF here)
  let d := writeByte (writeByte d 12 0xff) 13 0xff
  writeLE16 d 14 (calcCRCHeader d)

/-- The STT loop of `createFTL` (lines 736–748), building up the MTT page. -/
def createGo (ftl : FTL) (mtt : PageData) : Nat → Nat → FTL × PageData × Trace
  | _, 0 => (ftl, mtt, [])
  | i, n + 1 =>
    let stt := initTransTablePage i
    let needErase := getPhysicalPageState ftl i ≠ .erased
    let ftl := if needErase then { ftl with flash := flashErasePage ftl.flash i } else ftl
    let tr0 : Trace := if needErase then [.erase i] else []
    let ftl := { ftl with flash := flashProgramPage ftl.flash i stt }
    let ftl := setPhysicalPageState ftl i .used
    let mtt := writePageInfoBytes mtt i { physicalPageNo := (i : Int), sectStatus := 0 }
    match createGo ftl mtt (i + 1) n with
    | (ftl', mtt', tr) => (ftl', mtt', tr0 ++ [.program i (i : Int)] ++ tr)

/-- `createFTL` (lines 724–758). -/
def createFTL (ftl : FTL) : FTL × Trace :=
  let ftl := { ftl with writeFrontier := 0 }
  let ftl := resolveUnknownState ftl ftl.cfg.pageBufferSize
  let mtt := initTransTablePage 0
  let mtt := writePageInfoBytes mtt 0 { physicalPageNo := 0, sectStatus := 0 }
  match createGo ftl mtt 1 (ftl.cfg.ttPageCount - 1) with
  | (ftl, mtt, tr) =>
    let needErase := getPhysicalPageState ftl 0 ≠ .erased
    let ftl := if needErase then { ftl with flash := flashErasePage ftl.flash 0 } else ftl
    let tr0 : Trace := if needErase then [.erase 0] else []
    let ftl := { ftl with flash := flashProgramPage ftl.flash 0 mtt }
    let ftl := setPhysicalPageState ftl 0 .used
    ({ ftl with writeFrontier := ftl.cfg.ttPageCount }, tr ++ tr0 ++ [.program 0 0])

/-- A TT header read from flash page `i` is a valid MTT header: magic matches,
`logical_page_no = 0`, and the stored CRC-16 equals the recomputed one. -/
def headerValidMTT (f : Flash) (i : Nat) : Bool :=
  (readLE32 (f i) 0 == TT_PAGE_MAGIC) && (readLE32 (f i) 4 == 0) &&
    (readLE16 (f i) 14 == calcCRCHeader (f i))

/-- The serial of the header stored at the start of flash page `i`. -/
def headerSerial (f : Flash) (i : Nat) : Nat := readLE32 (f i) 8

/-- The MTT scan loop of `loadFTL` (lines 763–779): fold over pages keeping
the first page achieving the running-maximum serial.  `Int` mirrors the
`int16_t currentPhysicalMTTPageNo = -1`. -/
def scanMTT (f : Flash) (pages : List Nat) (acc : Nat × Int) : Nat × Int :=
  match pages with
  | [] => acc
  | i :: rest =>
    if headerValidMTT f i ∧ headerSerial f i > acc.1 then
      scanMTT f rest (headerSerial f i, (i : Int))
    else
      scanMTT f rest acc

/-- The state-map marking of one MTT record during the record walk of
`loadFTL` (lines 795–798). -/
def loadWalkMark (ftl : FTL) (mttIdx i : Nat) : FTL :=
  let mrec := readPageInfoBytes (bufGet ftl.pageBuffer mttIdx).page i
  if mrec.physicalPageNo ≥ 0 then
    setPhysicalPageState ftl (i16toU16 mrec.physicalPageNo) .used
  else ftl

/-- The secondary-TT sweep of one record of the walk (lines 799–813): when
record `i` names a secondary TT page, load it and mark every page it
references USED. -/
def loadWalkStt (ftl : FTL) (i pa : Nat) : FTL × Trace :=
  if i < ftl.cfg.ttPageCount then
    match loadPhysicalPageInBuffer ftl i pa with
    | (r, ftl', tr) =>
      let sttIdx := r.getD 0
      let sttPage := (bufGet ftl'.pageBuffer sttIdx).page
      ((List.range TT_RECORDS_PER_PAGE).foldl (fun acc j =>
        let srec := readPageInfoBytes sttPage j
        if srec.physicalPageNo ≥ 0 then
          setPhysicalPageState acc (i16toU16 srec.physicalPageNo) .used
        else acc) ftl', tr)
  else (ftl, [])

/-- The record walk of `loadFTL` (lines 793–815).  The C code dereferences
the `mtt` and `stt` buffer pointers without NULL checks; at mount every
buffer is unlocked and the model HAL read always succeeds, so the loads
cannot fail — we use index `getD`-style recovery that is never exercised. -/
def loadWalk (ftl : FTL) (mttIdx : Nat) : Nat → Nat → FTL × Trace
  | _, 0 => (ftl, [])
  | i, n + 1 =>
    match loadWalkStt (loadWalkMark ftl mttIdx i) i
        (i16toU16 (readPageInfoBytes (bufGet ftl.pageBuffer mttIdx).page
          i).physicalPageNo) with
    | (ftl2, tr0) =>
      match loadWalk ftl2 mttIdx (i + 1) n with
      | (ftl', tr) => (ftl', tr0 ++ tr)

/-- The mount bookkeeping of `loadFTL` once the MTT page is chosen (lines
784–791): record it, mark it USED and set the write frontier to the next
physical page (wrapping). -/
def loadPrep (ftl : FTL) (mttPage : Nat) : FTL :=
  let ftl := { ftl with mttPhysicalPageNo := mttPage }
  let ftl := setPhysicalPageState ftl mttPage .used
  { ftl with writeFrontier :=
      if mttPage + 1 ≥ ftl.cfg.physicalPageCount then 0 else mttPage + 1 }

/-- The tail of `loadFTL` (lines 793–822): load the MTT into the cache, walk
its records, resolve the remaining UNKNOWN states near the frontier. -/
def loadGo (ftl : FTL) (mttPage : Nat) : FTL × Trace :=
  match loadPhysicalPageInBuffer ftl 0 mttPage with
  | (r, ftl', tr0) =>
    match loadWalk ftl' (r.getD 0) 1 (TT_RECORDS_PER_PAGE - 1) with
    | (ftl'', tr1) =>
      (resolveUnknownState ftl'' ftl''.cfg.pageBufferSize, tr0 ++ tr1)

/-- `loadFTL` (lines 760–823).  Returns `none` when no valid MTT was found
(the caller then formats). -/
def loadFTL (ftl : FTL) : Option (FTL × Trace) :=
  -- the C code computes the scan result once; the branch condition and the
  -- selected page read the same value
  if (scanMTT ftl.flash (List.range ftl.cfg.physicalPageCount) (0, -1)).2 ≥ 0 then
    some (loadGo
      (loadPrep ftl
        (scanMTT ftl.flash (List.range ftl.cfg.physicalPageCount) (0, -1)).2.toNat)
      (scanMTT ftl.flash (List.range ftl.cfg.physicalPageCount) (0, -1)).2.toNat)
  else none

/-- `supportedFlashSizes` (line 94). -/
def supportedFlashSizes : List Nat := [4, 8, 16, 32, 64, 128]

/-- `initPageBuffer` (lines 699–713). -/
def initPageBuffer (n : Nat) : List PageBuffer :=
  (List.range n).map fun i =>
    { logicalPageNo := -1, physicalPageNo := -1, lru := i, lock := false,
      pMode := .idle, page := fun _ => 0xff }

/-- The fresh in-RAM `FrFTL` struct built by `ftlInit` (lines 842–857) before
mounting: configuration derived from the flash size, calloc'd state map,
freshly initialized page buffers.  (The `page` contents of a freshly malloc'd
buffer are unspecified in C; the model uses 0xFF.) -/
def mkInitFTL (flash : Flash) (flashSizeInMB : Nat) : FTL :=
  let physicalPageCount := flashSizeInMB * 1024 * 1024 / PAGE_SIZE
  let ttPageCount := physicalPageCount / TT_RECORDS_PER_PAGE
  let cfg : FTLCfg := {
    physicalPageCount := physicalPageCount,
    ttPageCount := ttPageCount,
    usableSectorCount :=
      (physicalPageCount - ttPageCount * RESERVED_PAGES_MULTIPLIER) * SECTORS_PER_PAGE,
    pageBufferSize := ttPageCount * BUFFER_SIZE_MULTIPLIER }
  { cfg := cfg,
    mttPhysicalPageNo := 0,
    writeFrontier := 0,
    physicalPageState := fun _ => 0,   -- calloc
    physicalPageStateResolved := false,
    pageBuffer := initPageBuffer cfg.pageBufferSize,
    flash := flash }

/-- `ftlInit` (lines 825–864), over an initial flash image.  `none` models
the NULL return for an unsupported flash size. -/
def ftlInit (flash : Flash) (flashSizeInMB : Nat) : Option (FTL × Trace) :=
  if flashSizeInMB ∈ supportedFlashSizes then
    match loadFTL (mkInitFTL flash flashSizeInMB) with
    | some (ftl', tr) => some (ftl', tr)
    | none => some (createFTL (mkInitFTL flash flashSizeInMB))
  else none

end FrFTL


namespace FrFTL

/-! ## Balanced evaluation of the MTT scan

`scanMTT` is the literal translation of the `loadFTL` scan loop; kernel
reduction of a linear fold over all physical pages is too deep, so we prove it
equal to a balanced divide-and-conquer scan (`scanPow`; every supported device
has a power-of-two page count) and evaluate that instead. -/

/-- The contribution of a single page to the MTT scan. -/
def scanBase (f : Flash) (i : Nat) : Nat × Int :=
  if headerValidMTT f i ∧ headerSerial f i > 0 then (headerSerial f i, (i : Int))
  else (0, -1)

/-- Merge two segment scan results: the right one wins only with a strictly
greater serial (the C loop keeps the first page attaining the maximum). -/
def scanCombine (l r : Nat × Int) : Nat × Int := if r.1 > l.1 then r else l

/-- Balanced scan of the `2^k` pages starting at `lo`. -/
def scanPow (f : Flash) (lo : Nat) : Nat → Nat × Int
  | 0 => scanBase f lo
  | k + 1 => scanCombine (scanPow f lo k) (scanPow f (lo + 2 ^ k) k)

/-! ## Concrete devices and runs used by the claim theorems -/

/-- A blank 4 MiB device: every byte reads 0xFF. -/
def freshFlash : Flash := fun _ => constPage 0xff

/-- An 8 MiB device as left by a previous life: pages 0–6 erased, every later
page carries stale data (a 0x00 byte at offset 0).  It has no valid MTT, so
`ftlInit` formats a fresh FTL over it. -/
def garbageFlash : Flash := fun p =>
  if p < 7 then constPage 0xff else writeByte (constPage 0xff) 0 0x00

def payloadAA : Nat → Nat → Nat := fun _ _ => 0xaa
def payload55 : Nat → Nat → Nat := fun _ _ => 0x55

/-- Run a list of single-sector `ftlWriteSector` calls, and-ing their boolean
results; `none` propagates a modelled NULL-pointer dereference. -/
def runWrites (st : FTL) : List (Nat × (Nat → Nat → Nat)) → Option (Bool × FTL)
  | [] => some (true, st)
  | (s, p) :: rest =>
    match ftlWriteSector st s 1 p with
    | none => none
    | some (ok, st2, _) =>
      match runWrites st2 rest with
      | none => none
      | some (ok2, st3) => some (ok && ok2, st3)

/-- The C1 write sequence: sector 0 twice (0xAA then 0x55 — the second is an
overwrite that marks the data page RELOCATE_ERASE_PROGRAM while its old
physical page is still ERASED), then first and second sectors of further
pages to force the internal sync, LRU churn and the final eviction of the
relocated data page. -/
def c1WriteList : List (Nat × (Nat → Nat → Nat)) :=
  [(0, payloadAA), (0, payload55), (16, payloadAA), (24, payloadAA),
   (32, payloadAA), (40, payloadAA), (48, payloadAA), (17, payloadAA),
   (25, payloadAA), (33, payloadAA), (41, payloadAA), (49, payloadAA),
   (56, payloadAA), (64, payloadAA)]

/-- Initialize an FTL over `garbageFlash`, run `c1WriteList`, then read back
sector 0: the conjunction of all write results and byte 0 of the sector read.
-/
def c1Result : Option (Bool × Nat) :=
  match ftlInit garbageFlash 8 with
  | none => none
  | some (ftl, _) =>
    match runWrites ftl c1WriteList with
    | none => none
    | some (ok, st) =>
      match ftlReadSector st 0 with
      | (some sec, _, _) => some (ok, sec 0)
      | (none, _, _) => none

/-- The C4 run: format a fresh 4 MiB FTL, then twice (write one fresh sector;
sync) and observe whether each sync had at least one locked buffer to flush
and the on-media MTT serial after each sync. -/
def c4Result : Option (Bool × Bool × Bool × Nat × Nat) :=
  match ftlInit freshFlash 4 with
  | none => none
  | some (ftl, _) =>
    match ftlWriteSector ftl 0 1 payloadAA with
    | none => none
    | some (ok1, ftl1, _) =>
      let dirty1 := decide (1 ≤ ftl1.pageBuffer.countP (fun b => b.lock))
      match ftlSync ftl1 with
      | (oks1, ftl2, _) =>
        let serial1 := headerSerial ftl2.flash ftl2.mttPhysicalPageNo
        match ftlWriteSector ftl2 8 1 payloadAA with
        | none => none
        | some (ok2, ftl3, _) =>
          let dirty2 := decide (1 ≤ ftl3.pageBuffer.countP (fun b => b.lock))
          match ftlSync ftl3 with
          | (oks2, ftl4, _) =>
            let serial2 := headerSerial ftl4.flash ftl4.mttPhysicalPageNo
            some (ok1 && oks1 && ok2 && oks2, dirty1, dirty2, serial1, serial2)

/-- A TT page image whose header is fully valid (magic, logical page 0,
correct CRC) but whose serial is 0. -/
def serial0Page : PageData :=
  let d := constPage 0xff
  let d := writeLE32 d 0 TT_PAGE_MAGIC
  let d := writeLE32 d 4 0
  let d := writeLE32 d 8 0
  writeLE16 d 14 (calcCRCHeader d)

/-- A 4 MiB device whose only TT-like page is a valid MTT header with
serial 0, at physical page 5. -/
def serial0Flash : Flash := fun p =>
  if p = 5 then serial0Page else constPage 0xff

/-- The state used for the C3 failing input: a mid-life 8 MiB FTL where cache
slot 0 holds data page (logical 2) pending RELOCATE_ERASE_PROGRAM, its old
physical page 2 is ERASED, and the write frontier points at physical page 3,
which is ERASE_REQUIRED and holds stale data (byte 0 is 0x00). -/
def c3FTL : FTL :=
  let base : FTL := {
    cfg := { physicalPageCount := 2048, ttPageCount := 2,
             usableSectorCount := 16128, pageBufferSize := 8 },
    mttPhysicalPageNo := 4,
    writeFrontier := 3,
    physicalPageState := fun _ => 0,
    physicalPageStateResolved := false,
    pageBuffer :=
      { logicalPageNo := 2, physicalPageNo := 2, lru := 0, lock := true,
        pMode := .relocateEraseProgram,
        page := writeSectorBytes (constPage 0xff) 0 (fun _ => 0xaa) } ::
      (initPageBuffer 8).drop 1,
    flash := fun p =>
      if p = 3 then writeByte (constPage 0xff) 0 0x00 else constPage 0xff }
  let base := setPhysicalPageState base 0 .used
  let base := setPhysicalPageState base 1 .used
  let base := setPhysicalPageState base 2 .erased
  let base := setPhysicalPageState base 3 .eraseRequired
  setPhysicalPageState base 4 .used

/-- The 4 MiB FTL as formatted by `ftlInit` over a blank device (used by the
C7 counterexample; physical page 4 is still UNKNOWN in its state map). -/
def c7FTL : FTL := (createFTL (mkInitFTL freshFlash 4)).1

/-! ## Predicates used by the cache lemmas -/

/-- Two cache slots with equal non-LRU fields. -/
def coreEq (a b : PageBuffer) : Prop :=
  a.logicalPageNo = b.logicalPageNo ∧ a.physicalPageNo = b.physicalPageNo ∧
  a.lock = b.lock ∧ a.pMode = b.pMode ∧ a.page = b.page

/-- Two buffer lists of equal length whose slots agree on non-LRU fields. -/
def coresEq (l1 l2 : List PageBuffer) : Prop :=
  l1.length = l2.length ∧ ∀ i, coreEq (bufGet l1 i) (bufGet l2 i)

/-- The `lru` fields cover every rank `< length` (they are a permutation in
any reachable cache state; surjectivity is all the eviction scan needs). -/
def lruSurj (l : List PageBuffer) : Prop :=
  ∀ v < l.length, ∃ i < l.length, (bufGet l i).lru = v

/-- Number of unlocked cache slots. -/
def freeCount (l : List PageBuffer) : Nat :=
  l.countP (fun b => !b.lock)

/-- Every `lru` field is a valid slot index. -/
def lruBounded (l : List PageBuffer) : Prop :=
  ∀ i, i < l.length → (bufGet l i).lru < l.length

/-- The cache-shape invariant: the buffer list has the configured length and
its LRU fields are a bounded cover of the slot indices. -/
def CacheShape (ftl : FTL) : Prop :=
  ftl.pageBuffer.length = ftl.cfg.pageBufferSize ∧
  lruBounded ftl.pageBuffer ∧ lruSurj ftl.pageBuffer

/-- States that agree on everything but the page buffers. -/
def sameExceptBuffers (a b : FTL) : Prop :=
  a.cfg = b.cfg ∧ a.mttPhysicalPageNo = b.mttPhysicalPageNo ∧
  a.writeFrontier = b.writeFrontier ∧ a.physicalPageState = b.physicalPageState ∧
  a.physicalPageStateResolved = b.physicalPageStateResolved ∧ a.flash = b.flash

/-- States that agree on everything but the physical-page state map and the
`resolved` flag. -/
def sameExceptStateMap (a b : FTL) : Prop :=
  a.cfg = b.cfg ∧ a.mttPhysicalPageNo = b.mttPhysicalPageNo ∧
  a.writeFrontier = b.writeFrontier ∧ a.pageBuffer = b.pageBuffer ∧
  a.flash = b.flash

/-- The fields of the mount bookkeeping: configuration, MTT pointer, write
frontier and flash image (what the record walk of `loadFTL` must not touch). -/
def sameCore (a b : FTL) : Prop :=
  a.cfg = b.cfg ∧ a.mttPhysicalPageNo = b.mttPhysicalPageNo ∧
  a.writeFrontier = b.writeFrontier ∧ a.flash = b.flash

/-- Shape invariant plus a non-empty cache. -/
def cacheGood (ftl : FTL) : Prop := CacheShape ftl ∧ 0 < ftl.cfg.pageBufferSize

/-- The cache/state-map invariant `ftlSync` relies on (all of it holds in any
state the driver reaches through the modelled API on a one-TT-level device):
a well-shaped non-empty cache; at least one TT page; the MTT's physical page
is marked USED; locked slots hold a logical page in `[0, 1024)` (so every TT
lookup is one-level); a slot caching the MTT page is a logical-0 slot; at
most one slot caches the MTT page; a locked logical-0 slot caches the MTT
page; unlocked slots are idle. -/
def SlotsOK (ftl : FTL) : Prop :=
  cacheGood ftl ∧
  1 ≤ ftl.cfg.ttPageCount ∧
  ftl.cfg.physicalPageCount ≤ 32768 ∧
  ftl.writeFrontier < ftl.cfg.physicalPageCount ∧
  ftl.mttPhysicalPageNo < ftl.cfg.physicalPageCount ∧
  (∀ i < ftl.cfg.pageBufferSize,
    -32768 ≤ (bufGet ftl.pageBuffer i).physicalPageNo ∧
    (bufGet ftl.pageBuffer i).physicalPageNo < 32768) ∧
  getPhysicalPageState ftl ftl.mttPhysicalPageNo = .used ∧
  (∀ i < ftl.cfg.pageBufferSize, (bufGet ftl.pageBuffer i).lock = true →
    0 ≤ (bufGet ftl.pageBuffer i).logicalPageNo ∧
    (bufGet ftl.pageBuffer i).logicalPageNo < 1024) ∧
  (∀ i < ftl.cfg.pageBufferSize,
    (bufGet ftl.pageBuffer i).physicalPageNo = (ftl.mttPhysicalPageNo : Int) →
    (bufGet ftl.pageBuffer i).logicalPageNo = 0) ∧
  (∀ i < ftl.cfg.pageBufferSize, ∀ j < ftl.cfg.pageBufferSize,
    (bufGet ftl.pageBuffer i).physicalPageNo = (ftl.mttPhysicalPageNo : Int) →
    (bufGet ftl.pageBuffer j).physicalPageNo = (ftl.mttPhysicalPageNo : Int) →
    i = j) ∧
  (∀ i < ftl.cfg.pageBufferSize, (bufGet ftl.pageBuffer i).lock = true →
    (bufGet ftl.pageBuffer i).logicalPageNo = 0 →
    (bufGet ftl.pageBuffer i).physicalPageNo = (ftl.mttPhysicalPageNo : Int)) ∧
  (∀ i < ftl.cfg.pageBufferSize, (bufGet ftl.pageBuffer i).lock = false →
    (bufGet ftl.pageBuffer i).pMode = .idle)

/-- How one internal step of the write path relates the state it returns to
the state it was given: non-buffer fields untouched, and (when the incoming
cache is well-shaped and non-empty) shape and the number of unlocked slots
preserved. -/
def stepOK (a b : FTL) : Prop :=
  sameExceptBuffers a b ∧
  (cacheGood b → cacheGood a ∧ freeCount a.pageBuffer = freeCount b.pageBuffer)

/-- A small well-shaped state used to instantiate the pointer-safety theorem:
four unlocked idle slots holding no page, all-ones flash. -/
def c9FTL : FTL :=
  { cfg := { physicalPageCount := 2048, ttPageCount := 2,
             usableSectorCount := 16128, pageBufferSize := 4 },
    mttPhysicalPageNo := 0,
    writeFrontier := 2,
    physicalPageState := fun _ => 0,
    physicalPageStateResolved := false,
    pageBuffer := (List.range 4).map (fun i =>
      { logicalPageNo := -1, physicalPageNo := -1, lru := i,
        lock := false, pMode := .idle, page := constPage 0xff }),
    flash := fun _ => constPage 0xff }

/-- How `ftlSync`'s phases evolve a cache slot: it keeps its logical page
and lock, or it ends unlocked, or it ends as a logical-0 (master-TT) slot
(the TT-buffer locks taken while recording new data-page locations). -/
def slotEvolve (f f' : FTL) : Prop :=
  ∀ j,
    ((bufGet f'.pageBuffer j).logicalPageNo =
        (bufGet f.pageBuffer j).logicalPageNo ∧
      (bufGet f'.pageBuffer j).lock = (bufGet f.pageBuffer j).lock) ∨
    (bufGet f'.pageBuffer j).lock = false ∨
    (bufGet f'.pageBuffer j).logicalPageNo = 0

/-- The slot update performed by `updatePhysicalPageInfo` (lines 340–346):
lock, promote NONE to PROGRAM, write the record. -/
def updSlot (s : PageBuffer) (rec : Nat) (pi : PageInfo) : PageBuffer :=
  { s with
    lock := true,
    pMode := if s.pMode = ProgramMode.idle then ProgramMode.program else s.pMode,
    page := writePageInfoBytes s.page rec pi }


def c8FTL : FTL :=
  { cfg := { physicalPageCount := 2048, ttPageCount := 2,
             usableSectorCount := 16128, pageBufferSize := 4 },
    mttPhysicalPageNo := 0,
    writeFrontier := 2,
    physicalPageState := fun _ => 1,
    physicalPageStateResolved := true,
    pageBuffer := (List.range 4).map (fun i =>
      { logicalPageNo := -1, physicalPageNo := -1, lru := i,
        lock := false, pMode := .idle, page := constPage 0xff }),
    flash := fun _ => constPage 0xff }

def c2FTL : FTL :=
  { cfg := { physicalPageCount := 2048, ttPageCount := 2,
             usableSectorCount := 16128, pageBufferSize := 4 },
    mttPhysicalPageNo := 0,
    writeFrontier := 2,
    physicalPageState := fun _ => 1,
    physicalPageStateResolved := true,
    pageBuffer := (List.range 4).map (fun i =>
      { logicalPageNo := -1, physicalPageNo := -1, lru := i,
        lock := false, pMode := .idle, page := constPage 0xff }),
    flash := fun _ => constPage 0xff }

def c5FTL : FTL :=
  { cfg := { physicalPageCount := 2048, ttPageCount := 2,
             usableSectorCount := 16128, pageBufferSize := 4 },
    mttPhysicalPageNo := 0,
    writeFrontier := 2,
    physicalPageState := fun _ => 1,
    physicalPageStateResolved := true,
    pageBuffer := (List.range 4).map (fun i =>
      { logicalPageNo := -1, physicalPageNo := -1, lru := i,
        lock := false, pMode := .idle, page := constPage 0xff }),
    flash := fun _ => constPage 0xff }


def c4WitFTL : FTL :=
  { cfg := { physicalPageCount := 2048, ttPageCount := 2,
             usableSectorCount := 16128, pageBufferSize := 4 },
    mttPhysicalPageNo := 4,
    writeFrontier := 7,
    physicalPageState := fun _ => 0,
    physicalPageStateResolved := false,
    pageBuffer :=
      { logicalPageNo := 0, physicalPageNo := 4, lru := 0, lock := true,
        pMode := .relocateEraseProgram, page := constPage 0xff } ::
      (initPageBuffer 4).drop 1,
    flash := fun _ => constPage 0xff }

/-! # Theorems -/

theorem scanCombine_assoc (a b c : Nat × Int) :
    scanCombine (scanCombine a b) c = scanCombine a (scanCombine b c) := by
  rcases a with ⟨a1, a2⟩; rcases b with ⟨b1, b2⟩; rcases c with ⟨c1, c2⟩
  simp only [scanCombine, gt_iff_lt]
  split_ifs <;> first | rfl | omega

theorem scanMTT_append (f : Flash) (l1 l2 : List Nat) (acc : Nat × Int) :
    scanMTT f (l1 ++ l2) acc = scanMTT f l2 (scanMTT f l1 acc) := by
  induction l1 generalizing acc with
  | nil => rfl
  | cons i t ih =>
    simp only [List.cons_append, scanMTT]
    split <;> exact ih _

theorem scanMTT_cons (f : Flash) (i : Nat) (t : List Nat) (acc : Nat × Int) :
    scanMTT f (i :: t) acc = scanMTT f t
      (if headerValidMTT f i = true ∧ headerSerial f i > acc.1 then
        (headerSerial f i, (i : Int)) else acc) := by
  simp only [scanMTT]
  split <;> rfl

theorem scanStep (v : Bool) (s : Nat) (ii : Int) (acc w z : Nat × Int)
    (hw : w = (if v = true ∧ s > 0 then (s, ii) else (0, -1))) :
    scanCombine (if v = true ∧ s > acc.1 then (s, ii) else acc) z
      = scanCombine acc (scanCombine w z) := by
  subst hw
  rcases acc with ⟨a1, a2⟩
  rcases z with ⟨z1, z2⟩
  rcases v with _ | _ <;>
    simp only [scanCombine, gt_iff_lt, Bool.false_eq_true, false_and,
      eq_self_iff_true, true_and, if_false] <;>
    split_ifs <;> first | rfl | omega

theorem scanMTT_acc (f : Flash) (l : List Nat) (acc : Nat × Int) :
    scanMTT f l acc = scanCombine acc (scanMTT f l (0, -1)) := by
  induction l generalizing acc with
  | nil =>
    rcases acc with ⟨a1, a2⟩
    simp [scanMTT, scanCombine, show ¬ ((0:Nat) > a1) from by omega]
  | cons i t ih =>
    have h1 : scanMTT f (i :: t) acc = scanCombine
        (if headerValidMTT f i = true ∧ headerSerial f i > acc.1 then
          (headerSerial f i, (i : Int)) else acc) (scanMTT f t (0, -1)) := by
      rw [scanMTT_cons]; exact ih _
    have h2 : scanMTT f (i :: t) (0, -1) = scanCombine
        (if headerValidMTT f i = true ∧ headerSerial f i > 0 then
          (headerSerial f i, (i : Int)) else (0, -1)) (scanMTT f t (0, -1)) := by
      rw [scanMTT_cons]; exact ih _
    rw [h1, h2]
    exact scanStep _ _ _ _ _ _ rfl

theorem scanMTT_single (f : Flash) (lo : Nat) (acc : Nat × Int) :
    scanMTT f [lo] acc = scanCombine acc (scanBase f lo) := by
  have h := scanMTT_acc f [lo] acc
  have hbase : scanMTT f [lo] ((0, -1) : Nat × Int) = scanBase f lo := rfl
  rw [h, hbase]

theorem scanMTT_range'_pow (f : Flash) (k : Nat) :
    ∀ (lo : Nat) (acc : Nat × Int),
      scanMTT f (List.range' lo (2 ^ k)) acc = scanCombine acc (scanPow f lo k) := by
  induction k with
  | zero =>
    intro lo acc
    simpa [List.range'] using scanMTT_single f lo acc
  | succ k ih =>
    intro lo acc
    have hsplit : List.range' lo (2 ^ (k + 1)) =
        List.range' lo (2 ^ k) ++ List.range' (lo + 2 ^ k) (2 ^ k) := by
      have happ := List.range'_append lo (2 ^ k) (2 ^ k) 1
      simp only [Nat.one_mul] at happ
      rw [pow_succ, Nat.mul_two, ← happ]
    rw [hsplit, scanMTT_append, ih, ih, scanPow, ← scanCombine_assoc]

theorem scanMTT_range_pow (f : Flash) (P k : Nat) (hP : P = 2 ^ k)
    (acc : Nat × Int) :
    scanMTT f (List.range P) acc = scanCombine acc (scanPow f 0 k) := by
  rw [hP, List.range_eq_range', scanMTT_range'_pow]

end FrFTL
namespace FrFTL

/-! ## General helper lemmas -/

theorem setPhysicalPageState_sameExcept (ftl : FTL) (p : Nat)
    (s : PhysicalPageState) : sameExceptStateMap (setPhysicalPageState ftl p s) ftl := by
  exact ⟨rfl, rfl, rfl, rfl, rfl⟩

theorem sameExceptStateMap_trans {a b c : FTL} (h1 : sameExceptStateMap a b)
    (h2 : sameExceptStateMap b c) : sameExceptStateMap a c := by
  obtain ⟨x1, x2, x3, x4, x5⟩ := h1
  obtain ⟨y1, y2, y3, y4, y5⟩ := h2
  exact ⟨x1.trans y1, x2.trans y2, x3.trans y3, x4.trans y4, x5.trans y5⟩

theorem resolveGo_sameExcept (fuel : Nat) :
    ∀ (ftl : FTL) (idx count : Nat),
      sameExceptStateMap (resolveGo ftl idx count fuel).1 ftl := by
  induction fuel with
  | zero => intro ftl idx count; exact ⟨rfl, rfl, rfl, rfl, rfl⟩
  | succ fuel ih =>
    intro ftl idx count
    unfold resolveGo
    split
    · split
      · exact setPhysicalPageState_sameExcept ..
      · exact sameExceptStateMap_trans (ih ..) (setPhysicalPageState_sameExcept ..)
    · exact ih ..

theorem resolveUnknownState_sameExcept (ftl : FTL) (count : Nat) :
    sameExceptStateMap (resolveUnknownState ftl count) ftl := by
  unfold resolveUnknownState
  split
  · exact ⟨rfl, rfl, rfl, rfl, rfl⟩
  · split
    · exact ⟨rfl, rfl, rfl, rfl, rfl⟩
    · have h := resolveGo_sameExcept ftl.cfg.physicalPageCount ftl ftl.writeFrontier count
      rcases hres : resolveGo ftl ftl.writeFrontier count ftl.cfg.physicalPageCount
        with ⟨ftl2, early⟩
      rw [hres] at h
      cases early <;> exact h

theorem loadFTL_none (ftl : FTL)
    (h : (scanMTT ftl.flash (List.range ftl.cfg.physicalPageCount) (0, -1)).2 < 0) :
    loadFTL ftl = none := by
  unfold loadFTL
  rw [if_neg (by omega)]

theorem ftlInit_format (flash : Flash) (sz : Nat) (hmem : sz ∈ supportedFlashSizes)
    (hload : loadFTL (mkInitFTL flash sz) = none) :
    ftlInit flash sz = some (createFTL (mkInitFTL flash sz)) := by
  unfold ftlInit
  rw [if_pos hmem, hload]

set_option maxRecDepth 100000 in
theorem scan_freshFlash : (scanMTT freshFlash (List.range 1024) (0, -1)).2 = -1 := by
  rw [scanMTT_range_pow freshFlash 1024 10 rfl]
  decide

theorem ftlInit_freshFlash :
    ftlInit freshFlash 4 = some (createFTL (mkInitFTL freshFlash 4)) := by
  apply ftlInit_format
  · decide
  · apply loadFTL_none
    rw [show (mkInitFTL freshFlash 4).cfg.physicalPageCount = 1024 from rfl,
        show (mkInitFTL freshFlash 4).flash = freshFlash from rfl, scan_freshFlash]
    decide

set_option maxRecDepth 400000 in
theorem scan_garbageFlash : (scanMTT garbageFlash (List.range 2048) (0, -1)).2 = -1 := by
  rw [scanMTT_range_pow garbageFlash 2048 11 rfl]
  decide

theorem ftlInit_garbageFlash :
    ftlInit garbageFlash 8 = some (createFTL (mkInitFTL garbageFlash 8)) := by
  apply ftlInit_format
  · decide
  · apply loadFTL_none
    rw [show (mkInitFTL garbageFlash 8).cfg.physicalPageCount = 2048 from rfl,
        show (mkInitFTL garbageFlash 8).flash = garbageFlash from rfl,
        scan_garbageFlash]
    decide

set_option maxRecDepth 100000 in
theorem scan_serial0Flash : (scanMTT serial0Flash (List.range 1024) (0, -1)).2 = -1 := by
  rw [scanMTT_range_pow serial0Flash 1024 10 rfl]
  decide

theorem ftlInit_serial0Flash :
    ftlInit serial0Flash 4 = some (createFTL (mkInitFTL serial0Flash 4)) := by
  apply ftlInit_format
  · decide
  · apply loadFTL_none
    rw [show (mkInitFTL serial0Flash 4).cfg.physicalPageCount = 1024 from rfl,
        show (mkInitFTL serial0Flash 4).flash = serial0Flash from rfl,
        scan_serial0Flash]
    decide

end FrFTL

namespace FrFTL

/-! ## State-map bit lemmas (C10) -/

theorem testBit_three (m : Nat) : Nat.testBit 3 m = decide (m < 2) := by
  match m with
  | 0 => rfl
  | 1 => rfl
  | m + 2 =>
    rw [Nat.testBit_lt_two_pow (by
      calc (3:Nat) < 2 ^ 2 := by omega
      _ ≤ 2 ^ (m + 2) := Nat.pow_le_pow_right (by omega) (by omega))]
    simp

theorem testBit_mask32 (j : Nat) :
    Nat.testBit 0xffffffff j = decide (j < 32) := by
  rw [show (0xffffffff : Nat) = 2 ^ 32 - 1 from rfl, Nat.testBit_two_pow_sub_one]

theorem stateBits_get_set (w v k : Nat) (hk : k < 16) (hv : v < 4) :
    (((w &&& (0xffffffff ^^^ (3 <<< (k * 2)))) ||| ((v &&& 3) <<< (k * 2)))
      >>> (k * 2)) &&& 3 = v := by
  apply Nat.eq_of_testBit_eq
  intro i
  rw [Nat.testBit_land, Nat.testBit_shiftRight, Nat.testBit_lor, Nat.testBit_land,
      Nat.testBit_xor, Nat.testBit_shiftLeft, Nat.testBit_shiftLeft,
      Nat.testBit_land, testBit_mask32, testBit_three, testBit_three]
  by_cases hi : i < 2
  · have e1 : k * 2 + i - k * 2 = i := by omega
    simp [e1, hi, show k * 2 + i < 32 from by omega,
      show k * 2 + i ≥ k * 2 from by omega]
  · have e1 : k * 2 + i - k * 2 = i := by omega
    rw [e1, Nat.testBit_lt_two_pow (x := v) (by
      calc v < 4 := hv
      _ = 2 ^ 2 := by norm_num
      _ ≤ 2 ^ i := Nat.pow_le_pow_right (by omega) (by omega))]
    simp [hi]

theorem stateBits_frame (w v k k2 : Nat) (hk2 : k2 < 16)
    (hne : k ≠ k2) :
    (((w &&& (0xffffffff ^^^ (3 <<< (k * 2)))) ||| ((v &&& 3) <<< (k * 2)))
      >>> (k2 * 2)) &&& 3 = (w >>> (k2 * 2)) &&& 3 := by
  apply Nat.eq_of_testBit_eq
  intro i
  rw [Nat.testBit_land, Nat.testBit_shiftRight, Nat.testBit_lor, Nat.testBit_land,
      Nat.testBit_xor, Nat.testBit_shiftLeft, Nat.testBit_shiftLeft,
      Nat.testBit_land, testBit_mask32, testBit_three, testBit_three,
      Nat.testBit_land, Nat.testBit_shiftRight, testBit_three]
  by_cases hi : i < 2
  · have h32 : k2 * 2 + i < 32 := by omega
    by_cases hge : k * 2 ≤ k2 * 2 + i
    · have hbig : ¬ (k2 * 2 + i - k * 2 < 2) := by omega
      simp [h32, hge, hbig, hi]
    · simp [h32, hge, hi]
  · simp [hi]

/-- C10: after `setPhysicalPageState(ftl, p, s)`, `getPhysicalPageState`
returns `s` at `p` and is unchanged at every other page `q`. -/
theorem C10_state_map_get_set_frame (ftl : FTL) (p q : Nat)
    (s : PhysicalPageState) (hq : q ≠ p) :
    getPhysicalPageState (setPhysicalPageState ftl p s) p = s ∧
    getPhysicalPageState (setPhysicalPageState ftl p s) q =
      getPhysicalPageState ftl q := by
  constructor
  · unfold getPhysicalPageState setPhysicalPageState
    simp only [eq_self_iff_true, if_true]
    rw [stateBits_get_set (ftl.physicalPageState (p / 16)) s.toNat (p % 16)
      (by omega) (by cases s <;> decide)]
    cases s <;> rfl
  · unfold getPhysicalPageState setPhysicalPageState
    by_cases hw : q / 16 = p / 16
    · simp only [hw, eq_self_iff_true, if_true]
      rw [stateBits_frame (ftl.physicalPageState (p / 16)) s.toNat (p % 16)
        (q % 16) (by omega) (by omega)]
    · simp only [if_neg hw]

/-- Witness for C10 at a concrete state, page and neighbour. -/
theorem C10_state_map_get_set_frame_witness :
    getPhysicalPageState (setPhysicalPageState c7FTL 9 .eraseRequired) 9 =
        .eraseRequired ∧
    getPhysicalPageState (setPhysicalPageState c7FTL 9 .eraseRequired) 25 =
      getPhysicalPageState c7FTL 25 :=
  C10_state_map_get_set_frame c7FTL 9 25 .eraseRequired (by decide)

/-! ## Claim C1: round-trip (code bug) -/

set_option maxRecDepth 1000000 in
set_option maxHeartbeats 4000000 in
/-- C1: the round-trip fails on the code.  Over `garbageFlash` (freshly
formatted by `ftlInit`), all 14 writes of `c1WriteList` succeed — the last
write to sector 0 stored 0x55 in every byte — and yet `ftlReadSector 0`
returns a sector whose byte 0 is 0x00: in `programPageInBuffer`'s
RELOCATE_ERASE_PROGRAM case the erased check reads the state of the **old**
physical page, so the relocated data page is programmed onto a non-erased
page and its contents are destroyed. -/
theorem C1_roundtrip_code_bug : c1Result = some (true, 0) ∧ (0 : Nat) ≠ 0x55 := by
  constructor
  · unfold c1Result
    rw [ftlInit_garbageFlash]
    decide
  · decide

/-! ## Claim C3: RELOCATE_ERASE_PROGRAM erased check (code bug) -/

/-- C3: in `c3FTL` the buffer slot 0 is pending RELOCATE_ERASE_PROGRAM with
payload byte 0xAA, the newly allocated page (3) is ERASE_REQUIRED and not
all-ones, yet the mode issues **no erase** (the check reads the old page's
state, which is ERASED) and programs the buffer onto the stale page: flash
byte 0 of page 3 ends up 0x00 instead of 0xAA.  The old page is still marked
ERASE_REQUIRED and the new one USED as the claim says — only the erase
condition is wrong. -/
theorem C3_relocate_erase_checks_wrong_page :
    getPhysicalPageState c3FTL 2 = .erased ∧
    getPhysicalPageState c3FTL 3 = .eraseRequired ∧
    isFlashErasedPage c3FTL.flash 3 = false ∧
    (bufGet c3FTL.pageBuffer 0).pMode = .relocateEraseProgram ∧
    (bufGet c3FTL.pageBuffer 0).page 0 = 0xaa ∧
    (match programPageInBuffer c3FTL 0 with
     | (ok, ftl2, tr) =>
       ok = true ∧ tr = [FlashOp.program 3 2] ∧
       ftl2.flash 3 0 = 0x00 ∧
       getPhysicalPageState ftl2 2 = .eraseRequired ∧
       getPhysicalPageState ftl2 3 = .used) := by
  refine ⟨rfl, rfl, by decide, rfl, by decide, ?_⟩
  decide

/-! ## Claim C4, counterexample -/

set_option maxRecDepth 400000 in
/-- C4 counterexample: on a freshly formatted 4 MiB FTL, two consecutive
`ftlSync` calls each flush at least one locked (dirty) buffer and both
succeed, yet the on-media MTT serial is 1 after the first sync and still 1
after the second — it does not strictly increase. -/
theorem C4_serial_not_strictly_increasing :
    c4Result = some (true, true, true, 1, 1) ∧ ¬ (1 : Nat) < 1 := by
  constructor
  · unfold c4Result
    rw [ftlInit_freshFlash]
    decide
  · decide

/-! ## Claim C6, counterexample -/

set_option maxRecDepth 100000 in
/-- C6 counterexample: physical page 5 of `serial0Flash` has the magic, a
zero `logical_page_no` and a correct CRC-16 — by the claim it should be
selected as the MTT (it is the only candidate, hence the one of greatest
serial) — but its serial is 0, `loadFTL` never accepts a serial-0 page, and
`ftlInit` formats a fresh FTL instead (MTT at physical page 0, write
frontier 1). -/
theorem C6_valid_serial0_page_not_selected :
    headerValidMTT serial0Flash 5 = true ∧
    readLE32 (serial0Flash 5) 4 = 0 ∧
    headerSerial serial0Flash 5 = 0 ∧
    ftlInit serial0Flash 4 = some (createFTL (mkInitFTL serial0Flash 4)) ∧
    (createFTL (mkInitFTL serial0Flash 4)).1.mttPhysicalPageNo = 0 ∧
    (createFTL (mkInitFTL serial0Flash 4)).1.writeFrontier = 1 := by
  refine ⟨by decide, by decide, by decide, ftlInit_serial0Flash, ?_, ?_⟩ <;> decide

/-! ## Claim C7: invalid parameters -/

/-- C7 (amended): an unsupported size makes `ftlInit` return NULL; an
out-of-range write is rejected with `false` and leaves the cache, frontier,
flash and MTT pointer unchanged — but the physical-page state map may change,
because `ftlWriteSector` runs the lazy resolver *before* its range check
(the range check itself uses wrapping uint32 addition); an out-of-range read
is rejected with the state fully unchanged. -/
theorem C7_invalid_params_rejected (flash : Flash) (sz : Nat) (ftl : FTL)
    (s n sect : Nat) (src : Nat → Nat → Nat)
    (hsz : sz ∉ supportedFlashSizes)
    (hw : (s + n) % 4294967296 > ftl.cfg.usableSectorCount)
    (hr : sect ≥ ftl.cfg.usableSectorCount) :
    ftlInit flash sz = none ∧
    ftlWriteSector ftl s n src =
      some (false, resolveUnknownState ftl ftl.cfg.ttPageCount, []) ∧
    sameExceptStateMap (resolveUnknownState ftl ftl.cfg.ttPageCount) ftl ∧
    ftlReadSector ftl sect = (none, ftl, []) := by
  refine ⟨?_, ?_, resolveUnknownState_sameExcept ftl _, ?_⟩
  · unfold ftlInit
    rw [if_neg hsz]
  · unfold ftlWriteSector
    rw [if_pos (by
      rw [(resolveUnknownState_sameExcept ftl ftl.cfg.ttPageCount).1]
      exact hw)]
  · unfold ftlReadSector
    rw [if_pos hr]

/-- Witness for C7 at concrete inputs: size 5 is unsupported; on the
formatted 4 MiB FTL, sector range 8064+1 is out of range for writing and
sector 9000 for reading. -/
theorem C7_invalid_params_rejected_witness :
    ftlInit freshFlash 5 = none ∧
    ftlWriteSector c7FTL 8064 1 payloadAA =
      some (false, resolveUnknownState c7FTL c7FTL.cfg.ttPageCount, []) ∧
    sameExceptStateMap (resolveUnknownState c7FTL c7FTL.cfg.ttPageCount) c7FTL ∧
    ftlReadSector c7FTL 9000 = (none, c7FTL, []) :=
  C7_invalid_params_rejected freshFlash 5 c7FTL 8064 1 9000 payloadAA
    (by decide) (by decide) (by decide)

/-- C7 counterexample: the claim "no state change" is false for
`ftlWriteSector` — the rejected write below returns `false` yet resolves
physical page 4 of the state map from UNKNOWN to ERASED. -/
theorem C7_rejected_write_mutates_state_map :
    getPhysicalPageState c7FTL 4 = .unknown ∧
    (ftlWriteSector c7FTL 8064 1 payloadAA).map
      (fun r => getPhysicalPageState r.2.1 4) = some .erased := by
  refine ⟨by decide, ?_⟩
  decide

end FrFTL
namespace FrFTL

/-! ## Cache lemma library -/

theorem coreEq_refl (a : PageBuffer) : coreEq a a := ⟨rfl, rfl, rfl, rfl, rfl⟩

theorem coreEq_trans {a b c : PageBuffer} (h1 : coreEq a b) (h2 : coreEq b c) :
    coreEq a c := by
  obtain ⟨x1, x2, x3, x4, x5⟩ := h1
  obtain ⟨y1, y2, y3, y4, y5⟩ := h2
  exact ⟨x1.trans y1, x2.trans y2, x3.trans y3, x4.trans y4, x5.trans y5⟩

theorem coresEq_refl (l : List PageBuffer) : coresEq l l :=
  ⟨rfl, fun _ => coreEq_refl _⟩

theorem coresEq_trans {l1 l2 l3 : List PageBuffer} (h1 : coresEq l1 l2)
    (h2 : coresEq l2 l3) : coresEq l1 l3 :=
  ⟨h1.1.trans h2.1, fun i => coreEq_trans (h1.2 i) (h2.2 i)⟩

theorem bufGet_eq_getElem (l : List PageBuffer) (i : Nat) (h : i < l.length) :
    bufGet l i = l[i] := by
  unfold bufGet
  rw [List.getD_eq_getElem?_getD, List.getElem?_eq_getElem h]
  rfl

theorem bufGet_default (l : List PageBuffer) (i : Nat) (h : ¬ i < l.length) :
    bufGet l i = default := by
  unfold bufGet
  rw [List.getD_eq_getElem?_getD, List.getElem?_eq_none (by omega)]
  rfl

theorem bufGet_set_eq (l : List PageBuffer) (i : Nat) (v : PageBuffer)
    (h : i < l.length) : bufGet (l.set i v) i = v := by
  rw [bufGet_eq_getElem _ _ (by simpa using h)]
  exact List.getElem_set_self (by simpa using h)

theorem bufGet_set_ne (l : List PageBuffer) (i j : Nat) (v : PageBuffer)
    (h : j ≠ i) : bufGet (l.set i v) j = bufGet l j := by
  by_cases hj : j < l.length
  · rw [bufGet_eq_getElem _ _ (by simpa using hj), bufGet_eq_getElem _ _ hj]
    exact List.getElem_set_ne (fun hij => h hij.symm) _
  · rw [bufGet_default _ _ (by simpa using hj), bufGet_default _ _ hj]

/-! ### lruPromote -/

theorem lruPromote_length (l : List PageBuffer) (b : Nat) :
    (lruPromote l b).length = l.length := by
  unfold lruPromote
  split
  · rfl
  · simp

theorem lruPromote_bufGet (l : List PageBuffer) (b i : Nat) (hi : i < l.length) :
    ∃ v, bufGet (lruPromote l b) i = { bufGet l i with lru := v } := by
  unfold lruPromote
  split
  · exact ⟨(bufGet l i).lru, rfl⟩
  · rw [bufGet_eq_getElem _ _ (by simpa using hi)]
    simp only [List.getElem_map, List.getElem_range]
    split
    · exact ⟨b, rfl⟩
    · split
      · exact ⟨(bufGet l (i - 1)).lru, rfl⟩
      · exact ⟨(bufGet l i).lru, rfl⟩

theorem lruPromote_coresEq (l : List PageBuffer) (b : Nat) :
    coresEq (lruPromote l b) l := by
  refine ⟨lruPromote_length l b, fun i => ?_⟩
  by_cases hi : i < l.length
  · obtain ⟨v, hv⟩ := lruPromote_bufGet l b i hi
    rw [hv]
    exact ⟨rfl, rfl, rfl, rfl, rfl⟩
  · rw [bufGet_default _ _ (by rw [lruPromote_length]; exact hi),
        bufGet_default _ _ hi]
    exact coreEq_refl _


/-! ### freeCount -/

theorem freeCount_coresEq {l1 l2 : List PageBuffer} (h : coresEq l1 l2) :
    freeCount l1 = freeCount l2 := by
  unfold freeCount
  obtain ⟨hlen, hcore⟩ := h
  induction l1 generalizing l2 with
  | nil => cases l2 with
    | nil => rfl
    | cons b t => simp at hlen
  | cons a t1 ih =>
    cases l2 with
    | nil => simp at hlen
    | cons b t2 =>
      have h0 := hcore 0
      rw [show bufGet (a :: t1) 0 = a from rfl,
          show bufGet (b :: t2) 0 = b from rfl] at h0
      have ht : ∀ i, coreEq (bufGet t1 i) (bufGet t2 i) := fun i => by
        have := hcore (i + 1)
        rwa [show bufGet (a :: t1) (i + 1) = bufGet t1 i from rfl,
             show bufGet (b :: t2) (i + 1) = bufGet t2 i from rfl] at this
      simp only [List.countP_cons]
      rw [ih (by simpa using hlen) ht, h0.2.2.1]

theorem freeCount_pos_exists {l : List PageBuffer} (h : 0 < freeCount l) :
    ∃ i < l.length, (bufGet l i).lock = false := by
  unfold freeCount at h
  induction l with
  | nil => simp [List.countP_nil] at h
  | cons a t ih =>
    by_cases ha : a.lock = false
    · exact ⟨0, by simp, ha⟩
    · simp only [List.countP_cons, Bool.not_eq_true', decide_eq_true_eq,
        if_neg ha, Nat.add_zero] at h
      obtain ⟨i, hi, hl⟩ := ih h
      refine ⟨i + 1, by simpa using Nat.succ_lt_succ hi, hl⟩

theorem freeCount_set {l : List PageBuffer} {i : Nat} {v : PageBuffer}
    (hi : i < l.length) :
    freeCount (l.set i v) + (if (bufGet l i).lock = false then 1 else 0) =
      freeCount l + (if v.lock = false then 1 else 0) := by
  unfold freeCount
  induction l generalizing i with
  | nil => simp at hi
  | cons a t ih =>
    cases i with
    | zero =>
      simp only [List.set_cons_zero, List.countP_cons,
        show bufGet (a :: t) 0 = a from rfl]
      by_cases ha : a.lock = false <;> by_cases hv : v.lock = false <;>
        (simp [ha, hv]; try omega)
    | succ i =>
      simp only [List.set_cons_succ, List.countP_cons,
        show bufGet (a :: t) (i + 1) = bufGet t i from rfl]
      have := ih (i := i) (by simpa using hi)
      by_cases ha : a.lock = false <;> simp [ha] <;> omega

/-! ### lruPromote, boundedness and surjectivity -/

theorem lruFindJ_spec {l : List PageBuffer} {b J : Nat}
    (h : lruFindJ l b = some J) :
    J < l.length ∧ 0 < J ∧ (bufGet l J).lru = b := by
  unfold lruFindJ at h
  have h1 := List.find?_some h
  have h2 := List.mem_of_find?_eq_some h
  simp only [Bool.and_eq_true, decide_eq_true_eq, beq_iff_eq] at h1
  simp only [List.mem_range] at h2
  exact ⟨h2, h1.1, h1.2⟩

theorem lruPromote_bufGet_spec {l : List PageBuffer} {b J : Nat}
    (hJ : lruFindJ l b = some J) (i : Nat) (hi : i < l.length) :
    bufGet (lruPromote l b) i =
      (if i = 0 then { bufGet l i with lru := b }
       else if i ≤ J then { bufGet l i with lru := (bufGet l (i - 1)).lru }
       else bufGet l i) := by
  unfold lruPromote
  rw [hJ]
  rw [bufGet_eq_getElem _ _ (by simpa using hi)]
  simp only [List.getElem_map, List.getElem_range]

theorem lruPromote_bounded {l : List PageBuffer} {b : Nat}
    (hl : lruBounded l) (hb : b < l.length) : lruBounded (lruPromote l b) := by
  intro i hi
  rw [lruPromote_length] at hi
  rw [lruPromote_length]
  cases hJ : lruFindJ l b with
  | none =>
    unfold lruPromote
    rw [hJ]
    exact hl i hi
  | some J =>
    rw [lruPromote_bufGet_spec hJ i hi]
    split
    · exact hb
    · split
      · exact hl (i - 1) (by omega)
      · exact hl i hi

theorem lruPromote_surj {l : List PageBuffer} {b : Nat}
    (hs : lruSurj l) : lruSurj (lruPromote l b) := by
  intro v hv
  rw [lruPromote_length] at hv
  cases hJ : lruFindJ l b with
  | none =>
    obtain ⟨i, hi, hlru⟩ := hs v hv
    refine ⟨i, by rwa [lruPromote_length], ?_⟩
    unfold lruPromote
    rw [hJ]
    exact hlru
  | some J =>
    obtain ⟨hJlen, hJpos, hJlru⟩ := lruFindJ_spec hJ
    obtain ⟨i0, hi0, hlru0⟩ := hs v hv
    rcases Nat.lt_trichotomy i0 J with hlt | heq | hgt
    · refine ⟨i0 + 1, by rw [lruPromote_length]; omega, ?_⟩
      rw [lruPromote_bufGet_spec hJ (i0 + 1) (by omega)]
      rw [if_neg (by omega), if_pos (by omega)]
      simpa using hlru0
    · subst heq
      refine ⟨0, by rw [lruPromote_length]; omega, ?_⟩
      rw [lruPromote_bufGet_spec hJ 0 (by omega), if_pos rfl]
      rw [hJlru] at hlru0
      simpa using hlru0
    · refine ⟨i0, by rw [lruPromote_length]; omega, ?_⟩
      rw [lruPromote_bufGet_spec hJ i0 hi0, if_neg (by omega), if_neg (by omega)]
      exact hlru0

/-! ### findPhysicalPageInBuffer and evictScan -/

theorem find_spec (ftl : FTL) (pa : Nat) :
    (∃ i, findPhysicalPageInBuffer ftl pa =
        (some i, { ftl with pageBuffer := lruPromote ftl.pageBuffer i }) ∧
      i < ftl.cfg.pageBufferSize ∧
      (bufGet ftl.pageBuffer i).physicalPageNo = (pa : Int)) ∨
    (findPhysicalPageInBuffer ftl pa = (none, ftl) ∧
      ∀ i < ftl.cfg.pageBufferSize,
        (bufGet ftl.pageBuffer i).physicalPageNo ≠ (pa : Int)) := by
  unfold findPhysicalPageInBuffer
  cases hf : (List.range ftl.cfg.pageBufferSize).find?
      (fun i => (bufGet ftl.pageBuffer i).physicalPageNo == (pa : Int)) with
  | none =>
    right
    refine ⟨rfl, fun i hi => ?_⟩
    have := List.find?_eq_none.mp hf i (List.mem_range.mpr hi)
    simpa using this
  | some i =>
    left
    have h1 := List.find?_some hf
    have h2 := List.mem_of_find?_eq_some hf
    simp only [beq_iff_eq] at h1
    simp only [List.mem_range] at h2
    exact ⟨i, rfl, h2, h1⟩

theorem evictScan_unlocked (l : List PageBuffer) (i : Nat)
    (h : ∃ j, j ≤ i ∧ (bufGet l (bufGet l j).lru).lock = false) :
    (bufGet l (evictScan l i)).lock = false := by
  induction i with
  | zero =>
    obtain ⟨j, hj, hl⟩ := h
    have hj0 : j = 0 := by omega
    subst hj0
    simpa [evictScan] using hl
  | succ i ih =>
    unfold evictScan
    by_cases hc : (bufGet l (bufGet l (i + 1)).lru).lock = true
    · rw [if_pos hc]
      apply ih
      obtain ⟨j, hj, hl⟩ := h
      refine ⟨j, ?_, hl⟩
      rcases Nat.lt_or_ge j (i + 1) with h2 | h2
      · omega
      · exfalso
        have : j = i + 1 := by omega
        subst this
        rw [hl] at hc
        cases hc
    · rw [if_neg hc]
      simpa using hc

theorem evictScan_lt (l : List PageBuffer) (i : Nat) (hb : lruBounded l)
    (hi : i < l.length) : evictScan l i < l.length := by
  induction i with
  | zero => exact hb 0 hi
  | succ i ih =>
    unfold evictScan
    by_cases hc : (bufGet l (bufGet l (i + 1)).lru).lock = true
    · rw [if_pos hc]
      exact ih (by omega)
    · rw [if_neg hc]
      exact hb (i + 1) hi

/-! ### loadPhysicalPageInBuffer -/

theorem load_sameExceptBuffers (ftl : FTL) (la pa : Nat) :
    sameExceptBuffers (loadPhysicalPageInBuffer ftl la pa).2.1 ftl := by
  unfold loadPhysicalPageInBuffer
  rcases find_spec ftl pa with ⟨i, hf, _, _⟩ | ⟨hf, _⟩ <;> simp only [hf]
  · exact ⟨rfl, rfl, rfl, rfl, rfl, rfl⟩
  · split
    · exact ⟨rfl, rfl, rfl, rfl, rfl, rfl⟩
    · exact ⟨rfl, rfl, rfl, rfl, rfl, rfl⟩

theorem load_trace_read_only (ftl : FTL) (la pa : Nat) :
    ∀ e ∈ (loadPhysicalPageInBuffer ftl la pa).2.2, e = FlashOp.read pa := by
  unfold loadPhysicalPageInBuffer
  rcases find_spec ftl pa with ⟨i, hf, _, _⟩ | ⟨hf, _⟩ <;> simp only [hf]
  · simp
  · split
    · simp
    · simp

theorem load_shape (ftl : FTL) (la pa : Nat) (h : CacheShape ftl)
    (hpos : 0 < ftl.cfg.pageBufferSize) :
    CacheShape (loadPhysicalPageInBuffer ftl la pa).2.1 := by
  obtain ⟨hlen, hb, hs⟩ := h
  unfold loadPhysicalPageInBuffer
  rcases find_spec ftl pa with ⟨i, hf, hi, _⟩ | ⟨hf, _⟩ <;> simp only [hf]
  · refine ⟨by simpa [lruPromote_length] using hlen, ?_, lruPromote_surj hs⟩
    exact lruPromote_bounded hb (by omega)
  · split
    · exact ⟨hlen, hb, hs⟩
    · have hidx : evictScan ftl.pageBuffer (ftl.cfg.pageBufferSize - 1) <
          ftl.pageBuffer.length := evictScan_lt _ _ hb (by omega)
      refine ⟨?_, ?_, ?_⟩
      · simpa [lruPromote_length] using hlen
      · apply lruPromote_bounded
        · intro j hj
          rw [List.length_set] at hj ⊢
          by_cases hji : j = evictScan ftl.pageBuffer (ftl.cfg.pageBufferSize - 1)
          · subst hji
            rw [bufGet_set_eq _ _ _ hidx]
            exact hb _ hj
          · rw [bufGet_set_ne _ _ _ _ hji]
            exact hb _ hj
        · simpa using hidx
      · apply lruPromote_surj
        intro v hv
        rw [List.length_set] at hv
        obtain ⟨j, hj, hlru⟩ := hs v hv
        refine ⟨j, by simpa using hj, ?_⟩
        by_cases hji : j = evictScan ftl.pageBuffer (ftl.cfg.pageBufferSize - 1)
        · subst hji
          rw [bufGet_set_eq _ _ _ hidx]
          exact hlru
        · rw [bufGet_set_ne _ _ _ _ hji]
          exact hlru


/-! ### stepOK: how write-path steps relate output state to input state -/

theorem sameExceptBuffers_trans {a b c : FTL} (h1 : sameExceptBuffers a b)
    (h2 : sameExceptBuffers b c) : sameExceptBuffers a c := by
  obtain ⟨x1, x2, x3, x4, x5, x6⟩ := h1
  obtain ⟨y1, y2, y3, y4, y5, y6⟩ := h2
  exact ⟨x1.trans y1, x2.trans y2, x3.trans y3, x4.trans y4, x5.trans y5,
    x6.trans y6⟩

theorem stepOK_trans {a b c : FTL} (h1 : stepOK a b) (h2 : stepOK b c) :
    stepOK a c := by
  obtain ⟨s1, f1⟩ := h1
  obtain ⟨s2, f2⟩ := h2
  refine ⟨sameExceptBuffers_trans s1 s2, fun hc => ?_⟩
  obtain ⟨g2, e2⟩ := f2 hc
  obtain ⟨g1, e1⟩ := f1 g2
  exact ⟨g1, e1.trans e2⟩

/-! ### Remaining loadPhysicalPageInBuffer characterizations -/

theorem load_isSome (ftl : FTL) (la pa : Nat) (h : CacheShape ftl)
    (hpos : 0 < ftl.cfg.pageBufferSize) (hfree : 0 < freeCount ftl.pageBuffer) :
    (loadPhysicalPageInBuffer ftl la pa).1.isSome := by
  obtain ⟨hlen, hb, hs⟩ := h
  unfold loadPhysicalPageInBuffer
  rcases find_spec ftl pa with ⟨i, hf, _, _⟩ | ⟨hf, _⟩ <;> simp only [hf]
  · rfl
  · have hun : (bufGet ftl.pageBuffer
        (evictScan ftl.pageBuffer (ftl.cfg.pageBufferSize - 1))).lock = false := by
      apply evictScan_unlocked
      obtain ⟨u, hu, hul⟩ := freeCount_pos_exists hfree
      obtain ⟨j, hj, hlru⟩ := hs u hu
      exact ⟨j, by omega, by rw [hlru]; exact hul⟩
    rw [if_neg (by simp [hun])]
    rfl

theorem load_idx_lt (ftl : FTL) (la pa i : Nat) (h : CacheShape ftl)
    (hpos : 0 < ftl.cfg.pageBufferSize)
    (hi : (loadPhysicalPageInBuffer ftl la pa).1 = some i) :
    i < ftl.cfg.pageBufferSize := by
  obtain ⟨hlen, hb, hs⟩ := h
  unfold loadPhysicalPageInBuffer at hi
  rcases find_spec ftl pa with ⟨k, hf, hk, _⟩ | ⟨hf, _⟩ <;> simp only [hf] at hi
  · simp at hi
    omega
  · by_cases hc : (bufGet ftl.pageBuffer
        (evictScan ftl.pageBuffer (ftl.cfg.pageBufferSize - 1))).lock = true
    · rw [if_pos hc] at hi
      simp at hi
    · rw [if_neg hc] at hi
      simp at hi
      have := evictScan_lt ftl.pageBuffer (ftl.cfg.pageBufferSize - 1) hb
        (by omega)
      omega

theorem load_freeCount (ftl : FTL) (la pa : Nat) (h : CacheShape ftl)
    (hpos : 0 < ftl.cfg.pageBufferSize) :
    freeCount (loadPhysicalPageInBuffer ftl la pa).2.1.pageBuffer =
      freeCount ftl.pageBuffer := by
  obtain ⟨hlen, hb, hs⟩ := h
  unfold loadPhysicalPageInBuffer
  rcases find_spec ftl pa with ⟨i, hf, hi, _⟩ | ⟨hf, _⟩ <;> simp only [hf]
  · exact freeCount_coresEq (lruPromote_coresEq _ _)
  · by_cases hc : (bufGet ftl.pageBuffer
        (evictScan ftl.pageBuffer (ftl.cfg.pageBufferSize - 1))).lock = true
    · rw [if_pos hc]
    · rw [if_neg hc]
      have hidx : evictScan ftl.pageBuffer (ftl.cfg.pageBufferSize - 1) <
          ftl.pageBuffer.length := evictScan_lt _ _ hb (by omega)
      have key : ∀ v : PageBuffer, v.lock = false →
          freeCount (lruPromote (ftl.pageBuffer.set
            (evictScan ftl.pageBuffer (ftl.cfg.pageBufferSize - 1)) v)
            (evictScan ftl.pageBuffer (ftl.cfg.pageBufferSize - 1))) =
          freeCount ftl.pageBuffer := by
        intro v hv
        rw [freeCount_coresEq (lruPromote_coresEq _ _)]
        have h2 := freeCount_set (l := ftl.pageBuffer) (v := v) hidx
        rw [if_pos hv, if_pos (by simpa using hc)] at h2
        omega
      exact key _ rfl

theorem load_stepOK (ftl : FTL) (la pa : Nat) :
    stepOK (loadPhysicalPageInBuffer ftl la pa).2.1 ftl := by
  refine ⟨load_sameExceptBuffers ftl la pa, fun hg => ?_⟩
  obtain ⟨hsh, hpos⟩ := hg
  have hc := (load_sameExceptBuffers ftl la pa).1
  exact ⟨⟨load_shape ftl la pa hsh hpos, by rw [hc]; exact hpos⟩,
    load_freeCount ftl la pa hsh hpos⟩

/-! ### Slot locking preserves the shape and drops at most one free slot -/

theorem set_keeplru_shape {l : List PageBuffer} {i : Nat} {v : PageBuffer}
    (hv : v.lru = (bufGet l i).lru) (hb : lruBounded l) (hs : lruSurj l) :
    lruBounded (l.set i v) ∧ lruSurj (l.set i v) := by
  constructor
  · intro j hj
    rw [List.length_set] at hj ⊢
    by_cases hji : j = i
    · subst hji
      rw [bufGet_set_eq _ _ _ hj, hv]
      exact hb _ hj
    · rw [bufGet_set_ne _ _ _ _ hji]
      exact hb _ hj
  · intro u hu
    rw [List.length_set] at hu
    obtain ⟨j, hj, hlru⟩ := hs u hu
    refine ⟨j, by simpa using hj, ?_⟩
    by_cases hji : j = i
    · subst hji
      rw [bufGet_set_eq _ _ _ hj, hv]
      exact hlru
    · rw [bufGet_set_ne _ _ _ _ hji]
      exact hlru

theorem lock_set_good {ftl : FTL} {i : Nat} {v : PageBuffer}
    (hv : v.lru = (bufGet ftl.pageBuffer i).lru) (hg : cacheGood ftl) :
    cacheGood { ftl with pageBuffer := ftl.pageBuffer.set i v } := by
  obtain ⟨⟨hlen, hb, hs⟩, hpos⟩ := hg
  obtain ⟨hb2, hs2⟩ := set_keeplru_shape hv hb hs
  exact ⟨⟨by simpa using hlen, hb2, hs2⟩, hpos⟩

theorem freeCount_set_ge {l : List PageBuffer} {i : Nat} {v : PageBuffer}
    (hi : i < l.length) : freeCount l ≤ freeCount (l.set i v) + 1 := by
  have h2 := freeCount_set (l := l) (v := v) hi
  by_cases h3 : (bufGet l i).lock = false <;> by_cases h4 : v.lock = false
  · rw [if_pos h3, if_pos h4] at h2
    omega
  · rw [if_pos h3, if_neg h4] at h2
    omega
  · rw [if_neg h3, if_pos h4] at h2
    omega
  · rw [if_neg h3, if_neg h4] at h2
    omega

theorem freeCount_record_ge (ftl : FTL) (i : Nat) (v : PageBuffer)
    (hi : i < ftl.pageBuffer.length) (hfree : 3 ≤ freeCount ftl.pageBuffer) :
    2 ≤ freeCount ({ ftl with pageBuffer := ftl.pageBuffer.set i v }).pageBuffer := by
  have h2 := freeCount_set_ge (l := ftl.pageBuffer) (v := v) hi
  show 2 ≤ freeCount (ftl.pageBuffer.set i v)
  omega

theorem freeCount_record_pos (ftl : FTL) (i : Nat) (v : PageBuffer)
    (hi : i < ftl.pageBuffer.length) (hfree : 2 ≤ freeCount ftl.pageBuffer) :
    0 < freeCount ({ ftl with pageBuffer := ftl.pageBuffer.set i v }).pageBuffer := by
  have h2 := freeCount_set_ge (l := ftl.pageBuffer) (v := v) hi
  show 0 < freeCount (ftl.pageBuffer.set i v)
  omega

/-! ### readPhysicalPageInfo / readPageInfo are load-shaped -/

theorem readPhysicalPageInfo_state (ftl : FTL) (la pa r : Nat) :
    (readPhysicalPageInfo ftl la pa r).2.1 =
      (loadPhysicalPageInBuffer ftl la pa).2.1 := by
  unfold readPhysicalPageInfo
  rcases hL : loadPhysicalPageInBuffer ftl la pa with ⟨o, f2, t2⟩
  cases o <;> rfl

theorem readPhysicalPageInfo_stepOK (ftl : FTL) (la pa r : Nat) :
    stepOK (readPhysicalPageInfo ftl la pa r).2.1 ftl := by
  rw [readPhysicalPageInfo_state]
  exact load_stepOK ftl la pa

theorem readPageInfo_stepOK (ftl : FTL) (la : Nat) :
    stepOK (readPageInfo ftl la).2.1 ftl := by
  unfold readPageInfo
  by_cases h : la < TT_RECORDS_PER_PAGE
  · rw [if_pos h]
    exact readPhysicalPageInfo_stepOK ftl 0 ftl.mttPhysicalPageNo la
  · rw [if_neg h]
    dsimp only
    rcases hR : readPhysicalPageInfo ftl 0 ftl.mttPhysicalPageNo
        (la / TT_RECORDS_PER_PAGE) with ⟨o, f2, t2⟩
    have hstep := readPhysicalPageInfo_stepOK ftl 0 ftl.mttPhysicalPageNo
      (la / TT_RECORDS_PER_PAGE)
    rw [hR] at hstep
    have hstep1 : stepOK f2 ftl := hstep
    cases o with
    | none => exact hstep1
    | some info =>
      dsimp only
      rcases hR2 : readPhysicalPageInfo f2 (la / TT_RECORDS_PER_PAGE)
          (i16toU16 info.physicalPageNo) (la % TT_RECORDS_PER_PAGE)
        with ⟨o2, f3, t3⟩
      have hstep2 := readPhysicalPageInfo_stepOK f2 (la / TT_RECORDS_PER_PAGE)
        (i16toU16 info.physicalPageNo) (la % TT_RECORDS_PER_PAGE)
      rw [hR2] at hstep2
      have hstep3 : stepOK f3 f2 := hstep2
      exact stepOK_trans hstep3 hstep1

/-! ### Pointer safety of the overwrite branch -/

theorem writeOverwriteMtt_isSome (ftl : FTL) (tt : Nat) (tr : Trace)
    (hg : cacheGood ftl) (hfree : 0 < freeCount ftl.pageBuffer) :
    (writeOverwriteMtt ftl tt tr).isSome := by
  unfold writeOverwriteMtt
  by_cases h : tt > 0
  · rw [if_pos h]
    rcases hL : loadPhysicalPageInBuffer ftl 0 ftl.mttPhysicalPageNo
      with ⟨o, f2, t2⟩
    have hS := load_isSome ftl 0 ftl.mttPhysicalPageNo hg.1 hg.2 hfree
    rw [hL] at hS
    have hS2 : o.isSome := hS
    cases o with
    | none => simp at hS2
    | some mIdx => rfl
  · rw [if_neg h]
    rfl

theorem writeOverwriteGo_isSome (ftl : FTL) (tt : Nat) (hg : cacheGood ftl)
    (hfree : 2 ≤ freeCount ftl.pageBuffer) :
    (writeOverwriteGo ftl tt).isSome := by
  unfold writeOverwriteGo
  rcases hR : readPageInfo ftl tt with ⟨o, f2, t2⟩
  have hstep := readPageInfo_stepOK ftl tt
  rw [hR] at hstep
  have hstep1 : stepOK f2 ftl := hstep
  obtain ⟨hsame, hf⟩ := hstep1
  obtain ⟨hg2, hfc2⟩ := hf hg
  cases o with
  | none => rfl
  | some info =>
    dsimp only
    rcases hL : loadPhysicalPageInBuffer f2 tt (i16toU16 info.physicalPageNo)
      with ⟨o2, f3, t3⟩
    have hS := load_isSome f2 tt (i16toU16 info.physicalPageNo) hg2.1 hg2.2
      (by omega)
    rw [hL] at hS
    have hS2 : o2.isSome := hS
    have hstep2 := load_stepOK f2 tt (i16toU16 info.physicalPageNo)
    rw [hL] at hstep2
    have hstep3 : stepOK f3 f2 := hstep2
    obtain ⟨hsame3, hf3⟩ := hstep3
    obtain ⟨hg3, hfc3⟩ := hf3 hg2
    cases o2 with
    | none => simp at hS2
    | some ttIdx =>
      dsimp only
      apply writeOverwriteMtt_isSome
      · exact lock_set_good rfl hg3
      · have hidx : ttIdx < f3.pageBuffer.length := by
          have h1 := load_idx_lt f2 tt (i16toU16 info.physicalPageNo) ttIdx
            hg2.1 hg2.2 (by rw [hL])
          have h2 : f3.cfg = f2.cfg := hsame3.1
          have h3 : f3.pageBuffer.length = f3.cfg.pageBufferSize := hg3.1.1
          rw [h3, h2]
          exact h1
        exact freeCount_record_pos f3 ttIdx _ hidx (by omega)

/-- **C9.** In the overwrite branch of `ftlWriteSector`, the buffers returned
by `loadPhysicalPageInBuffer` for the owning TT page and for the MTT are
dereferenced without a NULL check; with a well-shaped non-empty cache, an
in-range data-buffer index and at least 3 unlocked slots on entry (the model
HAL read always succeeds), those loads never return NULL, so the overwrite
step never reaches the modelled fault (`none`). -/
theorem C9_overwrite_no_null_deref (ftl : FTL)
    (dataIdx logicalPageNo pageSectorNo : Nat) (src : Nat → Nat)
    (h : CacheShape ftl) (hpos : 0 < ftl.cfg.pageBufferSize)
    (hidx : dataIdx < ftl.cfg.pageBufferSize)
    (hfree : 3 ≤ freeCount ftl.pageBuffer) :
    (writeOverwriteStep ftl dataIdx logicalPageNo pageSectorNo src).isSome := by
  unfold writeOverwriteStep
  apply writeOverwriteGo_isSome
  · exact lock_set_good rfl ⟨h, hpos⟩
  · have hlen : dataIdx < ftl.pageBuffer.length := by rw [h.1]; exact hidx
    exact freeCount_record_ge ftl dataIdx _ hlen hfree

/-- Witness for C9: all hypotheses hold at `c9FTL` with data buffer 0,
logical page 100, page sector 0. -/
theorem C9_overwrite_no_null_deref_witness :
    (writeOverwriteStep c9FTL 0 100 0 (fun _ => 0xAA)).isSome :=
  C9_overwrite_no_null_deref c9FTL 0 100 0 (fun _ => 0xAA)
    (by
      refine ⟨rfl, ?_, ?_⟩
      · unfold lruBounded c9FTL bufGet
        decide
      · unfold lruSurj c9FTL bufGet
        decide)
    (by decide) (by decide) (by decide)


/-! ### sameCore: the mount bookkeeping fields -/

theorem sameCore_refl (a : FTL) : sameCore a a := ⟨rfl, rfl, rfl, rfl⟩

theorem sameCore_trans {a b c : FTL} (h1 : sameCore a b) (h2 : sameCore b c) :
    sameCore a c := by
  obtain ⟨x1, x2, x3, x4⟩ := h1
  obtain ⟨y1, y2, y3, y4⟩ := h2
  exact ⟨x1.trans y1, x2.trans y2, x3.trans y3, x4.trans y4⟩

theorem sameCore_of_stateMap {a b : FTL} (h : sameExceptStateMap a b) :
    sameCore a b := ⟨h.1, h.2.1, h.2.2.1, h.2.2.2.2⟩

theorem sameCore_of_buffers {a b : FTL} (h : sameExceptBuffers a b) :
    sameCore a b := ⟨h.1, h.2.1, h.2.2.1, h.2.2.2.2.2⟩

theorem setPhysicalPageState_sameCore (ftl : FTL) (p : Nat)
    (s : PhysicalPageState) : sameCore (setPhysicalPageState ftl p s) ftl :=
  sameCore_of_stateMap (setPhysicalPageState_sameExcept ftl p s)

theorem foldl_sameCore {α : Type} (step : FTL → α → FTL)
    (hstep : ∀ g j, sameCore (step g j) g) :
    ∀ (l : List α) (g : FTL), sameCore (l.foldl step g) g := by
  intro l
  induction l with
  | nil => exact fun g => sameCore_refl g
  | cons a t ih => exact fun g => sameCore_trans (ih (step g a)) (hstep g a)

/-! ### The record walk preserves the mount bookkeeping -/

theorem loadWalkMark_sameCore (ftl : FTL) (mttIdx i : Nat) :
    sameCore (loadWalkMark ftl mttIdx i) ftl := by
  unfold loadWalkMark
  dsimp only
  split
  · exact setPhysicalPageState_sameCore _ _ _
  · exact sameCore_refl _

theorem loadWalkStt_sameCore (ftl : FTL) (i pa : Nat) :
    sameCore (loadWalkStt ftl i pa).1 ftl := by
  unfold loadWalkStt
  split
  · rcases hL : loadPhysicalPageInBuffer ftl i pa with ⟨r, f2, t0⟩
    have h2 : sameCore f2 ftl := by
      have h3 := sameCore_of_buffers (load_sameExceptBuffers ftl i pa)
      rwa [hL] at h3
    refine sameCore_trans ?_ h2
    apply foldl_sameCore
    intro g j
    dsimp only
    split
    · exact setPhysicalPageState_sameCore _ _ _
    · exact sameCore_refl _
  · exact sameCore_refl _

theorem loadWalk_sameCore :
    ∀ (n : Nat) (ftl : FTL) (mttIdx i : Nat),
      sameCore (loadWalk ftl mttIdx i n).1 ftl := by
  intro n
  induction n with
  | zero => exact fun ftl mttIdx i => sameCore_refl _
  | succ n ih =>
    intro ftl mttIdx i
    unfold loadWalk
    rcases hS : loadWalkStt (loadWalkMark ftl mttIdx i) i
        (i16toU16 (readPageInfoBytes (bufGet ftl.pageBuffer mttIdx).page
          i).physicalPageNo) with ⟨f2, t0⟩
    dsimp only
    rcases hW : loadWalk f2 mttIdx (i + 1) n with ⟨f3, t1⟩
    dsimp only
    have h1 : sameCore f3 f2 := by
      have h := ih f2 mttIdx (i + 1)
      rwa [hW] at h
    have h2 : sameCore f2 (loadWalkMark ftl mttIdx i) := by
      have h := loadWalkStt_sameCore (loadWalkMark ftl mttIdx i) i
        (i16toU16 (readPageInfoBytes (bufGet ftl.pageBuffer mttIdx).page
          i).physicalPageNo)
      rwa [hS] at h
    exact sameCore_trans (sameCore_trans h1 h2) (loadWalkMark_sameCore ftl mttIdx i)

theorem loadGo_sameCore (ftl : FTL) (m : Nat) :
    sameCore (loadGo ftl m).1 ftl := by
  unfold loadGo
  rcases hL : loadPhysicalPageInBuffer ftl 0 m with ⟨r, f2, t0⟩
  dsimp only
  rcases hW : loadWalk f2 (r.getD 0) 1 (TT_RECORDS_PER_PAGE - 1) with ⟨f3, t1⟩
  dsimp only
  have h1 : sameCore f2 ftl := by
    have h := sameCore_of_buffers (load_sameExceptBuffers ftl 0 m)
    rwa [hL] at h
  have h2 : sameCore f3 f2 := by
    have h := loadWalk_sameCore (TT_RECORDS_PER_PAGE - 1) f2 (r.getD 0) 1
    rwa [hW] at h
  exact sameCore_trans (sameCore_trans
    (sameCore_of_stateMap (resolveUnknownState_sameExcept f3 f3.cfg.pageBufferSize))
    h2) h1

theorem loadPrep_fields (ftl : FTL) (p : Nat) :
    (loadPrep ftl p).cfg = ftl.cfg ∧ (loadPrep ftl p).mttPhysicalPageNo = p ∧
    (loadPrep ftl p).flash = ftl.flash ∧
    (loadPrep ftl p).writeFrontier =
      (if p + 1 ≥ ftl.cfg.physicalPageCount then 0 else p + 1) := by
  have h := setPhysicalPageState_sameExcept { ftl with mttPhysicalPageNo := p }
    p .used
  unfold loadPrep
  refine ⟨h.1, h.2.1, h.2.2.2.2, ?_⟩
  show (if p + 1 ≥ (setPhysicalPageState { ftl with mttPhysicalPageNo := p }
    p PhysicalPageState.used).cfg.physicalPageCount then 0 else p + 1) = _
  rw [h.1]

/-! ### What the MTT scan fold returns -/

theorem scanMTT_result (f : Flash) (l : List Nat) (acc : Nat × Int) :
    (scanMTT f l acc = acc ∨
      ∃ i ∈ l, scanMTT f l acc = (headerSerial f i, (i : Int)) ∧
        headerValidMTT f i = true ∧ acc.1 < headerSerial f i) ∧
    acc.1 ≤ (scanMTT f l acc).1 ∧
    ∀ i ∈ l, headerValidMTT f i = true →
      headerSerial f i ≤ (scanMTT f l acc).1 := by
  induction l generalizing acc with
  | nil => exact ⟨Or.inl rfl, le_refl _, by simp⟩
  | cons j t ih =>
    rw [scanMTT_cons]
    by_cases hj : headerValidMTT f j = true ∧ headerSerial f j > acc.1
    · rw [if_pos hj]
      obtain ⟨hres, hmono, hmax⟩ := ih (headerSerial f j, (j : Int))
      obtain ⟨hjv, hjgt⟩ := hj
      refine ⟨?_, by dsimp at hmono; omega, ?_⟩
      · rcases hres with h | ⟨i, hi, he, hv, hlt⟩
        · exact Or.inr ⟨j, by simp, h, hjv, hjgt⟩
        · refine Or.inr ⟨i, List.mem_cons_of_mem _ hi, he, hv, ?_⟩
          dsimp at hlt
          omega
      · intro i hi hv
        rcases List.mem_cons.mp hi with rfl | hit
        · exact hmono
        · exact hmax i hit hv
    · rw [if_neg hj]
      obtain ⟨hres, hmono, hmax⟩ := ih acc
      refine ⟨?_, hmono, ?_⟩
      · rcases hres with h | ⟨i, hi, he, hv, hlt⟩
        · exact Or.inl h
        · exact Or.inr ⟨i, List.mem_cons_of_mem _ hi, he, hv, hlt⟩
      · intro i hi hv
        rcases List.mem_cons.mp hi with rfl | hit
        · have hle : ¬ headerSerial f i > acc.1 := fun hgt => hj ⟨hv, hgt⟩
          omega
        · exact hmax i hit hv

/-- **C6** (amended).  The mount scan of `loadFTL` accepts a page only when
its header is a valid MTT header **and its serial is strictly positive** (the
scan starts from serial 0 and requires a strict improvement, so a valid page
with serial 0 is never selected).  When some page is selected: it is in
range, valid, of maximal serial among all valid headers, it becomes
`mttPhysicalPageNo`, and the write frontier becomes the following physical
page (wrapping); configuration and flash are untouched by the mount walk.
When no page is selected, every valid header has serial 0, `loadFTL` fails,
and `ftlInit` formats a fresh FTL via `createFTL`. -/
theorem C6_mount_authority (ftl : FTL) (flash : Flash) (sz : Nat) :
    ((scanMTT ftl.flash (List.range ftl.cfg.physicalPageCount) (0, -1)).2 ≥ 0 →
      (scanMTT ftl.flash (List.range ftl.cfg.physicalPageCount) (0, -1)).2.toNat
          < ftl.cfg.physicalPageCount ∧
      headerValidMTT ftl.flash
        (scanMTT ftl.flash (List.range ftl.cfg.physicalPageCount)
          (0, -1)).2.toNat = true ∧
      0 < headerSerial ftl.flash
        (scanMTT ftl.flash (List.range ftl.cfg.physicalPageCount) (0, -1)).2.toNat ∧
      (∀ i < ftl.cfg.physicalPageCount, headerValidMTT ftl.flash i = true →
        headerSerial ftl.flash i ≤ headerSerial ftl.flash
          (scanMTT ftl.flash (List.range ftl.cfg.physicalPageCount)
            (0, -1)).2.toNat) ∧
      ∃ g tr, loadFTL ftl = some (g, tr) ∧
        g.mttPhysicalPageNo =
          (scanMTT ftl.flash (List.range ftl.cfg.physicalPageCount)
            (0, -1)).2.toNat ∧
        g.writeFrontier = (if (scanMTT ftl.flash
            (List.range ftl.cfg.physicalPageCount) (0, -1)).2.toNat + 1 ≥
            ftl.cfg.physicalPageCount then 0
          else (scanMTT ftl.flash (List.range ftl.cfg.physicalPageCount)
            (0, -1)).2.toNat + 1) ∧
        g.cfg = ftl.cfg ∧ g.flash = ftl.flash) ∧
    ((scanMTT ftl.flash (List.range ftl.cfg.physicalPageCount) (0, -1)).2 < 0 →
      (∀ i < ftl.cfg.physicalPageCount, headerValidMTT ftl.flash i = true →
        headerSerial ftl.flash i = 0) ∧
      loadFTL ftl = none) ∧
    (sz ∈ supportedFlashSizes → loadFTL (mkInitFTL flash sz) = none →
      ftlInit flash sz = some (createFTL (mkInitFTL flash sz))) := by
  obtain ⟨hres, hmono, hmax⟩ := scanMTT_result ftl.flash
    (List.range ftl.cfg.physicalPageCount) (0, -1)
  refine ⟨?_, ?_, fun hmem hload => ftlInit_format flash sz hmem hload⟩
  · intro hge
    rcases hres with h | ⟨i, hi, he, hv, hlt⟩
    · rw [h] at hge
      exact absurd hge (by decide)
    · rw [he] at hge ⊢
      have hiP : i < ftl.cfg.physicalPageCount := List.mem_range.mp hi
      have htn : ((i : Int)).toNat = i := Int.toNat_natCast i
      dsimp only at htn ⊢
      rw [htn]
      refine ⟨hiP, hv, by simpa using hlt, ?_, ?_⟩
      · intro q hq hqv
        have h4 := hmax q (List.mem_range.mpr hq) hqv
        rw [he] at h4
        exact h4
      · obtain ⟨hc, hm, hf, hw⟩ := loadPrep_fields ftl i
        obtain ⟨gc, gm, gw, gf⟩ := loadGo_sameCore (loadPrep ftl i) i
        refine ⟨(loadGo (loadPrep ftl i) i).1, (loadGo (loadPrep ftl i) i).2,
          ?_, ?_, ?_, ?_, ?_⟩
        · unfold loadFTL
          rw [if_pos (by rw [he]; exact hge), he]
          dsimp only
          rw [htn]
        · rw [gm, hm]
        · rw [gw, hw]
        · rw [gc, hc]
        · rw [gf, hf]
  · intro hlt
    constructor
    · intro q hq hqv
      have h4 := hmax q (List.mem_range.mpr hq) hqv
      rcases hres with h | ⟨i, hi, he, hv, hgt⟩
      · rw [h] at h4
        omega
      · rw [he] at hlt
        exact absurd hlt (by simp)
    · exact loadFTL_none ftl hlt


/-! ### State-map frame lemmas (shared helpers) -/

theorem getSet_self (ftl : FTL) (p : Nat) (s : PhysicalPageState) :
    getPhysicalPageState (setPhysicalPageState ftl p s) p = s := by
  unfold getPhysicalPageState setPhysicalPageState
  simp only [eq_self_iff_true, if_true]
  rw [stateBits_get_set (ftl.physicalPageState (p / 16)) s.toNat (p % 16)
    (by omega) (by cases s <;> decide)]
  cases s <;> rfl

theorem getSet_frame (ftl : FTL) (p q : Nat) (s : PhysicalPageState)
    (hq : q ≠ p) :
    getPhysicalPageState (setPhysicalPageState ftl p s) q =
      getPhysicalPageState ftl q := by
  unfold getPhysicalPageState setPhysicalPageState
  by_cases hw : q / 16 = p / 16
  · simp only [hw, eq_self_iff_true, if_true]
    rw [stateBits_frame (ftl.physicalPageState (p / 16)) s.toNat (p % 16)
      (q % 16) (by omega) (by omega)]
  · simp only [if_neg hw]

theorem get_congr (a b : FTL) (h : a.physicalPageState = b.physicalPageState)
    (p : Nat) : getPhysicalPageState a p = getPhysicalPageState b p := by
  unfold getPhysicalPageState
  rw [h]

/-! ### The allocator scan -/

theorem allocGo_fields :
    ∀ (fuel : Nat) (ftl : FTL),
      (allocGo ftl fuel).2.cfg = ftl.cfg ∧
      (allocGo ftl fuel).2.mttPhysicalPageNo = ftl.mttPhysicalPageNo ∧
      (allocGo ftl fuel).2.pageBuffer = ftl.pageBuffer ∧
      (allocGo ftl fuel).2.physicalPageState = ftl.physicalPageState ∧
      (allocGo ftl fuel).2.physicalPageStateResolved =
        ftl.physicalPageStateResolved ∧
      (allocGo ftl fuel).2.flash = ftl.flash := by
  intro fuel
  induction fuel with
  | zero => exact fun ftl => ⟨rfl, rfl, rfl, rfl, rfl, rfl⟩
  | succ fuel ih =>
    intro ftl
    unfold allocGo
    split
    · exact ih _
    · exact ⟨rfl, rfl, rfl, rfl, rfl, rfl⟩

theorem allocGo_some_not_used :
    ∀ (fuel : Nat) (ftl : FTL) (p : Nat) (g : FTL),
      allocGo ftl fuel = (some p, g) → getPhysicalPageState ftl p ≠ .used := by
  intro fuel
  induction fuel with
  | zero => intro ftl p g h; cases h
  | succ fuel ih =>
    intro ftl p g h
    unfold allocGo at h
    split at h
    · dsimp only at h
      have h2 := ih _ _ _ h
      exact h2
    · next hcond =>
      have hp : ftl.writeFrontier = p := by
        have := congrArg Prod.fst h
        simpa using this
      rw [← hp]
      exact hcond

theorem allocatePhysicalPage_spec (ftl : FTL) (p : Nat) (g : FTL)
    (h : allocatePhysicalPage ftl = (some p, g)) :
    getPhysicalPageState ftl p ≠ .used ∧
    g.cfg = ftl.cfg ∧ g.mttPhysicalPageNo = ftl.mttPhysicalPageNo ∧
    g.pageBuffer = ftl.pageBuffer ∧
    g.physicalPageState = ftl.physicalPageState ∧
    g.physicalPageStateResolved = ftl.physicalPageStateResolved ∧
    g.flash = ftl.flash := by
  unfold allocatePhysicalPage at h
  have h1 := allocGo_some_not_used _ _ _ _ h
  have h2 := allocGo_fields (ftl.cfg.physicalPageCount + 1) ftl
  rw [h] at h2
  exact ⟨h1, h2.1, h2.2.1, h2.2.2.1, h2.2.2.2.1, h2.2.2.2.2.1, h2.2.2.2.2.2⟩

/-! ### Detailed case analysis of a cache load -/

theorem load_detail (ftl : FTL) (la pa : Nat) (hsh : CacheShape ftl)
    (hpos : 0 < ftl.cfg.pageBufferSize) :
    ((loadPhysicalPageInBuffer ftl la pa).1 = none ∧
      (loadPhysicalPageInBuffer ftl la pa).2.1 = ftl) ∨
    ∃ k, k < ftl.cfg.pageBufferSize ∧
      (loadPhysicalPageInBuffer ftl la pa).1 = some k ∧
      ((coresEq (loadPhysicalPageInBuffer ftl la pa).2.1.pageBuffer
          ftl.pageBuffer ∧
        (bufGet ftl.pageBuffer k).physicalPageNo = (pa : Int)) ∨
       ((∀ i < ftl.cfg.pageBufferSize,
          (bufGet ftl.pageBuffer i).physicalPageNo ≠ (pa : Int)) ∧
        (bufGet ftl.pageBuffer k).lock = false ∧
        (∀ j, j ≠ k →
          coreEq (bufGet (loadPhysicalPageInBuffer ftl la pa).2.1.pageBuffer j)
            (bufGet ftl.pageBuffer j)) ∧
        coreEq (bufGet (loadPhysicalPageInBuffer ftl la pa).2.1.pageBuffer k)
          { bufGet ftl.pageBuffer k with
            logicalPageNo := i16ofU16 la, physicalPageNo := (pa : Int),
            lock := false, pMode := .idle, page := ftl.flash pa })) := by
  obtain ⟨hlen, hb, hs⟩ := hsh
  unfold loadPhysicalPageInBuffer
  rcases find_spec ftl pa with ⟨i, hf, hik, hip⟩ | ⟨hf, hnone⟩ <;> simp only [hf]
  · exact Or.inr ⟨i, hik, rfl, Or.inl ⟨lruPromote_coresEq _ _, hip⟩⟩
  · by_cases hc : (bufGet ftl.pageBuffer
        (evictScan ftl.pageBuffer (ftl.cfg.pageBufferSize - 1))).lock = true
    · rw [if_pos hc]
      exact Or.inl ⟨rfl, rfl⟩
    · rw [if_neg hc]
      have hidx : evictScan ftl.pageBuffer (ftl.cfg.pageBufferSize - 1) <
          ftl.pageBuffer.length := evictScan_lt _ _ hb (by omega)
      refine Or.inr ⟨evictScan ftl.pageBuffer (ftl.cfg.pageBufferSize - 1),
        by omega, rfl, Or.inr ⟨hnone, by simpa using hc, ?_, ?_⟩⟩
      · intro j hj
        refine coreEq_trans ((lruPromote_coresEq _ _).2 j) ?_
        rw [bufGet_set_ne _ _ _ _ hj]
        exact coreEq_refl _
      · refine coreEq_trans ((lruPromote_coresEq _ _).2 _) ?_
        rw [bufGet_set_eq _ _ _ hidx]
        exact coreEq_refl _


/-! ### int16 / uint16 bridging under the range invariant -/

theorem i16_mtt_iff (phys : Int) (m : Nat) (h1 : -32768 ≤ phys)
    (h2 : phys < 32768) (h3 : m < 32768) :
    i16toU16 phys = m ↔ phys = (m : Int) := by
  unfold i16toU16
  constructor
  · intro h
    omega
  · intro h
    subst h
    omega

/-! ### Allocator frontier bounds -/

theorem allocGo_wf :
    ∀ (fuel : Nat) (ftl : FTL),
      ftl.writeFrontier < ftl.cfg.physicalPageCount →
      (allocGo ftl fuel).2.writeFrontier < ftl.cfg.physicalPageCount ∧
      (∀ p g, allocGo ftl fuel = (some p, g) →
        p < ftl.cfg.physicalPageCount) := by
  intro fuel
  induction fuel with
  | zero =>
    intro ftl hwf
    exact ⟨hwf, fun p g hh => by cases hh⟩
  | succ fuel ih =>
    intro ftl hwf
    unfold allocGo
    split
    · dsimp only
      have hstep : (if ftl.writeFrontier + 1 ≥ ftl.cfg.physicalPageCount then 0
          else ftl.writeFrontier + 1) < ftl.cfg.physicalPageCount := by
        split <;> omega
      have h2 := ih { ftl with writeFrontier :=
        if ftl.writeFrontier + 1 ≥ ftl.cfg.physicalPageCount then 0
        else ftl.writeFrontier + 1 } hstep
      exact h2
    · dsimp only
      refine ⟨by split <;> omega, ?_⟩
      intro p g hh
      have hp : ftl.writeFrontier = p := by
        have := congrArg Prod.fst hh
        simpa using this
      omega

theorem allocatePhysicalPage_wf (ftl : FTL)
    (hwf : ftl.writeFrontier < ftl.cfg.physicalPageCount) :
    (allocatePhysicalPage ftl).2.writeFrontier < ftl.cfg.physicalPageCount ∧
    (∀ p g, allocatePhysicalPage ftl = (some p, g) →
      p < ftl.cfg.physicalPageCount) := by
  unfold allocatePhysicalPage
  exact allocGo_wf _ ftl hwf

/-! ### Transferring the sync invariant between states -/

theorem SlotsOK_transfer {a b : FTL} (h : SlotsOK b) (hcfg : a.cfg = b.cfg)
    (hmtt : a.mttPhysicalPageNo = b.mttPhysicalPageNo)
    (hwf : a.writeFrontier < a.cfg.physicalPageCount)
    (hused : getPhysicalPageState a a.mttPhysicalPageNo = .used)
    (hcore : coresEq a.pageBuffer b.pageBuffer)
    (hshape : CacheShape a) : SlotsOK a := by
  obtain ⟨⟨_, hpos⟩, hT, hP, hwfP, hmttP, hrange, hmu, hlog, hmttlog, huniq,
    hlock0, hidle⟩ := h
  have hsz : a.cfg.pageBufferSize = b.cfg.pageBufferSize := by rw [hcfg]
  refine ⟨⟨hshape, by rw [hcfg]; exact hpos⟩, by rw [hcfg]; exact hT,
    by rw [hcfg]; exact hP, hwf, by rw [hmtt, hcfg]; exact hmttP,
    ?_, hused, ?_, ?_, ?_, ?_, ?_⟩
  · intro i hi
    have hc := hcore.2 i
    rw [hc.2.1]
    exact hrange i (by omega)
  · intro i hi hl
    have hc := hcore.2 i
    rw [hc.1]
    exact hlog i (by omega) (by rw [← hc.2.2.1]; exact hl)
  · intro i hi hp
    have hc := hcore.2 i
    rw [hc.1]
    exact hmttlog i (by omega) (by rw [← hc.2.1, ← hmtt]; exact hp)
  · intro i hi j hj hpi hpj
    rw [hmtt] at hpi hpj
    exact huniq i (by omega) j (by omega)
      (by rw [← (hcore.2 i).2.1]; exact hpi)
      (by rw [← (hcore.2 j).2.1]; exact hpj)
  · intro i hi hl h0
    have hc := hcore.2 i
    rw [hc.2.1, hmtt]
    exact hlock0 i (by omega) (by rw [← hc.2.2.1]; exact hl)
      (by rw [← hc.1]; exact h0)
  · intro i hi hl
    have hc := hcore.2 i
    rw [hc.2.2.2.1]
    exact hidle i (by omega) (by rw [← hc.2.2.1]; exact hl)

theorem SlotsOK_relocate {a b : FTL} (h : SlotsOK b) (i : Nat) (v : PageBuffer)
    (hi : i < b.cfg.pageBufferSize)
    (hpb : a.pageBuffer = b.pageBuffer.set i v)
    (hcfg : a.cfg = b.cfg) (hmtt : a.mttPhysicalPageNo = b.mttPhysicalPageNo)
    (hwf : a.writeFrontier < a.cfg.physicalPageCount)
    (hused : getPhysicalPageState a a.mttPhysicalPageNo = .used)
    (hv_lru : v.lru = (bufGet b.pageBuffer i).lru)
    (hv_lock : v.lock = (bufGet b.pageBuffer i).lock)
    (hv_pm : v.pMode = (bufGet b.pageBuffer i).pMode)
    (hv_log : v.logicalPageNo = (bufGet b.pageBuffer i).logicalPageNo)
    (hv_rng : -32768 ≤ v.physicalPageNo ∧ v.physicalPageNo < 32768)
    (hv_not : v.physicalPageNo ≠ (b.mttPhysicalPageNo : Int))
    (hnz : (bufGet b.pageBuffer i).logicalPageNo ≠ 0) :
    SlotsOK a := by
  obtain ⟨⟨⟨hlen, hb, hs⟩, hpos⟩, hT, hP, hwfP, hmttP, hrange, hmu, hlog,
    hmttlog, huniq, hlock0, hidle⟩ := h
  have hil : i < b.pageBuffer.length := by omega
  have hget : ∀ j, bufGet a.pageBuffer j =
      (if j = i then v else bufGet b.pageBuffer j) := by
    intro j
    rw [hpb]
    by_cases hj : j = i
    · subst hj
      rw [if_pos rfl, bufGet_set_eq _ _ _ hil]
    · rw [if_neg hj, bufGet_set_ne _ _ _ _ hj]
  have hsz : a.cfg.pageBufferSize = b.cfg.pageBufferSize := by rw [hcfg]
  refine ⟨⟨?_, by rw [hcfg]; exact hpos⟩, by rw [hcfg]; exact hT,
    by rw [hcfg]; exact hP, hwf, by rw [hmtt, hcfg]; exact hmttP,
    ?_, hused, ?_, ?_, ?_, ?_, ?_⟩
  · -- CacheShape a
    obtain ⟨hb2, hs2⟩ := set_keeplru_shape (l := b.pageBuffer) (i := i) (v := v)
      hv_lru hb hs
    refine ⟨?_, ?_, ?_⟩
    · rw [hpb, hcfg]
      simpa using hlen
    · rw [hpb]
      exact hb2
    · rw [hpb]
      exact hs2
  · intro j hj
    rw [hget j]
    by_cases hji : j = i
    · rw [if_pos hji]
      exact hv_rng
    · rw [if_neg hji]
      exact hrange j (by omega)
  · intro j hj hl
    rw [hget j] at hl ⊢
    by_cases hji : j = i
    · rw [if_pos hji] at hl ⊢
      rw [hv_log]
      exact hlog i hi (by rw [← hv_lock]; exact hl)
    · rw [if_neg hji] at hl ⊢
      exact hlog j (by omega) hl
  · intro j hj hp
    rw [hget j] at hp ⊢
    rw [hmtt] at hp
    by_cases hji : j = i
    · rw [if_pos hji] at hp
      exact absurd hp hv_not
    · rw [if_neg hji] at hp ⊢
      exact hmttlog j (by omega) hp
  · intro j hj k hk hpj hpk
    rw [hget j] at hpj
    rw [hget k] at hpk
    rw [hmtt] at hpj hpk
    by_cases hji : j = i
    · rw [if_pos hji] at hpj
      exact absurd hpj hv_not
    · by_cases hki : k = i
      · rw [if_pos hki] at hpk
        exact absurd hpk hv_not
      · rw [if_neg hji] at hpj
        rw [if_neg hki] at hpk
        exact huniq j (by omega) k (by omega) hpj hpk
  · intro j hj hl h0
    rw [hget j] at hl h0 ⊢
    rw [hmtt]
    by_cases hji : j = i
    · rw [if_pos hji] at h0
      rw [hv_log] at h0
      exact absurd h0 hnz
    · rw [if_neg hji] at hl h0 ⊢
      exact hlock0 j (by omega) hl h0
  · intro j hj hl
    rw [hget j] at hl ⊢
    by_cases hji : j = i
    · rw [if_pos hji] at hl ⊢
      rw [hv_pm]
      exact hidle i hi (by rw [← hv_lock]; exact hl)
    · rw [if_neg hji] at hl ⊢
      exact hidle j (by omega) hl

theorem get_set_outside (a : FTL) (pb : List PageBuffer) (p q : Nat)
    (s : PhysicalPageState) (hq : q ≠ p) :
    getPhysicalPageState
      (setPhysicalPageState { a with pageBuffer := pb } p s) q =
      getPhysicalPageState a q := by
  rw [getSet_frame _ _ _ _ hq]
  rfl

/-- All the facts `sync` needs about the state and trace produced by the
RELOCATE_ERASE_PROGRAM arm of `programPageInBuffer` on a buffer whose logical
page is not 0, stated over the literal state term the arm builds. -/
theorem relocate_state_facts (ftl fA : FTL) (i n : Nat) (fl : Flash)
    (v : PageBuffer) (tr0 : Trace)
    (h : SlotsOK ftl) (hi : i < ftl.cfg.pageBufferSize)
    (hnz : (bufGet ftl.pageBuffer i).logicalPageNo ≠ 0)
    (hAcfg : fA.cfg = ftl.cfg)
    (hAmtt : fA.mttPhysicalPageNo = ftl.mttPhysicalPageNo)
    (hApb : fA.pageBuffer = ftl.pageBuffer)
    (hAst : fA.physicalPageState = ftl.physicalPageState)
    (hAwf : fA.writeFrontier < ftl.cfg.physicalPageCount)
    (hnP : n < ftl.cfg.physicalPageCount)
    (hne_new : ftl.mttPhysicalPageNo ≠ n)
    (hne_old : ftl.mttPhysicalPageNo ≠
      i16toU16 (bufGet ftl.pageBuffer i).physicalPageNo)
    (hv_lru : v.lru = (bufGet ftl.pageBuffer i).lru)
    (hv_lock : v.lock = (bufGet ftl.pageBuffer i).lock)
    (hv_pm : v.pMode = (bufGet ftl.pageBuffer i).pMode)
    (hv_log : v.logicalPageNo = (bufGet ftl.pageBuffer i).logicalPageNo)
    (hv_phys : v.physicalPageNo = (n : Int))
    (htr0p : ∀ p la, FlashOp.program p la ∉ tr0)
    (htr0r : ∀ q, FlashOp.read q ∉ tr0) :
    SlotsOK (setPhysicalPageState
      { (setPhysicalPageState { fA with flash := fl }
          (i16toU16 (bufGet fA.pageBuffer i).physicalPageNo) .eraseRequired) with
        pageBuffer := (setPhysicalPageState { fA with flash := fl }
          (i16toU16 (bufGet fA.pageBuffer i).physicalPageNo)
          .eraseRequired).pageBuffer.set i v }
      n .used) ∧
    (setPhysicalPageState
      { (setPhysicalPageState { fA with flash := fl }
          (i16toU16 (bufGet fA.pageBuffer i).physicalPageNo) .eraseRequired) with
        pageBuffer := (setPhysicalPageState { fA with flash := fl }
          (i16toU16 (bufGet fA.pageBuffer i).physicalPageNo)
          .eraseRequired).pageBuffer.set i v }
      n .used).cfg = ftl.cfg ∧
    (setPhysicalPageState
      { (setPhysicalPageState { fA with flash := fl }
          (i16toU16 (bufGet fA.pageBuffer i).physicalPageNo) .eraseRequired) with
        pageBuffer := (setPhysicalPageState { fA with flash := fl }
          (i16toU16 (bufGet fA.pageBuffer i).physicalPageNo)
          .eraseRequired).pageBuffer.set i v }
      n .used).mttPhysicalPageNo = ftl.mttPhysicalPageNo ∧
    (∀ j, j ≠ i → bufGet (setPhysicalPageState
      { (setPhysicalPageState { fA with flash := fl }
          (i16toU16 (bufGet fA.pageBuffer i).physicalPageNo) .eraseRequired) with
        pageBuffer := (setPhysicalPageState { fA with flash := fl }
          (i16toU16 (bufGet fA.pageBuffer i).physicalPageNo)
          .eraseRequired).pageBuffer.set i v }
      n .used).pageBuffer j = bufGet ftl.pageBuffer j) ∧
    (bufGet (setPhysicalPageState
      { (setPhysicalPageState { fA with flash := fl }
          (i16toU16 (bufGet fA.pageBuffer i).physicalPageNo) .eraseRequired) with
        pageBuffer := (setPhysicalPageState { fA with flash := fl }
          (i16toU16 (bufGet fA.pageBuffer i).physicalPageNo)
          .eraseRequired).pageBuffer.set i v }
      n .used).pageBuffer i).lock = (bufGet ftl.pageBuffer i).lock ∧
    (bufGet (setPhysicalPageState
      { (setPhysicalPageState { fA with flash := fl }
          (i16toU16 (bufGet fA.pageBuffer i).physicalPageNo) .eraseRequired) with
        pageBuffer := (setPhysicalPageState { fA with flash := fl }
          (i16toU16 (bufGet fA.pageBuffer i).physicalPageNo)
          .eraseRequired).pageBuffer.set i v }
      n .used).pageBuffer i).pMode = (bufGet ftl.pageBuffer i).pMode ∧
    (bufGet (setPhysicalPageState
      { (setPhysicalPageState { fA with flash := fl }
          (i16toU16 (bufGet fA.pageBuffer i).physicalPageNo) .eraseRequired) with
        pageBuffer := (setPhysicalPageState { fA with flash := fl }
          (i16toU16 (bufGet fA.pageBuffer i).physicalPageNo)
          .eraseRequired).pageBuffer.set i v }
      n .used).pageBuffer i).logicalPageNo =
      (bufGet ftl.pageBuffer i).logicalPageNo ∧
    (∀ p la, FlashOp.program p la ∈
        tr0 ++ [FlashOp.program n (bufGet fA.pageBuffer i).logicalPageNo] →
      la = (bufGet ftl.pageBuffer i).logicalPageNo) ∧
    (∀ q, FlashOp.read q ∉
      tr0 ++ [FlashOp.program n (bufGet fA.pageBuffer i).logicalPageNo]) := by
  obtain ⟨⟨⟨hlen, hbnd, hsrj⟩, hpos⟩, hT, hP, hwfP, hmttP, hrange, hused, hlog,
    hmttlog, huniq, hlock0, hidle⟩ := h
  have hSOK : SlotsOK ftl := ⟨⟨⟨hlen, hbnd, hsrj⟩, hpos⟩, hT, hP, hwfP, hmttP,
    hrange, hused, hlog, hmttlog, huniq, hlock0, hidle⟩
  have hil : i < ftl.pageBuffer.length := by omega
  have hb2 : bufGet fA.pageBuffer i = bufGet ftl.pageBuffer i := by rw [hApb]
  refine ⟨?_, (show fA.cfg = ftl.cfg from hAcfg),
    (show fA.mttPhysicalPageNo = ftl.mttPhysicalPageNo from hAmtt),
    ?_, ?_, ?_, ?_, ?_, ?_⟩
  · refine SlotsOK_relocate hSOK i v hi
      (by show fA.pageBuffer.set i v = ftl.pageBuffer.set i v; rw [hApb])
      (show fA.cfg = ftl.cfg from hAcfg)
      (show fA.mttPhysicalPageNo = ftl.mttPhysicalPageNo from hAmtt)
      (by show fA.writeFrontier < fA.cfg.physicalPageCount
          rw [hAcfg]
          exact hAwf)
      ?_ hv_lru hv_lock hv_pm hv_log ?_ ?_ hnz
    · show getPhysicalPageState _ fA.mttPhysicalPageNo = _
      rw [hAmtt]
      rw [get_set_outside _ _ _ _ _ hne_new]
      rw [getSet_frame _ _ _ _ (show ftl.mttPhysicalPageNo ≠
        i16toU16 (bufGet fA.pageBuffer i).physicalPageNo by
          rw [hb2]; exact hne_old)]
      have hfin : getPhysicalPageState fA ftl.mttPhysicalPageNo = .used := by
        rw [get_congr fA ftl hAst]
        exact hused
      exact hfin
    · rw [hv_phys]
      constructor <;> omega
    · rw [hv_phys]
      intro hq
      exact hne_new (by exact_mod_cast hq.symm)
  · intro j hj
    show bufGet (fA.pageBuffer.set i v) j = bufGet ftl.pageBuffer j
    rw [hApb, bufGet_set_ne _ _ _ _ hj]
  · show (bufGet (fA.pageBuffer.set i v) i).lock = _
    rw [hApb, bufGet_set_eq _ _ _ hil, hv_lock]
  · show (bufGet (fA.pageBuffer.set i v) i).pMode = _
    rw [hApb, bufGet_set_eq _ _ _ hil, hv_pm]
  · show (bufGet (fA.pageBuffer.set i v) i).logicalPageNo = _
    rw [hApb, bufGet_set_eq _ _ _ hil, hv_log]
  · intro p la hm
    rcases List.mem_append.mp hm with h1 | h1
    · exact absurd h1 (htr0p p la)
    · simp at h1
      rw [h1.2, hb2]
  · intro q hm
    rcases List.mem_append.mp hm with h1 | h1
    · exact htr0r q h1
    · simp at h1

/-! ### What one programPageInBuffer flush does (non-MTT buffers) -/

theorem program_spec (ftl g : FTL) (i : Nat) (tr : Trace) (h : SlotsOK ftl)
    (hi : i < ftl.cfg.pageBufferSize)
    (hnz : (bufGet ftl.pageBuffer i).logicalPageNo ≠ 0)
    (heq : programPageInBuffer ftl i = (true, g, tr)) :
    SlotsOK g ∧ g.cfg = ftl.cfg ∧
    g.mttPhysicalPageNo = ftl.mttPhysicalPageNo ∧
    (∀ j, j ≠ i → bufGet g.pageBuffer j = bufGet ftl.pageBuffer j) ∧
    (bufGet g.pageBuffer i).lock = (bufGet ftl.pageBuffer i).lock ∧
    (bufGet g.pageBuffer i).pMode = (bufGet ftl.pageBuffer i).pMode ∧
    (bufGet g.pageBuffer i).logicalPageNo =
      (bufGet ftl.pageBuffer i).logicalPageNo ∧
    (∀ p la, FlashOp.program p la ∈ tr →
      la = (bufGet ftl.pageBuffer i).logicalPageNo) ∧
    (∀ q, FlashOp.read q ∉ tr) := by
  obtain ⟨⟨⟨hlen, hbnd, hsrj⟩, hpos⟩, hT, hP, hwfP, hmttP, hrange, hused, hlog,
    hmttlog, huniq, hlock0, hidle⟩ := h
  have hSOK : SlotsOK ftl := ⟨⟨⟨hlen, hbnd, hsrj⟩, hpos⟩, hT, hP, hwfP, hmttP,
    hrange, hused, hlog, hmttlog, huniq, hlock0, hidle⟩
  have hmtt32 : ftl.mttPhysicalPageNo < 32768 := by omega
  have hrng := hrange i hi
  have hne_old : ftl.mttPhysicalPageNo ≠
      i16toU16 (bufGet ftl.pageBuffer i).physicalPageNo := by
    intro hq
    have h2 := (i16_mtt_iff (bufGet ftl.pageBuffer i).physicalPageNo
      ftl.mttPhysicalPageNo hrng.1 hrng.2 hmtt32).mp hq.symm
    exact hnz (hmttlog i hi h2)
  unfold programPageInBuffer at heq
  dsimp only at heq
  obtain ⟨m, hpm⟩ : ∃ m, (bufGet ftl.pageBuffer i).pMode = m := ⟨_, rfl⟩
  cases m
  case idle =>
    rw [hpm] at heq
    dsimp only at heq
    injection heq with h1 h2
    injection h2 with hg ht
    subst hg
    subst ht
    refine ⟨hSOK, rfl, rfl, fun j hj => rfl, rfl, rfl, rfl, ?_, ?_⟩
    · intro p la hm
      simp at hm
    · intro q hm
      simp at hm
  case program =>
    rw [hpm] at heq
    dsimp only at heq
    injection heq with h1 h2
    injection h2 with hg ht
    subst hg
    subst ht
    refine ⟨?_, rfl, rfl, fun j hj => rfl, rfl, rfl, rfl, ?_, ?_⟩
    · refine SlotsOK_transfer hSOK rfl rfl hwfP ?_ (coresEq_refl _)
        ⟨hlen, hbnd, hsrj⟩
      show getPhysicalPageState _ ftl.mttPhysicalPageNo = _
      rw [getSet_frame _ _ _ _ hne_old]
      exact hused
    · intro p la hm
      simp at hm
      exact hm.2
    · intro q hm
      simp at hm
  case eraseProgram =>
    rw [hpm] at heq
    dsimp only at heq
    by_cases hcE : getPhysicalPageState ftl
        (i16toU16 (bufGet ftl.pageBuffer i).physicalPageNo) ≠ .erased
    · rw [if_pos hcE, if_pos hcE] at heq
      injection heq with h1 h2
      injection h2 with hg ht
      subst hg
      subst ht
      refine ⟨?_, rfl, rfl, fun j hj => rfl, rfl, rfl, rfl, ?_, ?_⟩
      · refine SlotsOK_transfer hSOK rfl rfl hwfP ?_ (coresEq_refl _)
          ⟨hlen, hbnd, hsrj⟩
        show getPhysicalPageState _ ftl.mttPhysicalPageNo = _
        rw [getSet_frame _ _ _ _ hne_old]
        exact hused
      · intro p la hm
        simp at hm
        exact hm.2
      · intro q hm
        simp at hm
    · rw [if_neg hcE, if_neg hcE] at heq
      injection heq with h1 h2
      injection h2 with hg ht
      subst hg
      subst ht
      refine ⟨?_, rfl, rfl, fun j hj => rfl, rfl, rfl, rfl, ?_, ?_⟩
      · refine SlotsOK_transfer hSOK rfl rfl hwfP ?_ (coresEq_refl _)
          ⟨hlen, hbnd, hsrj⟩
        show getPhysicalPageState _ ftl.mttPhysicalPageNo = _
        rw [getSet_frame _ _ _ _ hne_old]
        exact hused
      · intro p la hm
        simp at hm
        exact hm.2
      · intro q hm
        simp at hm
  case relocateEraseProgram =>
    rw [hpm] at heq
    dsimp only at heq
    rcases hA : allocatePhysicalPage ftl with ⟨oA, fA⟩
    rw [hA] at heq
    cases oA with
    | none => simp at heq
    | some n =>
      obtain ⟨hAnu, hAcfg, hAmtt, hApb, hAst, hAres, hAfl⟩ :=
        allocatePhysicalPage_spec ftl n fA hA
      have hAwf0 := allocatePhysicalPage_wf ftl hwfP
      rw [hA] at hAwf0
      have hAwf : fA.writeFrontier < ftl.cfg.physicalPageCount := hAwf0.1
      have hnP : n < ftl.cfg.physicalPageCount := hAwf0.2 n fA rfl
      have hne_new : ftl.mttPhysicalPageNo ≠ n := by
        intro hq
        rw [← hq] at hAnu
        exact hAnu hused
      have hnzA : ¬ ((bufGet fA.pageBuffer i).logicalPageNo = 0) := by
        rw [hApb]
        exact hnz
      dsimp only at heq
      rw [if_neg hnzA] at heq
      by_cases hcE : getPhysicalPageState fA
          (i16toU16 (bufGet fA.pageBuffer i).physicalPageNo) ≠ .erased
      · rw [if_pos hcE, if_pos hcE] at heq
        injection heq with h1 h2
        injection h2 with hg ht
        subst hg
        subst ht
        exact relocate_state_facts ftl fA i n _ _ _ hSOK hi hnz hAcfg hAmtt
          hApb hAst hAwf hnP hne_new hne_old (by rw [hApb]) (by rw [hApb])
          (by rw [hApb]) (by rw [hApb]) rfl
          (by intro p la hm; simp at hm) (by intro q hm; simp at hm)
      · rw [if_neg hcE, if_neg hcE] at heq
        injection heq with h1 h2
        injection h2 with hg ht
        subst hg
        subst ht
        exact relocate_state_facts ftl fA i n _ _ _ hSOK hi hnz hAcfg hAmtt
          hApb hAst hAwf hnP hne_new hne_old (by rw [hApb]) (by rw [hApb])
          (by rw [hApb]) (by rw [hApb]) rfl
          (by intro p la hm; simp at hm) (by intro q hm; simp at hm)

/-! ### slotEvolve is reflexive and composes -/

theorem slotEvolve_refl (f : FTL) : slotEvolve f f :=
  fun _ => Or.inl ⟨rfl, rfl⟩

theorem slotEvolve_trans {a b c : FTL} (h1 : slotEvolve a b)
    (h2 : slotEvolve b c) : slotEvolve a c := by
  intro j
  rcases h2 j with ⟨e1, e3⟩ | h | h
  · rcases h1 j with ⟨d1, d3⟩ | h | h
    · exact Or.inl ⟨e1.trans d1, e3.trans d3⟩
    · exact Or.inr (Or.inl (e3.trans h))
    · exact Or.inr (Or.inr (e1.trans h))
  · exact Or.inr (Or.inl h)
  · exact Or.inr (Or.inr h)

/-! ### More invariant transfer lemmas -/

/-- Refilling an unlocked slot with a fresh copy of the MTT page (the cache
miss of a `loadPhysicalPageInBuffer (0, mtt)`) keeps the invariant, provided
no other slot held the MTT page. -/
theorem SlotsOK_refill {a b : FTL} (h : SlotsOK b) (e : Nat)
    (hcfg : a.cfg = b.cfg) (hmtt : a.mttPhysicalPageNo = b.mttPhysicalPageNo)
    (hwf : a.writeFrontier = b.writeFrontier)
    (hst : a.physicalPageState = b.physicalPageState)
    (hshape : CacheShape a)
    (h1 : (bufGet a.pageBuffer e).lock = false)
    (h2 : (bufGet a.pageBuffer e).pMode = .idle)
    (h3 : (bufGet a.pageBuffer e).logicalPageNo = 0)
    (h4 : (bufGet a.pageBuffer e).physicalPageNo = (b.mttPhysicalPageNo : Int))
    (hother : ∀ j, j ≠ e → coreEq (bufGet a.pageBuffer j) (bufGet b.pageBuffer j))
    (hnone : ∀ j < b.cfg.pageBufferSize,
      (bufGet b.pageBuffer j).physicalPageNo ≠ (b.mttPhysicalPageNo : Int)) :
    SlotsOK a := by
  obtain ⟨⟨_, hpos⟩, hT, hP, hwfP, hmttP, hrange, hused, hlog, hmttlog, huniq,
    hlock0, hidle⟩ := h
  have hsz : a.cfg.pageBufferSize = b.cfg.pageBufferSize := by rw [hcfg]
  refine ⟨⟨hshape, by rw [hcfg]; exact hpos⟩, by rw [hcfg]; exact hT,
    by rw [hcfg]; exact hP, by rw [hwf, hcfg]; exact hwfP,
    by rw [hmtt, hcfg]; exact hmttP, ?_,
    by rw [hmtt, get_congr a b hst]; exact hused, ?_, ?_, ?_, ?_, ?_⟩
  · intro j hj
    by_cases hje : j = e
    · subst hje
      rw [h4]
      constructor <;> omega
    · rw [(hother j hje).2.1]
      exact hrange j (by omega)
  · intro j hj hl
    by_cases hje : j = e
    · subst hje
      rw [h1] at hl
      cases hl
    · rw [(hother j hje).1]
      exact hlog j (by omega) (by rw [← (hother j hje).2.2.1]; exact hl)
  · intro j hj hp
    rw [hmtt] at hp
    by_cases hje : j = e
    · subst hje
      exact h3
    · rw [(hother j hje).2.1] at hp
      exact absurd hp (hnone j (by omega))
  · intro j hj k hk hpj hpk
    rw [hmtt] at hpj hpk
    by_cases hje : j = e
    · by_cases hke : k = e
      · rw [hje, hke]
      · rw [(hother k hke).2.1] at hpk
        exact absurd hpk (hnone k (by omega))
    · rw [(hother j hje).2.1] at hpj
      exact absurd hpj (hnone j (by omega))
  · intro j hj hl h0
    rw [hmtt]
    by_cases hje : j = e
    · subst hje
      exact h4
    · rw [(hother j hje).2.1]
      exact hlock0 j (by omega) (by rw [← (hother j hje).2.2.1]; exact hl)
        (by rw [← (hother j hje).1]; exact h0)
  · intro j hj hl
    by_cases hje : j = e
    · subst hje
      exact h2
    · rw [(hother j hje).2.2.2.1]
      exact hidle j (by omega) (by rw [← (hother j hje).2.2.1]; exact hl)

/-- Locking the cached MTT slot (what `updatePhysicalPageInfo` does while
recording a page-info update) keeps the invariant. -/
theorem SlotsOK_lockmtt {a b : FTL} (h : SlotsOK b) (k : Nat) (v : PageBuffer)
    (hk : k < b.cfg.pageBufferSize)
    (hpb : a.pageBuffer = b.pageBuffer.set k v)
    (hcfg : a.cfg = b.cfg) (hmtt : a.mttPhysicalPageNo = b.mttPhysicalPageNo)
    (hwf : a.writeFrontier = b.writeFrontier)
    (hst : a.physicalPageState = b.physicalPageState)
    (hv_lru : v.lru = (bufGet b.pageBuffer k).lru)
    (hv_lock : v.lock = true)
    (hv_log : v.logicalPageNo = 0)
    (hv_phys : v.physicalPageNo = (b.mttPhysicalPageNo : Int))
    (hbk : (bufGet b.pageBuffer k).physicalPageNo = (b.mttPhysicalPageNo : Int)) :
    SlotsOK a := by
  obtain ⟨⟨⟨hlen, hbnd, hsrj⟩, hpos⟩, hT, hP, hwfP, hmttP, hrange, hused, hlog,
    hmttlog, huniq, hlock0, hidle⟩ := h
  have hsz : a.cfg.pageBufferSize = b.cfg.pageBufferSize := by rw [hcfg]
  have hkl : k < b.pageBuffer.length := by omega
  have hget : ∀ j, bufGet a.pageBuffer j =
      (if j = k then v else bufGet b.pageBuffer j) := by
    intro j
    rw [hpb]
    by_cases hj : j = k
    · subst hj
      rw [if_pos rfl, bufGet_set_eq _ _ _ hkl]
    · rw [if_neg hj, bufGet_set_ne _ _ _ _ hj]
  obtain ⟨hb2, hs2⟩ := set_keeplru_shape (l := b.pageBuffer) (i := k) (v := v)
    hv_lru hbnd hsrj
  refine ⟨⟨⟨by rw [hpb, hcfg]; simpa using hlen, by rw [hpb]; exact hb2,
    by rw [hpb]; exact hs2⟩, by rw [hcfg]; exact hpos⟩,
    by rw [hcfg]; exact hT, by rw [hcfg]; exact hP,
    by rw [hwf, hcfg]; exact hwfP, by rw [hmtt, hcfg]; exact hmttP, ?_,
    by rw [hmtt, get_congr a b hst]; exact hused, ?_, ?_, ?_, ?_, ?_⟩
  · intro j hj
    rw [hget j]
    by_cases hjk : j = k
    · rw [if_pos hjk, hv_phys]
      constructor <;> omega
    · rw [if_neg hjk]
      exact hrange j (by omega)
  · intro j hj hl
    rw [hget j] at hl ⊢
    by_cases hjk : j = k
    · rw [if_pos hjk] at hl ⊢
      rw [hv_log]
      exact ⟨by omega, by omega⟩
    · rw [if_neg hjk] at hl ⊢
      exact hlog j (by omega) hl
  · intro j hj hp
    rw [hget j] at hp ⊢
    rw [hmtt] at hp
    by_cases hjk : j = k
    · rw [if_pos hjk] at hp ⊢
      exact hv_log
    · rw [if_neg hjk] at hp ⊢
      exact hmttlog j (by omega) hp
  · intro j hj l hll hpj hpl
    rw [hget j] at hpj
    rw [hget l] at hpl
    rw [hmtt] at hpj hpl
    by_cases hjk : j = k
    · by_cases hlk : l = k
      · rw [hjk, hlk]
      · rw [if_neg hlk] at hpl
        rw [hjk]
        exact (huniq l (by omega) k hk hpl hbk).symm
    · by_cases hlk : l = k
      · rw [if_neg hjk] at hpj
        rw [hlk]
        exact huniq j (by omega) k hk hpj hbk
      · rw [if_neg hjk] at hpj
        rw [if_neg hlk] at hpl
        exact huniq j (by omega) l (by omega) hpj hpl
  · intro j hj hl h0
    rw [hget j] at hl h0 ⊢
    rw [hmtt]
    by_cases hjk : j = k
    · rw [if_pos hjk]
      exact hv_phys
    · rw [if_neg hjk] at hl h0 ⊢
      exact hlock0 j (by omega) hl h0
  · intro j hj hl
    rw [hget j] at hl ⊢
    by_cases hjk : j = k
    · rw [if_pos hjk] at hl
      rw [hv_lock] at hl
      cases hl
    · rw [if_neg hjk] at hl ⊢
      exact hidle j (by omega) hl

/-- Unlocking a slot (setting `lock := false, pMode := NONE` after a flush)
keeps the invariant. -/
theorem SlotsOK_unlock {a b : FTL} (h : SlotsOK b) (i : Nat) (v : PageBuffer)
    (hi : i < b.cfg.pageBufferSize)
    (hpb : a.pageBuffer = b.pageBuffer.set i v)
    (hcfg : a.cfg = b.cfg) (hmtt : a.mttPhysicalPageNo = b.mttPhysicalPageNo)
    (hwf : a.writeFrontier = b.writeFrontier)
    (hst : a.physicalPageState = b.physicalPageState)
    (hv_lru : v.lru = (bufGet b.pageBuffer i).lru)
    (hv_lock : v.lock = false)
    (hv_pm : v.pMode = .idle)
    (hv_log : v.logicalPageNo = (bufGet b.pageBuffer i).logicalPageNo)
    (hv_phys : v.physicalPageNo = (bufGet b.pageBuffer i).physicalPageNo) :
    SlotsOK a := by
  obtain ⟨⟨⟨hlen, hbnd, hsrj⟩, hpos⟩, hT, hP, hwfP, hmttP, hrange, hused, hlog,
    hmttlog, huniq, hlock0, hidle⟩ := h
  have hsz : a.cfg.pageBufferSize = b.cfg.pageBufferSize := by rw [hcfg]
  have hil : i < b.pageBuffer.length := by omega
  have hget : ∀ j, bufGet a.pageBuffer j =
      (if j = i then v else bufGet b.pageBuffer j) := by
    intro j
    rw [hpb]
    by_cases hj : j = i
    · subst hj
      rw [if_pos rfl, bufGet_set_eq _ _ _ hil]
    · rw [if_neg hj, bufGet_set_ne _ _ _ _ hj]
  obtain ⟨hb2, hs2⟩ := set_keeplru_shape (l := b.pageBuffer) (i := i) (v := v)
    hv_lru hbnd hsrj
  refine ⟨⟨⟨by rw [hpb, hcfg]; simpa using hlen, by rw [hpb]; exact hb2,
    by rw [hpb]; exact hs2⟩, by rw [hcfg]; exact hpos⟩,
    by rw [hcfg]; exact hT, by rw [hcfg]; exact hP,
    by rw [hwf, hcfg]; exact hwfP, by rw [hmtt, hcfg]; exact hmttP, ?_,
    by rw [hmtt, get_congr a b hst]; exact hused, ?_, ?_, ?_, ?_, ?_⟩
  · intro j hj
    rw [hget j]
    by_cases hji : j = i
    · rw [if_pos hji, hv_phys]
      exact hrange i hi
    · rw [if_neg hji]
      exact hrange j (by omega)
  · intro j hj hl
    rw [hget j] at hl ⊢
    by_cases hji : j = i
    · rw [if_pos hji] at hl
      rw [hv_lock] at hl
      cases hl
    · rw [if_neg hji] at hl ⊢
      exact hlog j (by omega) hl
  · intro j hj hp
    rw [hget j] at hp ⊢
    rw [hmtt] at hp
    by_cases hji : j = i
    · rw [if_pos hji] at hp ⊢
      rw [hv_phys] at hp
      rw [hv_log]
      exact hmttlog i hi hp
    · rw [if_neg hji] at hp ⊢
      exact hmttlog j (by omega) hp
  · intro j hj l hll hpj hpl
    rw [hget j] at hpj
    rw [hget l] at hpl
    rw [hmtt] at hpj hpl
    by_cases hji : j = i
    · by_cases hli : l = i
      · rw [hji, hli]
      · rw [if_pos hji, hv_phys] at hpj
        rw [if_neg hli] at hpl
        rw [hji]
        exact (huniq l (by omega) i hi hpl hpj).symm
    · by_cases hli : l = i
      · rw [if_pos hli, hv_phys] at hpl
        rw [if_neg hji] at hpj
        rw [hli]
        exact huniq j (by omega) i hi hpj hpl
      · rw [if_neg hji] at hpj
        rw [if_neg hli] at hpl
        exact huniq j (by omega) l (by omega) hpj hpl
  · intro j hj hl h0
    rw [hget j] at hl h0 ⊢
    rw [hmtt]
    by_cases hji : j = i
    · rw [if_pos hji] at hl
      rw [hv_lock] at hl
      cases hl
    · rw [if_neg hji] at hl h0 ⊢
      exact hlock0 j (by omega) hl h0
  · intro j hj hl
    rw [hget j] at hl ⊢
    by_cases hji : j = i
    · rw [if_pos hji]
      exact hv_pm
    · rw [if_neg hji] at hl ⊢
      exact hidle j (by omega) hl

/-! ### The MTT load under the invariant -/

theorem load_mtt_slots (ftl : FTL) (h : SlotsOK ftl) :
    SlotsOK (loadPhysicalPageInBuffer ftl 0 ftl.mttPhysicalPageNo).2.1 ∧
    sameExceptBuffers
      (loadPhysicalPageInBuffer ftl 0 ftl.mttPhysicalPageNo).2.1 ftl ∧
    slotEvolve ftl
      (loadPhysicalPageInBuffer ftl 0 ftl.mttPhysicalPageNo).2.1 ∧
    (∀ j, (bufGet ftl.pageBuffer j).lock = true →
      coreEq (bufGet
        (loadPhysicalPageInBuffer ftl 0 ftl.mttPhysicalPageNo).2.1.pageBuffer j)
        (bufGet ftl.pageBuffer j)) ∧
    (∀ e ∈ (loadPhysicalPageInBuffer ftl 0 ftl.mttPhysicalPageNo).2.2,
      ∃ q, e = FlashOp.read q) ∧
    (∀ k, (loadPhysicalPageInBuffer ftl 0 ftl.mttPhysicalPageNo).1 = some k →
      k < ftl.cfg.pageBufferSize ∧
      (bufGet (loadPhysicalPageInBuffer ftl 0
        ftl.mttPhysicalPageNo).2.1.pageBuffer k).physicalPageNo =
        (ftl.mttPhysicalPageNo : Int) ∧
      (bufGet (loadPhysicalPageInBuffer ftl 0
        ftl.mttPhysicalPageNo).2.1.pageBuffer k).logicalPageNo = 0 ∧
      (bufGet (loadPhysicalPageInBuffer ftl 0
        ftl.mttPhysicalPageNo).2.1.pageBuffer k).lock =
        (bufGet ftl.pageBuffer k).lock) := by
  have hse := load_sameExceptBuffers ftl 0 ftl.mttPhysicalPageNo
  have htr : ∀ e ∈ (loadPhysicalPageInBuffer ftl 0 ftl.mttPhysicalPageNo).2.2,
      ∃ q, e = FlashOp.read q :=
    fun e he => ⟨ftl.mttPhysicalPageNo, load_trace_read_only _ _ _ e he⟩
  obtain ⟨⟨hshape0, hpos⟩, hT, hP, hwfP, hmttP, hrange, hused, hlog, hmttlog,
    huniq, hlock0, hidle⟩ := h
  have hSOK : SlotsOK ftl := ⟨⟨hshape0, hpos⟩, hT, hP, hwfP, hmttP, hrange,
    hused, hlog, hmttlog, huniq, hlock0, hidle⟩
  have hshape2 := load_shape ftl 0 ftl.mttPhysicalPageNo hshape0 hpos
  rcases load_detail ftl 0 ftl.mttPhysicalPageNo hshape0 hpos with
    ⟨hn, hstq⟩ | ⟨k, hk, hsome, hcase⟩
  · refine ⟨by rw [hstq]; exact hSOK, hse, by rw [hstq]; exact slotEvolve_refl _,
      by rw [hstq]; exact fun j _ => coreEq_refl _, htr, ?_⟩
    intro k hk
    rw [hn] at hk
    cases hk
  · rcases hcase with ⟨hcores, hphys⟩ | ⟨hnone, hlk, hothers, hcoree⟩
    · -- cache hit
      refine ⟨?_, hse, ?_, fun j _ => hcores.2 j, htr, ?_⟩
      · refine SlotsOK_transfer hSOK hse.1 hse.2.1 ?_ ?_ hcores hshape2
        · rw [hse.2.2.1, hse.1]
          exact hwfP
        · rw [hse.2.1, get_congr _ ftl hse.2.2.2.1]
          exact hused
      · intro j
        exact Or.inl ⟨(hcores.2 j).1, (hcores.2 j).2.2.1⟩
      · intro k2 hk2
        rw [hsome] at hk2
        have hkk : k2 = k := by
          injection hk2 with hx
          exact hx.symm
        subst hkk
        have hc := hcores.2 k2
        refine ⟨hk, by rw [hc.2.1]; exact hphys, ?_, hc.2.2.1⟩
        rw [hc.1]
        exact hmttlog k2 hk hphys
    · -- cache miss, refill
      have h1 : (bufGet (loadPhysicalPageInBuffer ftl 0
          ftl.mttPhysicalPageNo).2.1.pageBuffer k).lock = false := by
        rw [hcoree.2.2.1]
      have h2 : (bufGet (loadPhysicalPageInBuffer ftl 0
          ftl.mttPhysicalPageNo).2.1.pageBuffer k).pMode = .idle := by
        rw [hcoree.2.2.2.1]
      have h3 : (bufGet (loadPhysicalPageInBuffer ftl 0
          ftl.mttPhysicalPageNo).2.1.pageBuffer k).logicalPageNo = 0 := by
        rw [hcoree.1]
        show i16ofU16 0 = 0
        decide
      have h4 : (bufGet (loadPhysicalPageInBuffer ftl 0
          ftl.mttPhysicalPageNo).2.1.pageBuffer k).physicalPageNo =
          (ftl.mttPhysicalPageNo : Int) := by
        rw [hcoree.2.1]
      refine ⟨?_, hse, ?_, ?_, htr, ?_⟩
      · exact SlotsOK_refill hSOK k hse.1 hse.2.1 hse.2.2.1 hse.2.2.2.1
          hshape2 h1 h2 h3 h4 (fun j hj => hothers j hj) hnone
      · intro j
        by_cases hjk : j = k
        · subst hjk
          exact Or.inr (Or.inl h1)
        · exact Or.inl ⟨(hothers j hjk).1, (hothers j hjk).2.2.1⟩
      · intro j hj
        have hjk : j ≠ k := by
          intro hq
          rw [hq] at hj
          rw [hj] at hlk
          cases hlk
        exact hothers j hjk
      · intro k2 hk2
        rw [hsome] at hk2
        have hkk : k2 = k := by
          injection hk2 with hx
          exact hx.symm
        subst hkk
        exact ⟨hk, h4, h3, by rw [h1, hlk]⟩

/-! ### Page-info reads and updates under the invariant (one-level) -/

theorem readPageInfo_slots (ftl f2 : FTL) (la : Nat) (r : Option PageInfo)
    (tr : Trace) (h : SlotsOK ftl) (hla : la < 1024)
    (heq : readPageInfo ftl la = (r, f2, tr)) :
    SlotsOK f2 ∧ f2.cfg = ftl.cfg ∧
    f2.mttPhysicalPageNo = ftl.mttPhysicalPageNo ∧
    f2.writeFrontier = ftl.writeFrontier ∧
    f2.physicalPageState = ftl.physicalPageState ∧
    slotEvolve ftl f2 ∧
    (∀ j, (bufGet ftl.pageBuffer j).lock = true →
      coreEq (bufGet f2.pageBuffer j) (bufGet ftl.pageBuffer j)) ∧
    (∀ e ∈ tr, ∃ q, e = FlashOp.read q) := by
  unfold readPageInfo at heq
  rw [if_pos (show la < TT_RECORDS_PER_PAGE from hla)] at heq
  unfold readPhysicalPageInfo at heq
  rcases hL : loadPhysicalPageInBuffer ftl 0 ftl.mttPhysicalPageNo
    with ⟨o, fx, tx⟩
  rw [hL] at heq
  have LM := load_mtt_slots ftl h
  rw [hL] at LM
  cases o with
  | none =>
    dsimp only at heq
    injection heq with h1 h2
    injection h2 with hg ht
    subst hg
    subst ht
    exact ⟨LM.1, LM.2.1.1, LM.2.1.2.1, LM.2.1.2.2.1, LM.2.1.2.2.2.1,
      LM.2.2.1, LM.2.2.2.1, LM.2.2.2.2.1⟩
  | some k =>
    dsimp only at heq
    injection heq with h1 h2
    injection h2 with hg ht
    subst hg
    subst ht
    exact ⟨LM.1, LM.2.1.1, LM.2.1.2.1, LM.2.1.2.2.1, LM.2.1.2.2.2.1,
      LM.2.2.1, LM.2.2.2.1, LM.2.2.2.2.1⟩

theorem updPPI_aux (ftl fx : FTL) (k rec : Nat) (pi : PageInfo)
    (hfx : SlotsOK fx) (hse : sameExceptBuffers fx ftl)
    (hev : slotEvolve ftl fx)
    (hlk : ∀ j, (bufGet ftl.pageBuffer j).lock = true →
      coreEq (bufGet fx.pageBuffer j) (bufGet ftl.pageBuffer j))
    (hkC : k < ftl.cfg.pageBufferSize)
    (hkphys : (bufGet fx.pageBuffer k).physicalPageNo =
      (ftl.mttPhysicalPageNo : Int))
    (hklog : (bufGet fx.pageBuffer k).logicalPageNo = 0) :
    SlotsOK { fx with pageBuffer := fx.pageBuffer.set k (updSlot (bufGet fx.pageBuffer k) rec pi) } ∧
    ({ fx with pageBuffer := fx.pageBuffer.set k (updSlot (bufGet fx.pageBuffer k) rec pi) } :
      FTL).cfg = ftl.cfg ∧
    fx.mttPhysicalPageNo = ftl.mttPhysicalPageNo ∧
    fx.writeFrontier = ftl.writeFrontier ∧
    fx.physicalPageState = ftl.physicalPageState ∧
    slotEvolve ftl { fx with pageBuffer := fx.pageBuffer.set k (updSlot (bufGet fx.pageBuffer k) rec pi) } ∧
    (∀ j, (bufGet ftl.pageBuffer j).lock = true →
      (bufGet ({ fx with pageBuffer := fx.pageBuffer.set k (updSlot (bufGet fx.pageBuffer k) rec pi) } :
        FTL).pageBuffer j).logicalPageNo =
        (bufGet ftl.pageBuffer j).logicalPageNo ∧
      (bufGet ({ fx with pageBuffer := fx.pageBuffer.set k (updSlot (bufGet fx.pageBuffer k) rec pi) } :
        FTL).pageBuffer j).physicalPageNo =
        (bufGet ftl.pageBuffer j).physicalPageNo ∧
      (bufGet ({ fx with pageBuffer := fx.pageBuffer.set k (updSlot (bufGet fx.pageBuffer k) rec pi) } :
        FTL).pageBuffer j).lock = true) := by
  have hcfg2 : fx.cfg = ftl.cfg := hse.1
  have hmtt2 : fx.mttPhysicalPageNo = ftl.mttPhysicalPageNo := hse.2.1
  have hlen2 : fx.pageBuffer.length = fx.cfg.pageBufferSize := hfx.1.1.1
  have hsz2 : fx.cfg.pageBufferSize = ftl.cfg.pageBufferSize := by rw [hcfg2]
  have hkl : k < fx.pageBuffer.length := by omega
  refine ⟨?_, hcfg2, hmtt2, hse.2.2.1, hse.2.2.2.1, ?_, ?_⟩
  · refine SlotsOK_lockmtt hfx k (updSlot (bufGet fx.pageBuffer k) rec pi)
      (by omega) rfl rfl rfl rfl rfl rfl rfl ?_ ?_ ?_
    · show (bufGet fx.pageBuffer k).logicalPageNo = 0
      exact hklog
    · show (bufGet fx.pageBuffer k).physicalPageNo = (fx.mttPhysicalPageNo : Int)
      rw [hmtt2]
      exact hkphys
    · rw [hmtt2]
      exact hkphys
  · refine slotEvolve_trans hev ?_
    intro j
    by_cases hjk : j = k
    · subst hjk
      refine Or.inr (Or.inr ?_)
      show (bufGet (fx.pageBuffer.set j
          (updSlot (bufGet fx.pageBuffer j) rec pi)) j).logicalPageNo = 0
      rw [bufGet_set_eq _ _ _ hkl]
      exact hklog
    · refine Or.inl ?_
      show (bufGet (fx.pageBuffer.set k
          (updSlot (bufGet fx.pageBuffer k) rec pi)) j).logicalPageNo = _ ∧
        (bufGet (fx.pageBuffer.set k
          (updSlot (bufGet fx.pageBuffer k) rec pi)) j).lock = _
      rw [bufGet_set_ne _ _ _ _ hjk]
      exact ⟨rfl, rfl⟩
  · intro j hj
    have hc := hlk j hj
    by_cases hjk : j = k
    · subst hjk
      show (bufGet (fx.pageBuffer.set j
          (updSlot (bufGet fx.pageBuffer j) rec pi)) j).logicalPageNo = _ ∧
        (bufGet (fx.pageBuffer.set j
          (updSlot (bufGet fx.pageBuffer j) rec pi)) j).physicalPageNo = _ ∧
        (bufGet (fx.pageBuffer.set j
          (updSlot (bufGet fx.pageBuffer j) rec pi)) j).lock = true
      rw [bufGet_set_eq _ _ _ hkl]
      exact ⟨hc.1, hc.2.1, rfl⟩
    · show (bufGet (fx.pageBuffer.set k
          (updSlot (bufGet fx.pageBuffer k) rec pi)) j).logicalPageNo = _ ∧
        (bufGet (fx.pageBuffer.set k
          (updSlot (bufGet fx.pageBuffer k) rec pi)) j).physicalPageNo = _ ∧
        (bufGet (fx.pageBuffer.set k
          (updSlot (bufGet fx.pageBuffer k) rec pi)) j).lock = true
      rw [bufGet_set_ne _ _ _ _ hjk]
      refine ⟨hc.1, hc.2.1, ?_⟩
      rw [hc.2.2.1]
      exact hj

theorem updPPI_mtt_slots (ftl f2 : FTL) (pi : PageInfo) (rec : Nat) (ok : Bool)
    (tr : Trace) (h : SlotsOK ftl)
    (heq : updatePhysicalPageInfo ftl pi 0 ftl.mttPhysicalPageNo rec =
      (ok, f2, tr)) :
    (∀ e ∈ tr, ∃ q, e = FlashOp.read q) ∧
    (ok = true →
      SlotsOK f2 ∧ f2.cfg = ftl.cfg ∧
      f2.mttPhysicalPageNo = ftl.mttPhysicalPageNo ∧
      f2.writeFrontier = ftl.writeFrontier ∧
      f2.physicalPageState = ftl.physicalPageState ∧
      slotEvolve ftl f2 ∧
      (∀ j, (bufGet ftl.pageBuffer j).lock = true →
        (bufGet f2.pageBuffer j).logicalPageNo =
          (bufGet ftl.pageBuffer j).logicalPageNo ∧
        (bufGet f2.pageBuffer j).physicalPageNo =
          (bufGet ftl.pageBuffer j).physicalPageNo ∧
        (bufGet f2.pageBuffer j).lock = true)) := by
  unfold updatePhysicalPageInfo at heq
  rcases hL : loadPhysicalPageInBuffer ftl 0 ftl.mttPhysicalPageNo
    with ⟨o, fx, tx⟩
  rw [hL] at heq
  have LM := load_mtt_slots ftl h
  rw [hL] at LM
  have LM1 : SlotsOK fx := LM.1
  have LMse : sameExceptBuffers fx ftl := LM.2.1
  have LMev : slotEvolve ftl fx := LM.2.2.1
  have LMlk : ∀ j, (bufGet ftl.pageBuffer j).lock = true →
      coreEq (bufGet fx.pageBuffer j) (bufGet ftl.pageBuffer j) := LM.2.2.2.1
  have LMtr : ∀ e ∈ tx, ∃ q, e = FlashOp.read q := LM.2.2.2.2.1
  cases o with
  | none =>
    dsimp only at heq
    injection heq with h1 h2
    injection h2 with hg ht
    subst hg
    subst ht
    subst h1
    exact ⟨LMtr, fun hc => by cases hc⟩
  | some k =>
    have LMk : k < ftl.cfg.pageBufferSize ∧
        (bufGet fx.pageBuffer k).physicalPageNo =
          (ftl.mttPhysicalPageNo : Int) ∧
        (bufGet fx.pageBuffer k).logicalPageNo = 0 ∧
        (bufGet fx.pageBuffer k).lock = (bufGet ftl.pageBuffer k).lock :=
      LM.2.2.2.2.2 k rfl
    dsimp only at heq
    injection heq with h1 h2
    injection h2 with hg ht
    subst hg
    subst ht
    subst h1
    refine ⟨LMtr, fun _ => ?_⟩
    have F := updPPI_aux ftl fx k rec pi LM1 LMse LMev LMlk LMk.1 LMk.2.1
      LMk.2.2.1
    exact ⟨F.1, F.2.1, F.2.2.1, F.2.2.2.1, F.2.2.2.2.1, F.2.2.2.2.2.1,
      F.2.2.2.2.2.2⟩

theorem updatePageInfo_slots (ftl f2 : FTL) (pi : PageInfo) (la : Nat)
    (ok : Bool) (tr : Trace) (h : SlotsOK ftl) (hla : la < 1024)
    (heq : updatePageInfo ftl pi la = (ok, f2, tr)) :
    (∀ e ∈ tr, ∃ q, e = FlashOp.read q) ∧
    (ok = true →
      SlotsOK f2 ∧ f2.cfg = ftl.cfg ∧
      f2.mttPhysicalPageNo = ftl.mttPhysicalPageNo ∧
      f2.writeFrontier = ftl.writeFrontier ∧
      f2.physicalPageState = ftl.physicalPageState ∧
      slotEvolve ftl f2 ∧
      (∀ j, (bufGet ftl.pageBuffer j).lock = true →
        (bufGet f2.pageBuffer j).logicalPageNo =
          (bufGet ftl.pageBuffer j).logicalPageNo ∧
        (bufGet f2.pageBuffer j).physicalPageNo =
          (bufGet ftl.pageBuffer j).physicalPageNo ∧
        (bufGet f2.pageBuffer j).lock = true)) := by
  unfold updatePageInfo at heq
  rw [if_pos (show la < TT_RECORDS_PER_PAGE from hla)] at heq
  exact updPPI_mtt_slots ftl f2 pi la ok tr h heq


/-- Rewriting only the `page` contents of one slot keeps the invariant. -/
theorem SlotsOK_pageonly {a b : FTL} (h : SlotsOK b) (k : Nat) (v : PageBuffer)
    (hk : k < b.cfg.pageBufferSize)
    (hpb : a.pageBuffer = b.pageBuffer.set k v)
    (hcfg : a.cfg = b.cfg) (hmtt : a.mttPhysicalPageNo = b.mttPhysicalPageNo)
    (hwf : a.writeFrontier = b.writeFrontier)
    (hst : a.physicalPageState = b.physicalPageState)
    (hv_lru : v.lru = (bufGet b.pageBuffer k).lru)
    (hv_lock : v.lock = (bufGet b.pageBuffer k).lock)
    (hv_pm : v.pMode = (bufGet b.pageBuffer k).pMode)
    (hv_log : v.logicalPageNo = (bufGet b.pageBuffer k).logicalPageNo)
    (hv_phys : v.physicalPageNo = (bufGet b.pageBuffer k).physicalPageNo) :
    SlotsOK a := by
  obtain ⟨⟨⟨hlen, hbnd, hsrj⟩, hpos⟩, hT, hP, hwfP, hmttP, hrange, hused, hlog,
    hmttlog, huniq, hlock0, hidle⟩ := h
  have hsz : a.cfg.pageBufferSize = b.cfg.pageBufferSize := by rw [hcfg]
  have hkl : k < b.pageBuffer.length := by omega
  have hget : ∀ j, bufGet a.pageBuffer j =
      (if j = k then v else bufGet b.pageBuffer j) := by
    intro j
    rw [hpb]
    by_cases hj : j = k
    · subst hj
      rw [if_pos rfl, bufGet_set_eq _ _ _ hkl]
    · rw [if_neg hj, bufGet_set_ne _ _ _ _ hj]
  obtain ⟨hb2, hs2⟩ := set_keeplru_shape (l := b.pageBuffer) (i := k) (v := v)
    hv_lru hbnd hsrj
  refine ⟨⟨⟨by rw [hpb, hcfg]; simpa using hlen, by rw [hpb]; exact hb2,
    by rw [hpb]; exact hs2⟩, by rw [hcfg]; exact hpos⟩,
    by rw [hcfg]; exact hT, by rw [hcfg]; exact hP,
    by rw [hwf, hcfg]; exact hwfP, by rw [hmtt, hcfg]; exact hmttP, ?_,
    by rw [hmtt, get_congr a b hst]; exact hused, ?_, ?_, ?_, ?_, ?_⟩
  · intro j hj
    rw [hget j]
    by_cases hjk : j = k
    · rw [if_pos hjk, hv_phys]
      exact hrange k hk
    · rw [if_neg hjk]
      exact hrange j (by omega)
  · intro j hj hl
    rw [hget j] at hl ⊢
    by_cases hjk : j = k
    · rw [if_pos hjk] at hl ⊢
      rw [hv_log]
      exact hlog k hk (by rw [← hv_lock]; exact hl)
    · rw [if_neg hjk] at hl ⊢
      exact hlog j (by omega) hl
  · intro j hj hp
    rw [hget j] at hp ⊢
    rw [hmtt] at hp
    by_cases hjk : j = k
    · rw [if_pos hjk] at hp ⊢
      rw [hv_phys] at hp
      rw [hv_log]
      exact hmttlog k hk hp
    · rw [if_neg hjk] at hp ⊢
      exact hmttlog j (by omega) hp
  · intro j hj l hll hpj hpl
    rw [hget j] at hpj
    rw [hget l] at hpl
    rw [hmtt] at hpj hpl
    by_cases hjk : j = k
    · by_cases hlk2 : l = k
      · rw [hjk, hlk2]
      · rw [if_pos hjk, hv_phys] at hpj
        rw [if_neg hlk2] at hpl
        rw [hjk]
        exact (huniq l (by omega) k hk hpl hpj).symm
    · by_cases hlk2 : l = k
      · rw [if_pos hlk2, hv_phys] at hpl
        rw [if_neg hjk] at hpj
        rw [hlk2]
        exact huniq j (by omega) k hk hpj hpl
      · rw [if_neg hjk] at hpj
        rw [if_neg hlk2] at hpl
        exact huniq j (by omega) l (by omega) hpj hpl
  · intro j hj hl h0
    rw [hget j] at hl h0 ⊢
    rw [hmtt]
    by_cases hjk : j = k
    · rw [if_pos hjk] at hl h0 ⊢
      rw [hv_phys]
      exact hlock0 k hk (by rw [← hv_lock]; exact hl)
        (by rw [← hv_log]; exact h0)
    · rw [if_neg hjk] at hl h0 ⊢
      exact hlock0 j (by omega) hl h0
  · intro j hj hl
    rw [hget j] at hl ⊢
    by_cases hjk : j = k
    · rw [if_pos hjk] at hl ⊢
      rw [hv_pm]
      exact hidle k hk (by rw [← hv_lock]; exact hl)
    · rw [if_neg hjk] at hl ⊢
      exact hidle j (by omega) hl

/-- A slot that is not a locked data-page buffer stays that way across a
`slotEvolve` step (the third alternative lands on logical page 0, below any
positive TT page count). -/
theorem evolve_nodata {a b : FTL} (T : Nat) (hT : 1 ≤ T)
    (hev : slotEvolve a b) (i : Nat)
    (h : ¬((bufGet a.pageBuffer i).lock = true ∧
      (T : Int) ≤ (bufGet a.pageBuffer i).logicalPageNo)) :
    ¬((bufGet b.pageBuffer i).lock = true ∧
      (T : Int) ≤ (bufGet b.pageBuffer i).logicalPageNo) := by
  rcases hev i with ⟨h1, h2⟩ | h2 | h3
  · rw [h1, h2]
    exact h
  · intro hc
    rw [h2] at hc
    cases hc.1
  · intro hc
    rw [h3] at hc
    have := hc.2
    omega

/-- A slot that is not a locked secondary-TT buffer stays that way across a
`slotEvolve` step. -/
theorem evolve_nostt {a b : FTL} (T : Nat)
    (hev : slotEvolve a b) (i : Nat)
    (h : ¬((bufGet a.pageBuffer i).lock = true ∧
      0 < (bufGet a.pageBuffer i).logicalPageNo ∧
      (bufGet a.pageBuffer i).logicalPageNo < (T : Int))) :
    ¬((bufGet b.pageBuffer i).lock = true ∧
      0 < (bufGet b.pageBuffer i).logicalPageNo ∧
      (bufGet b.pageBuffer i).logicalPageNo < (T : Int)) := by
  rcases hev i with ⟨h1, h2⟩ | h2 | h3
  · rw [h1, h2]
    exact h
  · intro hc
    rw [h2] at hc
    cases hc.1
  · intro hc
    rw [h3] at hc
    have := hc.2.1
    omega

/-- What one successful phase-1 body run guarantees: the invariant survives,
the bookkeeping fields stay, every slot evolves, slot `i` is no longer a
locked data-page buffer, and every program issued carries a data-page tag. -/
theorem sync1Body_spec (st g : FTL) (i : Nat) (ok : Bool) (tr : Trace)
    (h : SlotsOK st) (hi : i < st.cfg.pageBufferSize)
    (heq : sync1Body st i = (ok, g, tr)) (hok : ok = true) :
    SlotsOK g ∧ g.cfg = st.cfg ∧ g.mttPhysicalPageNo = st.mttPhysicalPageNo ∧
    slotEvolve st g ∧
    ¬((bufGet g.pageBuffer i).lock = true ∧
      (st.cfg.ttPageCount : Int) ≤ (bufGet g.pageBuffer i).logicalPageNo) ∧
    (∀ p la, FlashOp.program p la ∈ tr →
      (st.cfg.ttPageCount : Int) ≤ la) := by
  subst hok
  unfold sync1Body at heq
  dsimp only at heq
  split at heq
  next hg =>
    have hT1 : 1 ≤ st.cfg.ttPageCount := h.2.1
    have hlk : (bufGet st.pageBuffer i).lock = true := hg.1
    have hge : (st.cfg.ttPageCount : Int) ≤
        (bufGet st.pageBuffer i).logicalPageNo := hg.2
    have hnz : (bufGet st.pageBuffer i).logicalPageNo ≠ 0 := by
      intro h0
      rw [h0] at hge
      omega
    rcases hP : programPageInBuffer st i with ⟨okP, f1, trP⟩
    rw [hP] at heq
    cases okP with
    | false =>
      dsimp only at heq
      injection heq with h1 h2
      cases h1
    | true =>
      dsimp only at heq
      have PS := program_spec st f1 i trP h hi hnz hP
      have hla : (bufGet f1.pageBuffer i).logicalPageNo.toNat < 1024 := by
        rw [PS.2.2.2.2.2.2.1]
        have hl1024 := h.2.2.2.2.2.2.2.1 i hi hlk
        omega
      rcases hR : readPageInfo f1 ((bufGet f1.pageBuffer i).logicalPageNo.toNat)
        with ⟨r, f2, trR⟩
      rw [hR] at heq
      cases r with
      | none =>
        dsimp only at heq
        injection heq with h1 h2
        cases h1
      | some pinfo =>
        dsimp only at heq
        have RS := readPageInfo_slots f1 f2
          ((bufGet f1.pageBuffer i).logicalPageNo.toNat) (some pinfo) trR
          PS.1 hla hR
        rcases hU : updatePageInfo f2
          { pinfo with
            physicalPageNo := (bufGet f2.pageBuffer i).physicalPageNo }
          ((bufGet f1.pageBuffer i).logicalPageNo.toNat)
          with ⟨okU, f3, trU⟩
        rw [hU] at heq
        cases okU with
        | false =>
          dsimp only at heq
          injection heq with h1 h2
          cases h1
        | true =>
          dsimp only at heq
          have US := updatePageInfo_slots f2 f3
            { pinfo with
              physicalPageNo := (bufGet f2.pageBuffer i).physicalPageNo }
            ((bufGet f1.pageBuffer i).logicalPageNo.toNat) true trU RS.1 hla hU
          have US2 := US.2 rfl
          injection heq with h1 h2
          injection h2 with hg2 ht
          subst ht
          subst hg2
          have hcfg3 : f3.cfg = st.cfg := by
            rw [US2.2.1, RS.2.1, PS.2.1]
          have hi3 : i < f3.cfg.pageBufferSize := by
            rw [hcfg3]
            exact hi
          have hil3 : i < f3.pageBuffer.length := by
            have hlen3 := US2.1.1.1.1
            omega
          refine ⟨?_, ?_, ?_, ?_, ?_, ?_⟩
          · exact SlotsOK_unlock US2.1 i ({ bufGet f3.pageBuffer i with lock := false, pMode := .idle }) hi3 rfl rfl rfl rfl rfl rfl rfl rfl rfl rfl
          · exact hcfg3
          · show f3.mttPhysicalPageNo = st.mttPhysicalPageNo
            rw [US2.2.2.1, RS.2.2.1, PS.2.2.1]
          · have ev1 : slotEvolve st f1 := by
              intro j
              by_cases hj : j = i
              · subst hj
                exact Or.inl ⟨PS.2.2.2.2.2.2.1, PS.2.2.2.2.1⟩
              · rw [PS.2.2.2.1 j hj]
                exact Or.inl ⟨rfl, rfl⟩
            refine slotEvolve_trans (slotEvolve_trans (slotEvolve_trans ev1
              RS.2.2.2.2.2.1) US2.2.2.2.2.2.1) ?_
            intro j
            by_cases hj : j = i
            · subst hj
              refine Or.inr (Or.inl ?_)
              show (bufGet (f3.pageBuffer.set j ({ bufGet f3.pageBuffer j with lock := false, pMode := .idle })) j).lock = false
              rw [bufGet_set_eq _ _ _ hil3]
            · refine Or.inl ?_
              show (bufGet (f3.pageBuffer.set i ({ bufGet f3.pageBuffer i with lock := false, pMode := .idle })) j).logicalPageNo = _ ∧
                (bufGet (f3.pageBuffer.set i ({ bufGet f3.pageBuffer i with lock := false, pMode := .idle })) j).lock = _
              rw [bufGet_set_ne _ _ _ _ hj]
              exact ⟨rfl, rfl⟩
          · intro hc
            have hcl : (bufGet (f3.pageBuffer.set i ({ bufGet f3.pageBuffer i with lock := false, pMode := .idle })) i).lock = true := hc.1
            rw [bufGet_set_eq _ _ _ hil3] at hcl
            cases hcl
          · intro p la hm
            rcases List.mem_append.mp hm with hm | hm
            · rcases List.mem_append.mp hm with hm | hm
              · have hla2 := PS.2.2.2.2.2.2.2.1 p la hm
                rw [hla2]
                exact hge
              · obtain ⟨q, hq⟩ := RS.2.2.2.2.2.2.2 _ hm
                exact FlashOp.noConfusion hq
            · obtain ⟨q, hq⟩ := US.1 _ hm
              exact FlashOp.noConfusion hq
  next hg =>
    injection heq with h1 h2
    injection h2 with hg2 ht
    subst hg2
    subst ht
    refine ⟨h, rfl, rfl, slotEvolve_refl _, ?_, ?_⟩
    · exact fun hc => hg ⟨hc.1, hc.2⟩
    · intro p la hm
      cases hm

/-- The phase-1 fold: starting from the invariant, a successful pass over any
in-range index list preserves the invariant and the bookkeeping fields, only
evolves slots, leaves no visited slot as a locked data-page buffer, and every
program issued carries a data-page tag. -/
theorem syncGo1_spec (l : List Nat) : ∀ (st g : FTL) (tr : Trace),
    SlotsOK st → (∀ i ∈ l, i < st.cfg.pageBufferSize) →
    syncGo1 st l = (true, g, tr) →
    SlotsOK g ∧ g.cfg = st.cfg ∧ g.mttPhysicalPageNo = st.mttPhysicalPageNo ∧
    slotEvolve st g ∧
    (∀ i ∈ l, ¬((bufGet g.pageBuffer i).lock = true ∧
      (st.cfg.ttPageCount : Int) ≤ (bufGet g.pageBuffer i).logicalPageNo)) ∧
    (∀ p la, FlashOp.program p la ∈ tr →
      (st.cfg.ttPageCount : Int) ≤ la) := by
  induction l with
  | nil =>
    intro st g tr h hbnd heq
    unfold syncGo1 at heq
    injection heq with h1 h2
    injection h2 with hg2 ht
    subst hg2
    subst ht
    refine ⟨h, rfl, rfl, slotEvolve_refl _, ?_, ?_⟩
    · intro i hi
      cases hi
    · intro p la hm
      cases hm
  | cons a rest ih =>
    intro st g tr h hbnd heq
    unfold syncGo1 at heq
    rcases hB : sync1Body st a with ⟨okB, st1, trB⟩
    rw [hB] at heq
    cases okB with
    | false =>
      dsimp only at heq
      injection heq with h1 h2
      cases h1
    | true =>
      dsimp only at heq
      rcases hRest : syncGo1 st1 rest with ⟨okR, g2, trR⟩
      rw [hRest] at heq
      dsimp only at heq
      injection heq with h1 h2
      injection h2 with hg2 ht
      subst ht
      subst h1
      subst hg2
      have BS := sync1Body_spec st st1 a true trB h
        (hbnd a (List.mem_cons_self a rest)) hB rfl
      have hcfg1 : st1.cfg = st.cfg := BS.2.1
      have hbnd1 : ∀ i ∈ rest, i < st1.cfg.pageBufferSize := by
        intro i hi
        rw [hcfg1]
        exact hbnd i (List.mem_cons_of_mem a hi)
      have IH := ih st1 g2 trR BS.1 hbnd1 hRest
      refine ⟨IH.1, by rw [IH.2.1, hcfg1], by rw [IH.2.2.1, BS.2.2.1],
        slotEvolve_trans BS.2.2.2.1 IH.2.2.2.1, ?_, ?_⟩
      · intro i hi
        rcases List.mem_cons.mp hi with hia | hir
        · subst hia
          exact evolve_nodata st.cfg.ttPageCount h.2.1 IH.2.2.2.1 i
            BS.2.2.2.2.1
        · have hres := IH.2.2.2.2.1 i hir
          rw [hcfg1] at hres
          exact hres
      · intro p la hm
        rcases List.mem_append.mp hm with hm | hm
        · exact BS.2.2.2.2.2 p la hm
        · have hres := IH.2.2.2.2.2 p la hm
          rw [hcfg1] at hres
          exact hres


/-- What one successful phase-2 body run guarantees: the invariant survives,
the bookkeeping fields stay, every slot evolves, the cached-MTT slot `m`
keeps caching the MTT page, slot `i` is no longer a locked secondary-TT
buffer, and every program issued carries a secondary-TT tag. -/
theorem sync2Body_spec (st g : FTL) (m i : Nat) (ok : Bool) (tr : Trace)
    (h : SlotsOK st) (hi : i < st.cfg.pageBufferSize)
    (hm : m < st.cfg.pageBufferSize)
    (hm0 : (bufGet st.pageBuffer m).logicalPageNo = 0)
    (hmp : (bufGet st.pageBuffer m).physicalPageNo =
      (st.mttPhysicalPageNo : Int))
    (heq : sync2Body st m i = (ok, g, tr)) (hok : ok = true) :
    SlotsOK g ∧ g.cfg = st.cfg ∧ g.mttPhysicalPageNo = st.mttPhysicalPageNo ∧
    slotEvolve st g ∧
    (bufGet g.pageBuffer m).logicalPageNo = 0 ∧
    (bufGet g.pageBuffer m).physicalPageNo = (st.mttPhysicalPageNo : Int) ∧
    ¬((bufGet g.pageBuffer i).lock = true ∧
      0 < (bufGet g.pageBuffer i).logicalPageNo ∧
      (bufGet g.pageBuffer i).logicalPageNo < (st.cfg.ttPageCount : Int)) ∧
    (∀ p la, FlashOp.program p la ∈ tr →
      0 < la ∧ la < (st.cfg.ttPageCount : Int)) := by
  subst hok
  unfold sync2Body at heq
  dsimp only at heq
  split at heq
  next hg =>
    have hlk : (bufGet st.pageBuffer i).lock = true := hg.1
    have h0 : 0 < (bufGet st.pageBuffer i).logicalPageNo := hg.2.1
    have hltT : (bufGet st.pageBuffer i).logicalPageNo <
        (st.cfg.ttPageCount : Int) := hg.2.2
    have hnz : (bufGet st.pageBuffer i).logicalPageNo ≠ 0 := by
      intro hq
      rw [hq] at h0
      omega
    have him : i ≠ m := by
      intro hq
      rw [hq, hm0] at h0
      omega
    rcases hP : programPageInBuffer st i with ⟨okP, f1, trP⟩
    rw [hP] at heq
    cases okP with
    | false =>
      dsimp only at heq
      injection heq with h1 h2
      cases h1
    | true =>
      dsimp only at heq
      have PS := program_spec st f1 i trP h hi hnz hP
      have hi1 : i < f1.cfg.pageBufferSize := by
        rw [PS.2.1]
        exact hi
      have hm1 : m < f1.cfg.pageBufferSize := by
        rw [PS.2.1]
        exact hm
      have hlen1 : f1.pageBuffer.length = f1.cfg.pageBufferSize := PS.1.1.1.1
      have hil : i < f1.pageBuffer.length := by omega
      have hml : m < f1.pageBuffer.length := by omega
      have hfm : bufGet f1.pageBuffer m = bufGet st.pageBuffer m :=
        PS.2.2.2.1 m (fun hq => him hq.symm)
      injection heq with h1 h2
      injection h2 with hg2 ht
      subst ht
      subst hg2
      have S2 : SlotsOK { f1 with pageBuffer := f1.pageBuffer.set m ({ bufGet f1.pageBuffer m with page := writePageInfoBytes (bufGet f1.pageBuffer m).page (bufGet f1.pageBuffer i).logicalPageNo.toNat ({ readPageInfoBytes (bufGet f1.pageBuffer m).page (bufGet f1.pageBuffer i).logicalPageNo.toNat with physicalPageNo := (bufGet f1.pageBuffer i).physicalPageNo }) }) } :=
        SlotsOK_pageonly PS.1 m ({ bufGet f1.pageBuffer m with page := writePageInfoBytes (bufGet f1.pageBuffer m).page (bufGet f1.pageBuffer i).logicalPageNo.toNat ({ readPageInfoBytes (bufGet f1.pageBuffer m).page (bufGet f1.pageBuffer i).logicalPageNo.toNat with physicalPageNo := (bufGet f1.pageBuffer i).physicalPageNo }) }) hm1 rfl rfl rfl rfl rfl rfl rfl rfl rfl rfl
      have hill : i < (f1.pageBuffer.set m ({ bufGet f1.pageBuffer m with page := writePageInfoBytes (bufGet f1.pageBuffer m).page (bufGet f1.pageBuffer i).logicalPageNo.toNat ({ readPageInfoBytes (bufGet f1.pageBuffer m).page (bufGet f1.pageBuffer i).logicalPageNo.toNat with physicalPageNo := (bufGet f1.pageBuffer i).physicalPageNo }) })).length := by
        rw [List.length_set]
        exact hil
      have S3 : SlotsOK { { f1 with pageBuffer := f1.pageBuffer.set m ({ bufGet f1.pageBuffer m with page := writePageInfoBytes (bufGet f1.pageBuffer m).page (bufGet f1.pageBuffer i).logicalPageNo.toNat ({ readPageInfoBytes (bufGet f1.pageBuffer m).page (bufGet f1.pageBuffer i).logicalPageNo.toNat with physicalPageNo := (bufGet f1.pageBuffer i).physicalPageNo }) }) } with pageBuffer := (f1.pageBuffer.set m ({ bufGet f1.pageBuffer m with page := writePageInfoBytes (bufGet f1.pageBuffer m).page (bufGet f1.pageBuffer i).logicalPageNo.toNat ({ readPageInfoBytes (bufGet f1.pageBuffer m).page (bufGet f1.pageBuffer i).logicalPageNo.toNat with physicalPageNo := (bufGet f1.pageBuffer i).physicalPageNo }) })).set i ({ bufGet (f1.pageBuffer.set m ({ bufGet f1.pageBuffer m with page := writePageInfoBytes (bufGet f1.pageBuffer m).page (bufGet f1.pageBuffer i).logicalPageNo.toNat ({ readPageInfoBytes (bufGet f1.pageBuffer m).page (bufGet f1.pageBuffer i).logicalPageNo.toNat with physicalPageNo := (bufGet f1.pageBuffer i).physicalPageNo }) })) i with lock := false, pMode := .idle }) } :=
        SlotsOK_unlock S2 i ({ bufGet (f1.pageBuffer.set m ({ bufGet f1.pageBuffer m with page := writePageInfoBytes (bufGet f1.pageBuffer m).page (bufGet f1.pageBuffer i).logicalPageNo.toNat ({ readPageInfoBytes (bufGet f1.pageBuffer m).page (bufGet f1.pageBuffer i).logicalPageNo.toNat with physicalPageNo := (bufGet f1.pageBuffer i).physicalPageNo }) })) i with lock := false, pMode := .idle }) hi1 rfl rfl rfl rfl rfl rfl rfl rfl rfl rfl
      refine ⟨S3, PS.2.1, PS.2.2.1, ?_, ?_, ?_, ?_, ?_⟩
      · intro j
        by_cases hji : j = i
        · subst hji
          refine Or.inr (Or.inl ?_)
          show (bufGet ((f1.pageBuffer.set m ({ bufGet f1.pageBuffer m with page := writePageInfoBytes (bufGet f1.pageBuffer m).page (bufGet f1.pageBuffer j).logicalPageNo.toNat ({ readPageInfoBytes (bufGet f1.pageBuffer m).page (bufGet f1.pageBuffer j).logicalPageNo.toNat with physicalPageNo := (bufGet f1.pageBuffer j).physicalPageNo }) })).set j ({ bufGet (f1.pageBuffer.set m ({ bufGet f1.pageBuffer m with page := writePageInfoBytes (bufGet f1.pageBuffer m).page (bufGet f1.pageBuffer j).logicalPageNo.toNat ({ readPageInfoBytes (bufGet f1.pageBuffer m).page (bufGet f1.pageBuffer j).logicalPageNo.toNat with physicalPageNo := (bufGet f1.pageBuffer j).physicalPageNo }) })) j with lock := false, pMode := .idle })) j).lock = false
          rw [bufGet_set_eq _ _ _ hill]
        · refine Or.inl ?_
          show (bufGet ((f1.pageBuffer.set m ({ bufGet f1.pageBuffer m with page := writePageInfoBytes (bufGet f1.pageBuffer m).page (bufGet f1.pageBuffer i).logicalPageNo.toNat ({ readPageInfoBytes (bufGet f1.pageBuffer m).page (bufGet f1.pageBuffer i).logicalPageNo.toNat with physicalPageNo := (bufGet f1.pageBuffer i).physicalPageNo }) })).set i ({ bufGet (f1.pageBuffer.set m ({ bufGet f1.pageBuffer m with page := writePageInfoBytes (bufGet f1.pageBuffer m).page (bufGet f1.pageBuffer i).logicalPageNo.toNat ({ readPageInfoBytes (bufGet f1.pageBuffer m).page (bufGet f1.pageBuffer i).logicalPageNo.toNat with physicalPageNo := (bufGet f1.pageBuffer i).physicalPageNo }) })) i with lock := false, pMode := .idle })) j).logicalPageNo = (bufGet st.pageBuffer j).logicalPageNo ∧ (bufGet ((f1.pageBuffer.set m ({ bufGet f1.pageBuffer m with page := writePageInfoBytes (bufGet f1.pageBuffer m).page (bufGet f1.pageBuffer i).logicalPageNo.toNat ({ readPageInfoBytes (bufGet f1.pageBuffer m).page (bufGet f1.pageBuffer i).logicalPageNo.toNat with physicalPageNo := (bufGet f1.pageBuffer i).physicalPageNo }) })).set i ({ bufGet (f1.pageBuffer.set m ({ bufGet f1.pageBuffer m with page := writePageInfoBytes (bufGet f1.pageBuffer m).page (bufGet f1.pageBuffer i).logicalPageNo.toNat ({ readPageInfoBytes (bufGet f1.pageBuffer m).page (bufGet f1.pageBuffer i).logicalPageNo.toNat with physicalPageNo := (bufGet f1.pageBuffer i).physicalPageNo }) })) i with lock := false, pMode := .idle })) j).lock = (bufGet st.pageBuffer j).lock
          rw [bufGet_set_ne _ _ _ _ hji]
          by_cases hjm : j = m
          · subst hjm
            rw [bufGet_set_eq _ _ _ hml]
            show (bufGet f1.pageBuffer j).logicalPageNo = _ ∧
              (bufGet f1.pageBuffer j).lock = _
            rw [PS.2.2.2.1 j (fun hq => him hq.symm)]
            exact ⟨rfl, rfl⟩
          · rw [bufGet_set_ne _ _ _ _ hjm, PS.2.2.2.1 j hji]
            exact ⟨rfl, rfl⟩
      · show (bufGet ((f1.pageBuffer.set m ({ bufGet f1.pageBuffer m with page := writePageInfoBytes (bufGet f1.pageBuffer m).page (bufGet f1.pageBuffer i).logicalPageNo.toNat ({ readPageInfoBytes (bufGet f1.pageBuffer m).page (bufGet f1.pageBuffer i).logicalPageNo.toNat with physicalPageNo := (bufGet f1.pageBuffer i).physicalPageNo }) })).set i ({ bufGet (f1.pageBuffer.set m ({ bufGet f1.pageBuffer m with page := writePageInfoBytes (bufGet f1.pageBuffer m).page (bufGet f1.pageBuffer i).logicalPageNo.toNat ({ readPageInfoBytes (bufGet f1.pageBuffer m).page (bufGet f1.pageBuffer i).logicalPageNo.toNat with physicalPageNo := (bufGet f1.pageBuffer i).physicalPageNo }) })) i with lock := false, pMode := .idle })) m).logicalPageNo = 0
        rw [bufGet_set_ne _ _ _ _ (fun hq => him hq.symm),
          bufGet_set_eq _ _ _ hml]
        show (bufGet f1.pageBuffer m).logicalPageNo = 0
        rw [hfm]
        exact hm0
      · show (bufGet ((f1.pageBuffer.set m ({ bufGet f1.pageBuffer m with page := writePageInfoBytes (bufGet f1.pageBuffer m).page (bufGet f1.pageBuffer i).logicalPageNo.toNat ({ readPageInfoBytes (bufGet f1.pageBuffer m).page (bufGet f1.pageBuffer i).logicalPageNo.toNat with physicalPageNo := (bufGet f1.pageBuffer i).physicalPageNo }) })).set i ({ bufGet (f1.pageBuffer.set m ({ bufGet f1.pageBuffer m with page := writePageInfoBytes (bufGet f1.pageBuffer m).page (bufGet f1.pageBuffer i).logicalPageNo.toNat ({ readPageInfoBytes (bufGet f1.pageBuffer m).page (bufGet f1.pageBuffer i).logicalPageNo.toNat with physicalPageNo := (bufGet f1.pageBuffer i).physicalPageNo }) })) i with lock := false, pMode := .idle })) m).physicalPageNo = (st.mttPhysicalPageNo : Int)
        rw [bufGet_set_ne _ _ _ _ (fun hq => him hq.symm),
          bufGet_set_eq _ _ _ hml]
        show (bufGet f1.pageBuffer m).physicalPageNo = (st.mttPhysicalPageNo : Int)
        rw [hfm]
        exact hmp
      · intro hc
        have hcl : (bufGet ((f1.pageBuffer.set m ({ bufGet f1.pageBuffer m with page := writePageInfoBytes (bufGet f1.pageBuffer m).page (bufGet f1.pageBuffer i).logicalPageNo.toNat ({ readPageInfoBytes (bufGet f1.pageBuffer m).page (bufGet f1.pageBuffer i).logicalPageNo.toNat with physicalPageNo := (bufGet f1.pageBuffer i).physicalPageNo }) })).set i ({ bufGet (f1.pageBuffer.set m ({ bufGet f1.pageBuffer m with page := writePageInfoBytes (bufGet f1.pageBuffer m).page (bufGet f1.pageBuffer i).logicalPageNo.toNat ({ readPageInfoBytes (bufGet f1.pageBuffer m).page (bufGet f1.pageBuffer i).logicalPageNo.toNat with physicalPageNo := (bufGet f1.pageBuffer i).physicalPageNo }) })) i with lock := false, pMode := .idle })) i).lock = true := hc.1
        rw [bufGet_set_eq _ _ _ hill] at hcl
        cases hcl
      · intro p la hmem
        have hla2 := PS.2.2.2.2.2.2.2.1 p la hmem
        rw [hla2]
        exact ⟨h0, hltT⟩
  next hg =>
    injection heq with h1 h2
    injection h2 with hg2 ht
    subst hg2
    subst ht
    refine ⟨h, rfl, rfl, slotEvolve_refl _, hm0, hmp, ?_, ?_⟩
    · exact fun hc => hg ⟨hc.1, hc.2.1, hc.2.2⟩
    · intro p la hmem
      cases hmem

/-- The phase-2 fold: starting from the invariant with a slot `m` caching the
MTT page, a successful pass over any in-range index list preserves the
invariant, the bookkeeping fields and slot `m`, only evolves slots, leaves no
visited slot as a locked secondary-TT buffer, and every program issued
carries a secondary-TT tag. -/
theorem syncGo2_spec (l : List Nat) : ∀ (st g : FTL) (m : Nat) (tr : Trace),
    SlotsOK st → (∀ i ∈ l, i < st.cfg.pageBufferSize) →
    m < st.cfg.pageBufferSize →
    (bufGet st.pageBuffer m).logicalPageNo = 0 →
    (bufGet st.pageBuffer m).physicalPageNo = (st.mttPhysicalPageNo : Int) →
    syncGo2 st m l = (true, g, tr) →
    SlotsOK g ∧ g.cfg = st.cfg ∧ g.mttPhysicalPageNo = st.mttPhysicalPageNo ∧
    slotEvolve st g ∧
    (bufGet g.pageBuffer m).logicalPageNo = 0 ∧
    (bufGet g.pageBuffer m).physicalPageNo = (st.mttPhysicalPageNo : Int) ∧
    (∀ i ∈ l, ¬((bufGet g.pageBuffer i).lock = true ∧
      0 < (bufGet g.pageBuffer i).logicalPageNo ∧
      (bufGet g.pageBuffer i).logicalPageNo < (st.cfg.ttPageCount : Int))) ∧
    (∀ p la, FlashOp.program p la ∈ tr →
      0 < la ∧ la < (st.cfg.ttPageCount : Int)) := by
  induction l with
  | nil =>
    intro st g m tr h hbnd hmC hm0 hmp heq
    unfold syncGo2 at heq
    injection heq with h1 h2
    injection h2 with hg2 ht
    subst hg2
    subst ht
    refine ⟨h, rfl, rfl, slotEvolve_refl _, hm0, hmp, ?_, ?_⟩
    · intro i hi
      cases hi
    · intro p la hmem
      cases hmem
  | cons a rest ih =>
    intro st g m tr h hbnd hmC hm0 hmp heq
    unfold syncGo2 at heq
    rcases hB : sync2Body st m a with ⟨okB, st1, trB⟩
    rw [hB] at heq
    cases okB with
    | false =>
      dsimp only at heq
      injection heq with h1 h2
      cases h1
    | true =>
      dsimp only at heq
      rcases hRest : syncGo2 st1 m rest with ⟨okR, g2, trR⟩
      rw [hRest] at heq
      dsimp only at heq
      injection heq with h1 h2
      injection h2 with hg2 ht
      subst ht
      subst h1
      subst hg2
      have BS := sync2Body_spec st st1 m a true trB h
        (hbnd a (List.mem_cons_self a rest)) hmC hm0 hmp hB rfl
      have hcfg1 : st1.cfg = st.cfg := BS.2.1
      have hmtt1 : st1.mttPhysicalPageNo = st.mttPhysicalPageNo := BS.2.2.1
      have hbnd1 : ∀ i ∈ rest, i < st1.cfg.pageBufferSize := by
        intro i hi
        rw [hcfg1]
        exact hbnd i (List.mem_cons_of_mem a hi)
      have hmC1 : m < st1.cfg.pageBufferSize := by
        rw [hcfg1]
        exact hmC
      have hmp1 : (bufGet st1.pageBuffer m).physicalPageNo =
          (st1.mttPhysicalPageNo : Int) := by
        rw [hmtt1]
        exact BS.2.2.2.2.2.1
      have IH := ih st1 g2 m trR BS.1 hbnd1 hmC1 BS.2.2.2.2.1 hmp1 hRest
      refine ⟨IH.1, by rw [IH.2.1, hcfg1], by rw [IH.2.2.1, hmtt1],
        slotEvolve_trans BS.2.2.2.1 IH.2.2.2.1, IH.2.2.2.2.1,
        by rw [IH.2.2.2.2.2.1, hmtt1], ?_, ?_⟩
      · intro i hi
        rcases List.mem_cons.mp hi with hia | hir
        · subst hia
          exact evolve_nostt st.cfg.ttPageCount IH.2.2.2.1 i
            BS.2.2.2.2.2.2.1
        · have hres := IH.2.2.2.2.2.2.1 i hir
          rw [hcfg1] at hres
          exact hres
      · intro p la hmem
        rcases List.mem_append.mp hmem with hmem | hmem
        · exact BS.2.2.2.2.2.2.2 p la hmem
        · have hres := IH.2.2.2.2.2.2.2 p la hmem
          rw [hcfg1] at hres
          exact hres


/-- The facts phase 3 of `ftlSync` needs about the state and trace produced by
the RELOCATE_ERASE_PROGRAM arm of `programPageInBuffer` on a logical-0 (MTT)
buffer, stated over the literal state term the arm builds (including the
master-TT pointer move). -/
theorem relocate0_state_facts (ftl fA : FTL) (i n : Nat) (fl : Flash)
    (v : PageBuffer) (tr0 : Trace)
    (h : cacheGood ftl) (hi : i < ftl.cfg.pageBufferSize)
    (hAcfg : fA.cfg = ftl.cfg)
    (hApb : fA.pageBuffer = ftl.pageBuffer)
    (hv_lru : v.lru = (bufGet fA.pageBuffer i).lru)
    (hv_lock : v.lock = (bufGet fA.pageBuffer i).lock)
    (h0A : (bufGet fA.pageBuffer i).logicalPageNo = 0)
    (htr0 : ∀ p la, FlashOp.program p la ∉ tr0) :
    cacheGood { (setPhysicalPageState
      { (setPhysicalPageState { fA with flash := fl }
          (i16toU16 (bufGet fA.pageBuffer i).physicalPageNo) .eraseRequired) with
        pageBuffer := (setPhysicalPageState { fA with flash := fl }
          (i16toU16 (bufGet fA.pageBuffer i).physicalPageNo)
          .eraseRequired).pageBuffer.set i v }
      n .used) with mttPhysicalPageNo := n } ∧
    ({ (setPhysicalPageState
      { (setPhysicalPageState { fA with flash := fl }
          (i16toU16 (bufGet fA.pageBuffer i).physicalPageNo) .eraseRequired) with
        pageBuffer := (setPhysicalPageState { fA with flash := fl }
          (i16toU16 (bufGet fA.pageBuffer i).physicalPageNo)
          .eraseRequired).pageBuffer.set i v }
      n .used) with mttPhysicalPageNo := n } : FTL).cfg = ftl.cfg ∧
    (∀ j, j ≠ i → bufGet ({ (setPhysicalPageState
      { (setPhysicalPageState { fA with flash := fl }
          (i16toU16 (bufGet fA.pageBuffer i).physicalPageNo) .eraseRequired) with
        pageBuffer := (setPhysicalPageState { fA with flash := fl }
          (i16toU16 (bufGet fA.pageBuffer i).physicalPageNo)
          .eraseRequired).pageBuffer.set i v }
      n .used) with mttPhysicalPageNo := n } : FTL).pageBuffer j =
      bufGet ftl.pageBuffer j) ∧
    (bufGet ({ (setPhysicalPageState
      { (setPhysicalPageState { fA with flash := fl }
          (i16toU16 (bufGet fA.pageBuffer i).physicalPageNo) .eraseRequired) with
        pageBuffer := (setPhysicalPageState { fA with flash := fl }
          (i16toU16 (bufGet fA.pageBuffer i).physicalPageNo)
          .eraseRequired).pageBuffer.set i v }
      n .used) with mttPhysicalPageNo := n } : FTL).pageBuffer i).lock =
      (bufGet ftl.pageBuffer i).lock ∧
    (∀ p la, FlashOp.program p la ∈
      tr0 ++ [FlashOp.program n (bufGet fA.pageBuffer i).logicalPageNo] →
      la = 0) := by
  have hil : i < ftl.pageBuffer.length := by
    have hlen := h.1.1
    omega
  have hilA : i < fA.pageBuffer.length := by
    rw [hApb]
    exact hil
  have hvlru : v.lru = (bufGet ftl.pageBuffer i).lru := by
    rw [hv_lru, hApb]
  obtain ⟨hb2, hs2⟩ := set_keeplru_shape (l := ftl.pageBuffer) (i := i) (v := v)
    hvlru h.1.2.1 h.1.2.2
  refine ⟨⟨⟨?_, ?_, ?_⟩, ?_⟩, ?_, ?_, ?_, ?_⟩
  · show (fA.pageBuffer.set i v).length = fA.cfg.pageBufferSize
    rw [List.length_set, hApb, hAcfg]
    exact h.1.1
  · show lruBounded (fA.pageBuffer.set i v)
    rw [hApb]
    exact hb2
  · show lruSurj (fA.pageBuffer.set i v)
    rw [hApb]
    exact hs2
  · show 0 < fA.cfg.pageBufferSize
    rw [hAcfg]
    exact h.2
  · show fA.cfg = ftl.cfg
    exact hAcfg
  · intro j hj
    show bufGet (fA.pageBuffer.set i v) j = bufGet ftl.pageBuffer j
    rw [bufGet_set_ne _ _ _ _ hj, hApb]
  · show (bufGet (fA.pageBuffer.set i v) i).lock = (bufGet ftl.pageBuffer i).lock
    rw [bufGet_set_eq _ _ _ hilA, hv_lock, hApb]
  · intro p la hm
    rcases List.mem_append.mp hm with hm | hm
    · exact absurd hm (htr0 p la)
    · simp at hm
      rw [hm.2]
      exact h0A

/-- `programPageInBuffer` on a logical-0 (MTT) buffer, when it succeeds: the
cache stays well shaped, the other slots are untouched, the flushed slot
keeps its lock bit, and every program issued carries tag 0. -/
theorem program0_spec (ftl g : FTL) (i : Nat) (tr : Trace)
    (h : cacheGood ftl) (hi : i < ftl.cfg.pageBufferSize)
    (h0 : (bufGet ftl.pageBuffer i).logicalPageNo = 0)
    (heq : programPageInBuffer ftl i = (true, g, tr)) :
    cacheGood g ∧ g.cfg = ftl.cfg ∧
    (∀ j, j ≠ i → bufGet g.pageBuffer j = bufGet ftl.pageBuffer j) ∧
    (bufGet g.pageBuffer i).lock = (bufGet ftl.pageBuffer i).lock ∧
    (∀ p la, FlashOp.program p la ∈ tr → la = 0) := by
  unfold programPageInBuffer at heq
  dsimp only at heq
  obtain ⟨mo, hpm⟩ : ∃ mo, (bufGet ftl.pageBuffer i).pMode = mo := ⟨_, rfl⟩
  cases mo
  case idle =>
    rw [hpm] at heq
    dsimp only at heq
    injection heq with h1 h2
    injection h2 with hg ht
    subst hg
    subst ht
    refine ⟨h, rfl, fun j hj => rfl, rfl, ?_⟩
    intro p la hm
    cases hm
  case program =>
    rw [hpm] at heq
    dsimp only at heq
    injection heq with h1 h2
    injection h2 with hg ht
    subst hg
    subst ht
    refine ⟨h, rfl, fun j hj => rfl, rfl, ?_⟩
    intro p la hm
    simp at hm
    rw [hm.2]
    exact h0
  case eraseProgram =>
    rw [hpm] at heq
    dsimp only at heq
    by_cases hcE : getPhysicalPageState ftl
        (i16toU16 (bufGet ftl.pageBuffer i).physicalPageNo) ≠ .erased
    · rw [if_pos hcE, if_pos hcE] at heq
      injection heq with h1 h2
      injection h2 with hg ht
      subst hg
      subst ht
      refine ⟨h, rfl, fun j hj => rfl, rfl, ?_⟩
      intro p la hm
      rcases List.mem_append.mp hm with hm | hm
      · simp at hm
      · simp at hm
        rw [hm.2]
        exact h0
    · rw [if_neg hcE, if_neg hcE] at heq
      injection heq with h1 h2
      injection h2 with hg ht
      subst hg
      subst ht
      refine ⟨h, rfl, fun j hj => rfl, rfl, ?_⟩
      intro p la hm
      rcases List.mem_append.mp hm with hm | hm
      · cases hm
      · simp at hm
        rw [hm.2]
        exact h0
  case relocateEraseProgram =>
    rw [hpm] at heq
    dsimp only at heq
    rcases hA : allocatePhysicalPage ftl with ⟨oA, fA⟩
    rw [hA] at heq
    cases oA with
    | none => simp at heq
    | some n =>
      obtain ⟨hAnu, hAcfg, hAmtt, hApb, hAst, hAres, hAfl⟩ :=
        allocatePhysicalPage_spec ftl n fA hA
      have h0A : (bufGet fA.pageBuffer i).logicalPageNo = 0 := by
        rw [hApb]
        exact h0
      dsimp only at heq
      rw [if_pos h0A] at heq
      by_cases hcE : getPhysicalPageState fA
          (i16toU16 (bufGet fA.pageBuffer i).physicalPageNo) ≠ .erased
      · rw [if_pos hcE, if_pos hcE] at heq
        injection heq with h1 h2
        injection h2 with hg ht
        subst hg
        subst ht
        exact relocate0_state_facts ftl fA i n _ _ _ h hi hAcfg hApb rfl rfl
          h0A (by intro p la hm; simp at hm)
      · rw [if_neg hcE, if_neg hcE] at heq
        injection heq with h1 h2
        injection h2 with hg ht
        subst hg
        subst ht
        exact relocate0_state_facts ftl fA i n _ _ _ h hi hAcfg hApb rfl rfl
          h0A (by intro p la hm; cases hm)


/-- The master fact about a successful `ftlSync` from an invariant state: the
cache comes out well shaped with every slot unlocked and idle, the
configuration is untouched, and the trace decomposes into the three ordered
flush phases — data-page programs (tag `≥ T`), the MTT reload (reads only),
secondary-TT programs (tag in `(0, T)`), and finally master-TT programs
(tag `0`). -/
theorem ftlSync_ok_spec (ftl g : FTL) (tr : Trace) (h : SlotsOK ftl)
    (heq : ftlSync ftl = (true, g, tr)) :
    cacheGood g ∧ g.cfg = ftl.cfg ∧
    (∀ j < ftl.cfg.pageBufferSize,
      (bufGet g.pageBuffer j).lock = false ∧
      (bufGet g.pageBuffer j).pMode = .idle) ∧
    ∃ t1 t2 t3 t4, tr = t1 ++ t2 ++ t3 ++ t4 ∧
      (∀ p la, FlashOp.program p la ∈ t1 → (ftl.cfg.ttPageCount : Int) ≤ la) ∧
      (∀ e ∈ t2, ∃ q, e = FlashOp.read q) ∧
      (∀ p la, FlashOp.program p la ∈ t3 →
        0 < la ∧ la < (ftl.cfg.ttPageCount : Int)) ∧
      (∀ p la, FlashOp.program p la ∈ t4 → la = 0) := by
  unfold ftlSync at heq
  rcases h1 : syncGo1 ftl (List.range ftl.cfg.pageBufferSize)
    with ⟨ok1, f1, t1⟩
  rw [h1] at heq
  cases ok1 with
  | false =>
    dsimp only at heq
    injection heq with ha hb
    cases ha
  | true =>
    dsimp only at heq
    have S1 := syncGo1_spec (List.range ftl.cfg.pageBufferSize) ftl f1 t1 h
      (fun i hi => List.mem_range.mp hi) h1
    rcases h2 : loadPhysicalPageInBuffer f1 0 f1.mttPhysicalPageNo
      with ⟨o, f2, t2⟩
    rw [h2] at heq
    have LM := load_mtt_slots f1 S1.1
    rw [h2] at LM
    cases o with
    | none =>
      dsimp only at heq
      injection heq with ha hb
      cases ha
    | some mi =>
      dsimp only at heq
      have L1 : SlotsOK f2 := LM.1
      have Lse : sameExceptBuffers f2 f1 := LM.2.1
      have Lev : slotEvolve f1 f2 := LM.2.2.1
      have Ltr : ∀ e ∈ t2, ∃ q, e = FlashOp.read q := LM.2.2.2.2.1
      have Lk : mi < f1.cfg.pageBufferSize ∧
          (bufGet f2.pageBuffer mi).physicalPageNo =
            (f1.mttPhysicalPageNo : Int) ∧
          (bufGet f2.pageBuffer mi).logicalPageNo = 0 ∧
          (bufGet f2.pageBuffer mi).lock = (bufGet f1.pageBuffer mi).lock :=
        LM.2.2.2.2.2 mi rfl
      have hcfg2 : f2.cfg = ftl.cfg := by
        rw [Lse.1, S1.2.1]
      have hmtt2 : f2.mttPhysicalPageNo = ftl.mttPhysicalPageNo := by
        rw [Lse.2.1, S1.2.2.1]
      have hmi2 : mi < f2.cfg.pageBufferSize := by
        rw [Lse.1]
        exact Lk.1
      have hphys2 : (bufGet f2.pageBuffer mi).physicalPageNo =
          (f2.mttPhysicalPageNo : Int) := by
        rw [Lse.2.1]
        exact Lk.2.1
      rcases h3 : syncGo2 f2 mi (List.range f2.cfg.pageBufferSize)
        with ⟨ok3, f3, t3⟩
      rw [h3] at heq
      cases ok3 with
      | false =>
        dsimp only at heq
        injection heq with ha hb
        cases ha
      | true =>
        dsimp only at heq
        have S2 := syncGo2_spec (List.range f2.cfg.pageBufferSize) f2 f3 mi t3
          L1 (fun i hi => List.mem_range.mp hi) hmi2 Lk.2.2.1 hphys2 h3
        obtain ⟨hcg3, hT3, hP3, hwf3, hmttP3, hrange3, hused3, hlog3, hmttlog3,
          huniq3, hlock03, hidle3⟩ := S2.1
        have hcfg3 : f3.cfg = ftl.cfg := by
          rw [S2.2.1, hcfg2]
        have hmi3 : mi < f3.cfg.pageBufferSize := by
          rw [S2.2.1]
          exact hmi2
        have P1f3 : ∀ j < ftl.cfg.pageBufferSize,
            ¬((bufGet f3.pageBuffer j).lock = true ∧
              (ftl.cfg.ttPageCount : Int) ≤
                (bufGet f3.pageBuffer j).logicalPageNo) := by
          intro j hj
          have base := S1.2.2.2.2.1 j (List.mem_range.mpr hj)
          have s1 := evolve_nodata ftl.cfg.ttPageCount h.2.1 Lev j base
          exact evolve_nodata ftl.cfg.ttPageCount h.2.1 S2.2.2.2.1 j s1
        have P2f3 : ∀ j < ftl.cfg.pageBufferSize,
            ¬((bufGet f3.pageBuffer j).lock = true ∧
              0 < (bufGet f3.pageBuffer j).logicalPageNo ∧
              (bufGet f3.pageBuffer j).logicalPageNo <
                (ftl.cfg.ttPageCount : Int)) := by
          intro j hj
          have hres := S2.2.2.2.2.2.2.1 j
            (List.mem_range.mpr (by rw [hcfg2]; exact hj))
          rw [hcfg2] at hres
          exact hres
        have hmip : (bufGet f3.pageBuffer mi).physicalPageNo =
            (f3.mttPhysicalPageNo : Int) := by
          rw [S2.2.2.1]
          exact S2.2.2.2.2.2.1
        have honly : ∀ j < ftl.cfg.pageBufferSize,
            (bufGet f3.pageBuffer j).lock = true → j = mi := by
          intro j hj hl
          have hjC3 : j < f3.cfg.pageBufferSize := by
            rw [hcfg3]
            exact hj
          have hb3 := hlog3 j hjC3 hl
          have hj0 : (bufGet f3.pageBuffer j).logicalPageNo = 0 := by
            by_cases hpos : 0 < (bufGet f3.pageBuffer j).logicalPageNo
            · by_cases hlt : (bufGet f3.pageBuffer j).logicalPageNo <
                  (ftl.cfg.ttPageCount : Int)
              · exact absurd ⟨hl, hpos, hlt⟩ (P2f3 j hj)
              · exact absurd ⟨hl, by omega⟩ (P1f3 j hj)
            · omega
          have hjp := hlock03 j hjC3 hl hj0
          exact huniq3 j hjC3 mi hmi3 hjp hmip
        by_cases hml : (bufGet f3.pageBuffer mi).lock = true
        · rw [if_pos hml] at heq
          rcases h4 : programPageInBuffer f3 mi with ⟨ok4, f4, t4⟩
          rw [h4] at heq
          cases ok4 with
          | false =>
            dsimp only at heq
            injection heq with ha hb
            cases ha
          | true =>
            dsimp only at heq
            injection heq with ha hb
            injection hb with hg ht
            subst ht
            subst hg
            have P0 := program0_spec f3 f4 mi t4 hcg3 hmi3 S2.2.2.2.2.1 h4
            have hmi4 : mi < f4.cfg.pageBufferSize := by
              rw [P0.2.1]
              exact hmi3
            have hmil4 : mi < f4.pageBuffer.length := by
              have hlen4 := P0.1.1.1
              omega
            obtain ⟨hb4, hs4⟩ := set_keeplru_shape (l := f4.pageBuffer)
              (i := mi)
              (v := { bufGet f4.pageBuffer mi with lock := false, pMode := .idle })
              rfl P0.1.1.2.1 P0.1.1.2.2
            refine ⟨⟨⟨?_, ?_, ?_⟩, ?_⟩, ?_, ?_, ?_⟩
            · show (f4.pageBuffer.set mi ({ bufGet f4.pageBuffer mi with lock := false, pMode := .idle })).length = f4.cfg.pageBufferSize
              rw [List.length_set]
              exact P0.1.1.1
            · exact hb4
            · exact hs4
            · show 0 < f4.cfg.pageBufferSize
              exact P0.1.2
            · show f4.cfg = ftl.cfg
              rw [P0.2.1, hcfg3]
            · intro j hj
              by_cases hjmi : j = mi
              · subst hjmi
                constructor
                · show (bufGet (f4.pageBuffer.set j ({ bufGet f4.pageBuffer j with lock := false, pMode := .idle })) j).lock = false
                  rw [bufGet_set_eq _ _ _ hmil4]
                · show (bufGet (f4.pageBuffer.set j ({ bufGet f4.pageBuffer j with lock := false, pMode := .idle })) j).pMode = .idle
                  rw [bufGet_set_eq _ _ _ hmil4]
              · have hj4 : bufGet (f4.pageBuffer.set mi ({ bufGet f4.pageBuffer mi with lock := false, pMode := .idle })) j = bufGet f3.pageBuffer j := by
                  rw [bufGet_set_ne _ _ _ _ hjmi]
                  exact P0.2.2.1 j hjmi
                have hl3 : (bufGet f3.pageBuffer j).lock = false := by
                  rcases Bool.eq_false_or_eq_true
                    (bufGet f3.pageBuffer j).lock with hq | hq
                  · exact absurd (honly j hj hq) hjmi
                  · exact hq
                have hj3 : j < f3.cfg.pageBufferSize := by
                  rw [hcfg3]
                  exact hj
                constructor
                · show (bufGet (f4.pageBuffer.set mi ({ bufGet f4.pageBuffer mi with lock := false, pMode := .idle })) j).lock = false
                  rw [hj4]
                  exact hl3
                · show (bufGet (f4.pageBuffer.set mi ({ bufGet f4.pageBuffer mi with lock := false, pMode := .idle })) j).pMode = .idle
                  rw [hj4]
                  exact hidle3 j hj3 hl3
            · refine ⟨t1, t2, t3, t4, rfl, S1.2.2.2.2.2, Ltr, ?_,
                P0.2.2.2.2⟩
              intro p la hm
              have hres := S2.2.2.2.2.2.2.2 p la hm
              rw [hcfg2] at hres
              exact hres
        · rw [if_neg hml] at heq
          injection heq with ha hb
          injection hb with hg ht
          subst ht
          subst hg
          refine ⟨hcg3, hcfg3, ?_, ?_⟩
          · intro j hj
            rcases Bool.eq_false_or_eq_true (bufGet f3.pageBuffer j).lock
              with hq | hq
            · have hjm := honly j hj hq
              rw [hjm] at hq
              exact absurd hq hml
            · exact ⟨hq, hidle3 j (by rw [hcfg3]; exact hj) hq⟩
          · refine ⟨t1, t2, t3, [], by rw [List.append_nil], S1.2.2.2.2.2,
              Ltr, ?_, ?_⟩
            · intro p la hm
              have hres := S2.2.2.2.2.2.2.2 p la hm
              rw [hcfg2] at hres
              exact hres
            · intro p la hm
              cases hm


/-- A cache whose slots are all unlocked has a free slot. -/
theorem freeCount_all_unlocked (ftl : FTL) (h : cacheGood ftl)
    (hun : ∀ j < ftl.cfg.pageBufferSize,
      (bufGet ftl.pageBuffer j).lock = false) :
    0 < freeCount ftl.pageBuffer := by
  have hl0 : 0 < ftl.pageBuffer.length := by
    have hlen := h.1.1
    have hpos := h.2
    omega
  have hmem : bufGet ftl.pageBuffer 0 ∈ ftl.pageBuffer := by
    rw [bufGet_eq_getElem _ _ hl0]
    exact List.getElem_mem _
  have hlock : (bufGet ftl.pageBuffer 0).lock = false := hun 0 h.2
  unfold freeCount
  rw [List.countP_pos_iff]
  exact ⟨bufGet ftl.pageBuffer 0, hmem, by simp [hlock]⟩

/-- Phase 1 of `ftlSync` is a no-op on a cache with no locked slot. -/
theorem syncGo1_unlocked (l : List Nat) : ∀ (st : FTL),
    (∀ i ∈ l, (bufGet st.pageBuffer i).lock = false) →
    syncGo1 st l = (true, st, []) := by
  induction l with
  | nil =>
    intro st hun
    rfl
  | cons a rest ih =>
    intro st hun
    have hb : sync1Body st a = (true, st, []) := by
      unfold sync1Body
      dsimp only
      rw [if_neg]
      intro hc
      rw [hun a (List.mem_cons_self a rest)] at hc
      exact Bool.noConfusion hc.1
    unfold syncGo1
    rw [hb]
    dsimp only
    rw [ih st (fun i hi => hun i (List.mem_cons_of_mem a hi))]
    rfl

/-- Phase 2 of `ftlSync` is a no-op on a cache with no locked slot. -/
theorem syncGo2_unlocked (l : List Nat) : ∀ (st : FTL) (m : Nat),
    (∀ i ∈ l, (bufGet st.pageBuffer i).lock = false) →
    syncGo2 st m l = (true, st, []) := by
  induction l with
  | nil =>
    intro st m hun
    rfl
  | cons a rest ih =>
    intro st m hun
    have hb : sync2Body st m a = (true, st, []) := by
      unfold sync2Body
      dsimp only
      rw [if_neg]
      intro hc
      rw [hun a (List.mem_cons_self a rest)] at hc
      exact Bool.noConfusion hc.1
    unfold syncGo2
    rw [hb]
    dsimp only
    rw [ih st m (fun i hi => hun i (List.mem_cons_of_mem a hi))]
    rfl

/-- A cache load leaves a fully unlocked cache fully unlocked. -/
theorem load_unlocked (ftl : FTL) (la pa : Nat) (h : cacheGood ftl)
    (hun : ∀ j < ftl.cfg.pageBufferSize,
      (bufGet ftl.pageBuffer j).lock = false) :
    ∀ j < ftl.cfg.pageBufferSize,
      (bufGet (loadPhysicalPageInBuffer ftl la pa).2.1.pageBuffer j).lock =
        false := by
  intro j hj
  rcases load_detail ftl la pa h.1 h.2 with ⟨hn, hstq⟩ | ⟨k, hk, hsome, hcase⟩
  · rw [hstq]
    exact hun j hj
  · rcases hcase with ⟨hcores, hphys⟩ | ⟨hnone, hlk, hothers, hcoree⟩
    · rw [(hcores.2 j).2.2.1]
      exact hun j hj
    · by_cases hjk : j = k
      · subst hjk
        rw [hcoree.2.2.1]
      · rw [(hothers j hjk).2.2.1]
        exact hun j hj

/-- `ftlSync` on a fully unlocked cache succeeds and only reads flash (the
MTT reload of phase 2's preparation is the only HAL traffic). -/
theorem ftlSync_unlocked (ftl : FTL) (h : cacheGood ftl)
    (hun : ∀ j < ftl.cfg.pageBufferSize,
      (bufGet ftl.pageBuffer j).lock = false) :
    (ftlSync ftl).1 = true ∧
    (∀ e ∈ (ftlSync ftl).2.2, ∃ q, e = FlashOp.read q) := by
  have hS := load_isSome ftl 0 ftl.mttPhysicalPageNo h.1 h.2
    (freeCount_all_unlocked ftl h hun)
  have hu2 := load_unlocked ftl 0 ftl.mttPhysicalPageNo h hun
  have htr := load_trace_read_only ftl 0 ftl.mttPhysicalPageNo
  have hse := load_sameExceptBuffers ftl 0 ftl.mttPhysicalPageNo
  have hD := load_detail ftl 0 ftl.mttPhysicalPageNo h.1 h.2
  unfold ftlSync
  rw [syncGo1_unlocked (List.range ftl.cfg.pageBufferSize) ftl
    (fun i hi => hun i (List.mem_range.mp hi))]
  dsimp only
  rcases hL : loadPhysicalPageInBuffer ftl 0 ftl.mttPhysicalPageNo
    with ⟨o, f2, t2⟩
  rw [hL] at hS hu2 htr hse hD
  cases o with
  | none => exact Bool.noConfusion hS
  | some k =>
    have hkC : k < ftl.cfg.pageBufferSize := by
      rcases hD with ⟨hn, hstq⟩ | ⟨k0, hk0, hsome, hcase⟩
      · exact absurd hn (by intro hq; cases hq)
      · have hkk : k = k0 := by
          have hsome2 : some k = some k0 := hsome
          exact Option.some.inj hsome2
        rw [hkk]
        exact hk0
    have hcfg2 : f2.cfg = ftl.cfg := hse.1
    have hu2C : ∀ j < f2.cfg.pageBufferSize,
        (bufGet f2.pageBuffer j).lock = false := by
      intro j hj
      exact hu2 j (by rw [← hcfg2]; exact hj)
    dsimp only
    rw [syncGo2_unlocked (List.range f2.cfg.pageBufferSize) f2 k
      (fun i hi => hu2C i (List.mem_range.mp hi))]
    dsimp only
    have hncond : ¬((bufGet f2.pageBuffer k).lock = true) := by
      intro hc
      rw [hu2C k (by rw [hcfg2]; exact hkC)] at hc
      exact Bool.noConfusion hc
    rw [if_neg hncond]
    refine ⟨rfl, ?_⟩
    intro e he
    simp only [List.append_nil, List.nil_append] at he
    exact ⟨ftl.mttPhysicalPageNo, htr e he⟩

/-- Splitting `A ++ B` at any other point leaves the left part inside `A` or
the right part inside `B`. -/
theorem append_split_sides {α : Type} {A B u v : List α}
    (h : A ++ B = u ++ v) :
    (∀ x ∈ u, x ∈ A) ∨ (∀ y ∈ v, y ∈ B) := by
  rcases List.append_eq_append_iff.mp h with ⟨w, hw1, hw2⟩ | ⟨w, hw1, hw2⟩
  · right
    intro y hy
    rw [hw2]
    exact List.mem_append_right w hy
  · left
    intro x hx
    rw [hw1]
    exact List.mem_append_left w hx

/-- C8: whenever `ftlSync` returns `true` (from a state satisfying the cache
invariant), every page-buffer slot ends with `lock = false` and
`pMode = NONE`, so `hasFreeBuffers` holds for every count up to the cache
size and no buffer is ineligible for eviction. -/
theorem C8_post_sync_buffers_free (ftl g : FTL) (tr : Trace) (h : SlotsOK ftl)
    (heq : ftlSync ftl = (true, g, tr)) :
    (∀ j < g.cfg.pageBufferSize,
      (bufGet g.pageBuffer j).lock = false ∧
      (bufGet g.pageBuffer j).pMode = .idle) ∧
    (∀ k ≤ g.cfg.pageBufferSize, hasFreeBuffers g k = true) := by
  have M := ftlSync_ok_spec ftl g tr h heq
  have hun : ∀ j < g.cfg.pageBufferSize,
      (bufGet g.pageBuffer j).lock = false ∧
      (bufGet g.pageBuffer j).pMode = .idle := by
    intro j hj
    exact M.2.2.1 j (by rw [← M.2.1]; exact hj)
  refine ⟨hun, ?_⟩
  intro k hk
  have hlen : g.pageBuffer.length = g.cfg.pageBufferSize := M.1.1.1
  unfold hasFreeBuffers
  have htake : g.pageBuffer.take g.cfg.pageBufferSize = g.pageBuffer := by
    rw [← hlen]
    exact List.take_length _
  rw [htake]
  have hcnt : g.pageBuffer.countP (fun b => b.lock = false) =
      g.pageBuffer.length := by
    rw [List.countP_eq_length]
    intro a ha
    obtain ⟨i2, hi2, hgi⟩ := List.getElem_of_mem ha
    have halock : a.lock = false := by
      rw [← hgi, ← bufGet_eq_getElem _ _ hi2]
      exact (hun i2 (by omega)).1
    simp [halock]
  exact decide_eq_true (by rw [hcnt]; omega)

/-- C2: during any single successful `ftlSync` from an invariant state the
trace splits into the three flush phases in order — data-page programs
(tag `≥ T`), then the reads-only MTT reload, then secondary-TT programs
(tag in `(0, T)`), then master-TT programs (tag `0`).  Consequently no
data-page program is issued after any secondary-TT program, and after the
master-TT buffer is programmed nothing but the MTT is programmed, so the MTT
is never written before the pages it references. -/
theorem C2_ordered_flush (ftl g : FTL) (tr : Trace) (h : SlotsOK ftl)
    (heq : ftlSync ftl = (true, g, tr)) :
    (∃ t1 t2 t3 t4, tr = t1 ++ t2 ++ t3 ++ t4 ∧
      (∀ p la, FlashOp.program p la ∈ t1 →
        (ftl.cfg.ttPageCount : Int) ≤ la) ∧
      (∀ e ∈ t2, ∃ q, e = FlashOp.read q) ∧
      (∀ p la, FlashOp.program p la ∈ t3 →
        0 < la ∧ la < (ftl.cfg.ttPageCount : Int)) ∧
      (∀ p la, FlashOp.program p la ∈ t4 → la = 0)) ∧
    (∀ u v, tr = u ++ v →
      ∀ p la, FlashOp.program p la ∈ u →
        0 < la ∧ la < (ftl.cfg.ttPageCount : Int) →
        ∀ p2 la2, FlashOp.program p2 la2 ∈ v →
          ¬ (ftl.cfg.ttPageCount : Int) ≤ la2) ∧
    (∀ u v, tr = u ++ v →
      ∀ p, FlashOp.program p 0 ∈ u →
        ∀ p2 la2, FlashOp.program p2 la2 ∈ v → la2 = 0) := by
  have M := ftlSync_ok_spec ftl g tr h heq
  obtain ⟨t1, t2, t3, t4, hdec, hT1, hT2, hT3, hT4⟩ := M.2.2.2
  have hTpos : 1 ≤ ftl.cfg.ttPageCount := h.2.1
  refine ⟨⟨t1, t2, t3, t4, hdec, hT1, hT2, hT3, hT4⟩, ?_, ?_⟩
  · intro u v huv p la hpu hla p2 la2 hpv hge
    have hsplit : t1 ++ (t2 ++ t3 ++ t4) = u ++ v := by
      rw [← huv, hdec]
      simp [List.append_assoc]
    rcases append_split_sides hsplit with hu | hv
    · have := hT1 p la (hu _ hpu)
      omega
    · have hv2 := hv _ hpv
      rcases List.mem_append.mp hv2 with hm | hm
      · rcases List.mem_append.mp hm with hm | hm
        · obtain ⟨q, hq⟩ := hT2 _ hm
          exact FlashOp.noConfusion hq
        · have := hT3 p2 la2 hm
          omega
      · have := hT4 p2 la2 hm
        omega
  · intro u v huv p hpu p2 la2 hpv
    have hsplit : (t1 ++ t2 ++ t3) ++ t4 = u ++ v := by
      rw [← huv, hdec]
    rcases append_split_sides hsplit with hu | hv
    · have hm := hu _ hpu
      rcases List.mem_append.mp hm with hm | hm
      · rcases List.mem_append.mp hm with hm | hm
        · have := hT1 p 0 hm
          omega
        · obtain ⟨q, hq⟩ := hT2 _ hm
          exact FlashOp.noConfusion hq
      · have := hT3 p 0 hm
        omega
    · exact hT4 p2 la2 (hv _ hpv)

/-- C5: after a successful `ftlSync` from an invariant state, an immediately
following `ftlSync` (no intervening writes) returns `true` and issues no
flash program and no flash erase — it only re-reads the MTT page. -/
theorem C5_sync_idempotent (ftl g : FTL) (tr : Trace) (h : SlotsOK ftl)
    (heq : ftlSync ftl = (true, g, tr)) :
    (ftlSync g).1 = true ∧
    (∀ p la, FlashOp.program p la ∉ (ftlSync g).2.2) ∧
    (∀ p, FlashOp.erase p ∉ (ftlSync g).2.2) := by
  have M := ftlSync_ok_spec ftl g tr h heq
  have hun : ∀ j < g.cfg.pageBufferSize,
      (bufGet g.pageBuffer j).lock = false := by
    intro j hj
    exact (M.2.2.1 j (by rw [← M.2.1]; exact hj)).1
  have F := ftlSync_unlocked g M.1 hun
  refine ⟨F.1, ?_, ?_⟩
  · intro p la hm
    obtain ⟨q, hq⟩ := F.2 _ hm
    exact FlashOp.noConfusion hq
  · intro p hm
    obtain ⟨q, hq⟩ := F.2 _ hm
    exact FlashOp.noConfusion hq

theorem C8_post_sync_buffers_free_witness :
    SlotsOK c8FTL ∧
    ((∀ j < (ftlSync c8FTL).2.1.cfg.pageBufferSize,
      (bufGet (ftlSync c8FTL).2.1.pageBuffer j).lock = false ∧
      (bufGet (ftlSync c8FTL).2.1.pageBuffer j).pMode = .idle) ∧
    (∀ k ≤ (ftlSync c8FTL).2.1.cfg.pageBufferSize,
      hasFreeBuffers (ftlSync c8FTL).2.1 k = true)) := by
  have hS : SlotsOK c8FTL :=
    ⟨⟨⟨by decide, by unfold lruBounded; decide, by unfold lruSurj; decide⟩,
      by decide⟩, by decide, by decide, by decide, by decide, by decide,
      by decide, by decide, by decide, by decide, by decide, by decide⟩
  exact ⟨hS, C8_post_sync_buffers_free c8FTL (ftlSync c8FTL).2.1
    (ftlSync c8FTL).2.2 hS rfl⟩

theorem C2_ordered_flush_witness :
    SlotsOK c2FTL ∧
    ((∃ t1 t2 t3 t4, (ftlSync c2FTL).2.2 = t1 ++ t2 ++ t3 ++ t4 ∧
      (∀ p la, FlashOp.program p la ∈ t1 →
        (c2FTL.cfg.ttPageCount : Int) ≤ la) ∧
      (∀ e ∈ t2, ∃ q, e = FlashOp.read q) ∧
      (∀ p la, FlashOp.program p la ∈ t3 →
        0 < la ∧ la < (c2FTL.cfg.ttPageCount : Int)) ∧
      (∀ p la, FlashOp.program p la ∈ t4 → la = 0)) ∧
    (∀ u v, (ftlSync c2FTL).2.2 = u ++ v →
      ∀ p la, FlashOp.program p la ∈ u →
        0 < la ∧ la < (c2FTL.cfg.ttPageCount : Int) →
        ∀ p2 la2, FlashOp.program p2 la2 ∈ v →
          ¬ (c2FTL.cfg.ttPageCount : Int) ≤ la2) ∧
    (∀ u v, (ftlSync c2FTL).2.2 = u ++ v →
      ∀ p, FlashOp.program p 0 ∈ u →
        ∀ p2 la2, FlashOp.program p2 la2 ∈ v → la2 = 0)) := by
  have hS : SlotsOK c2FTL :=
    ⟨⟨⟨by decide, by unfold lruBounded; decide, by unfold lruSurj; decide⟩,
      by decide⟩, by decide, by decide, by decide, by decide, by decide,
      by decide, by decide, by decide, by decide, by decide, by decide⟩
  exact ⟨hS, C2_ordered_flush c2FTL (ftlSync c2FTL).2.1
    (ftlSync c2FTL).2.2 hS rfl⟩

theorem C5_sync_idempotent_witness :
    SlotsOK c5FTL ∧
    ((ftlSync (ftlSync c5FTL).2.1).1 = true ∧
    (∀ p la, FlashOp.program p la ∉ (ftlSync (ftlSync c5FTL).2.1).2.2) ∧
    (∀ p, FlashOp.erase p ∉ (ftlSync (ftlSync c5FTL).2.1).2.2)) := by
  have hS : SlotsOK c5FTL :=
    ⟨⟨⟨by decide, by unfold lruBounded; decide, by unfold lruSurj; decide⟩,
      by decide⟩, by decide, by decide, by decide, by decide, by decide,
      by decide, by decide, by decide, by decide, by decide, by decide⟩
  exact ⟨hS, C5_sync_idempotent c5FTL (ftlSync c5FTL).2.1
    (ftlSync c5FTL).2.2 hS rfl⟩


/-- A byte write outside `[8, 11]` does not change the 32-bit word at 8. -/
theorem readLE32_writeByte_frame (d : PageData) (j v : Nat)
    (h1 : j ≠ 8) (h2 : j ≠ 9) (h3 : j ≠ 10) (h4 : j ≠ 11) :
    readLE32 (writeByte d j v) 8 = readLE32 d 8 := by
  unfold readLE32 writeByte
  rw [if_neg (fun hq => h1 hq.symm), if_neg (fun hq => h2 hq.symm),
    if_neg (fun hq => h3 hq.symm), if_neg (fun hq => h4 hq.symm)]

/-- Writing a TT record (bytes `16 + 3*rec ..`) leaves the serial word
(bytes 8–11) unchanged. -/
theorem readLE32_writePageInfoBytes (d : PageData) (rec : Nat)
    (pi : PageInfo) :
    readLE32 (writePageInfoBytes d rec pi) 8 = readLE32 d 8 := by
  unfold writePageInfoBytes writeLE16
  rw [readLE32_writeByte_frame _ _ _ (by omega) (by omega) (by omega)
    (by omega)]
  rw [readLE32_writeByte_frame _ _ _ (by omega) (by omega) (by omega)
    (by omega)]
  rw [readLE32_writeByte_frame _ _ _ (by omega) (by omega) (by omega)
    (by omega)]

/-- The 32-bit round trip at offset 8. -/
theorem readLE32_writeLE32_8 (d : PageData) (v : Nat) :
    readLE32 (writeLE32 d 8 v) 8 = v % 4294967296 := by
  simp [readLE32, writeLE32, writeByte]
  omega

/-- The header finalisation of a relocated TT page (serial splice, padding
bytes 12–13, CRC at 14–15) leaves exactly the incremented serial in
bytes 8–11. -/
theorem serialOfPreparedPage (d : PageData) (crc : Nat) :
    readLE32 (writeLE16 (writeByte (writeByte (writeLE32 d 8
      ((readLE32 d 8 + 1) % 4294967296)) 12 0xff) 13 0xff) 14 crc) 8 =
    (readLE32 d 8 + 1) % 4294967296 := by
  unfold writeLE16
  rw [readLE32_writeByte_frame _ _ _ (by omega) (by omega) (by omega)
    (by omega)]
  rw [readLE32_writeByte_frame _ _ _ (by omega) (by omega) (by omega)
    (by omega)]
  rw [readLE32_writeByte_frame _ _ _ (by omega) (by omega) (by omega)
    (by omega)]
  rw [readLE32_writeByte_frame _ _ _ (by omega) (by omega) (by omega)
    (by omega)]
  rw [readLE32_writeLE32_8]
  omega

/-- C4 (amended): a successful RELOCATE_ERASE_PROGRAM flush of a TT buffer
(logical page `< T`) programs a page image whose serial is the old buffer
serial plus one, modulo `2^32`; the slot retains that image. -/
theorem C4_relocated_tt_serial_increments (ftl g : FTL) (i : Nat) (tr : Trace)
    (hi : i < ftl.pageBuffer.length)
    (hpm : (bufGet ftl.pageBuffer i).pMode = ProgramMode.relocateEraseProgram)
    (hlt : (bufGet ftl.pageBuffer i).logicalPageNo <
      (ftl.cfg.ttPageCount : Int))
    (heq : programPageInBuffer ftl i = (true, g, tr)) :
    readLE32 ((bufGet g.pageBuffer i).page) 8 =
      (readLE32 ((bufGet ftl.pageBuffer i).page) 8 + 1) % 4294967296 := by
  unfold programPageInBuffer at heq
  dsimp only at heq
  rw [hpm] at heq
  dsimp only at heq
  rcases hA : allocatePhysicalPage ftl with ⟨oA, fA⟩
  rw [hA] at heq
  cases oA with
  | none => simp at heq
  | some n =>
    obtain ⟨hAnu, hAcfg, hAmtt, hApb, hAst, hAres, hAfl⟩ :=
      allocatePhysicalPage_spec ftl n fA hA
    have hiA : i < fA.pageBuffer.length := by
      rw [hApb]
      exact hi
    have hltA : (bufGet fA.pageBuffer i).logicalPageNo <
        (fA.cfg.ttPageCount : Int) := by
      rw [hApb, hAcfg]
      exact hlt
    dsimp only at heq
    rw [if_pos hltA] at heq
    by_cases h0 : (bufGet fA.pageBuffer i).logicalPageNo = 0
    · rw [if_pos h0, if_pos h0] at heq
      by_cases hcE : getPhysicalPageState fA
          (i16toU16 (bufGet fA.pageBuffer i).physicalPageNo) ≠ .erased
      · rw [if_pos hcE, if_pos hcE] at heq
        injection heq with h1 h2
        injection h2 with hg ht
        rw [← hg]
        dsimp only [setPhysicalPageState]
        rw [bufGet_set_eq _ _ _ hiA]
        dsimp only
        rw [serialOfPreparedPage, readLE32_writePageInfoBytes, hApb]
      · rw [if_neg hcE, if_neg hcE] at heq
        injection heq with h1 h2
        injection h2 with hg ht
        rw [← hg]
        dsimp only [setPhysicalPageState]
        rw [bufGet_set_eq _ _ _ hiA]
        dsimp only
        rw [serialOfPreparedPage, readLE32_writePageInfoBytes, hApb]
    · rw [if_neg h0, if_neg h0] at heq
      by_cases hcE : getPhysicalPageState fA
          (i16toU16 (bufGet fA.pageBuffer i).physicalPageNo) ≠ .erased
      · rw [if_pos hcE, if_pos hcE] at heq
        injection heq with h1 h2
        injection h2 with hg ht
        rw [← hg]
        dsimp only [setPhysicalPageState]
        rw [bufGet_set_eq _ _ _ hiA]
        dsimp only
        rw [serialOfPreparedPage, hApb]
      · rw [if_neg hcE, if_neg hcE] at heq
        injection heq with h1 h2
        injection h2 with hg ht
        rw [← hg]
        dsimp only [setPhysicalPageState]
        rw [bufGet_set_eq _ _ _ hiA]
        dsimp only
        rw [serialOfPreparedPage, hApb]

theorem C4_relocated_tt_serial_increments_witness :
    0 < c4WitFTL.pageBuffer.length ∧
    (bufGet c4WitFTL.pageBuffer 0).pMode = ProgramMode.relocateEraseProgram ∧
    (bufGet c4WitFTL.pageBuffer 0).logicalPageNo <
      (c4WitFTL.cfg.ttPageCount : Int) ∧
    programPageInBuffer c4WitFTL 0 =
      (true, (programPageInBuffer c4WitFTL 0).2.1,
        (programPageInBuffer c4WitFTL 0).2.2) ∧
    readLE32 ((bufGet (programPageInBuffer c4WitFTL 0).2.1.pageBuffer 0).page)
        8 =
      (readLE32 ((bufGet c4WitFTL.pageBuffer 0).page) 8 + 1) % 4294967296 :=
  ⟨by decide, by decide, by decide, rfl,
    C4_relocated_tt_serial_increments c4WitFTL
      (programPageInBuffer c4WitFTL 0).2.1 0
      (programPageInBuffer c4WitFTL 0).2.2
      (by decide) (by decide) (by decide) rfl⟩

end FrFTL
